import Mathlib

/-!
# timer-series-maker: the series orchestrator and its fold

A shallow embedding of `src/use/time-series.js` (class `TimeSeries`), of
`src/use/timeseries-collection.js` (class `TimeSeriesCollection`) and of the
catalog table in `src/use/generator-defaults.js`, with the properties of the
composite fold, the identifier counters, the option setters and the component
list.

JavaScript numbers are modelled by exact rationals, together with the two
non-numbers the code can produce (`NaN`, `undefined`).  A thrown `TypeError`
is an `Except.error` that carries the state the throw leaves behind.
-/

namespace TimeSeriesMaker

/-! ## Values -/

/-- The JavaScript values of the numeric code paths: a number, `NaN`, or
`undefined` (what an out-of-range array read yields). -/
inductive JSVal where
  | num (q : ℚ)
  | nan
  | undefined
  deriving DecidableEq

/-- Source: `function add(a, b) { return a+b; }`. -/
def add : JSVal → JSVal → JSVal
  | .num a, .num b => .num (a + b)
  | _, _ => .nan

/-- Source: `function subtract(a, b) { return a-b; }`. -/
def subtract : JSVal → JSVal → JSVal
  | .num a, .num b => .num (a - b)
  | _, _ => .nan

/-- Source: `function multiply(a, b) { return a*b; }`. -/
def multiply : JSVal → JSVal → JSVal
  | .num a, .num b => .num (a * b)
  | _, _ => .nan

/-- JavaScript `a < b` on these values: false as soon as one side is not a number. -/
def JSVal.lt : JSVal → JSVal → Bool
  | .num a, .num b => decide (a < b)
  | _, _ => false

/-- JavaScript `a > b`. -/
def JSVal.gt (a b : JSVal) : Bool := JSVal.lt b a

/-- JavaScript `a >= b` on these values. -/
def JSVal.ge : JSVal → JSVal → Bool
  | .num a, .num b => decide (b ≤ a)
  | _, _ => false

/-- JavaScript `a <= b` on these values. -/
def JSVal.le (a b : JSVal) : Bool := JSVal.ge b a

/-! ## The compositor interface

`compositor.js` is not part of the available sources.  `TimeSeries` only
uses its constants `OPERATOR`, `OP_CASE` and a handful of methods; the
constants are given here, the methods are fields of `Env` below. -/

/-- Modelled from the spec: the operator tags `OPERATOR.ADD`, `OPERATOR.SUBTRACT`,
`OPERATOR.MULTIPLY` of the absent compositor module, as carried by `op.name`;
`other` is any name that is none of the three. -/
inductive OpName where
  | ADD
  | SUBTRACT
  | MULTIPLY
  | other (tag : String)
  deriving DecidableEq

/-- Modelled from the spec: the node cases `OP_CASE.*` of the absent compositor
module that `generate` switches on. -/
inductive OpCase where
  | APPLY_BOTH
  | APPLY_LEFT
  | APPLY_RIGHT
  | APPLY_NESTED_LEFT
  | APPLY_NESTED_RIGHT
  deriving DecidableEq

/-- The arguments `(opCase, left, op, right, extraOp)` the compositor hands to
the callback of `iterate`.  `left`/`right` hold the referenced component id
(`left.id`), `op`/`extraOp` the operator name (`op.name`); `none` is
`undefined`/`null`. -/
structure Node where
  opCase : OpCase
  left : Option String
  op : Option OpName
  right : Option String
  extraOp : Option OpName
  deriving DecidableEq

/-! ## Components -/

/-- A series component as `generate` sees it: its `id`, its cached `data`, and
`gen`, the output of its generator as a function of the sample count. -/
structure Component where
  id : String
  data : List JSVal
  gen : Nat → List JSVal

/-- Modelled from the spec: `TimeSeriesComponent.generate(samples)`, whose source
is absent: it invokes the generator and replaces the cached buffer. -/
def Component.generate (c : Component) (samples : Nat) : Component :=
  { c with data := c.gen samples }

/-- Source: `getComponent(id)`, `this.components.find(c => c.id === id)`. -/
def getComponent (components : List Component) (id : String) : Option Component :=
  components.find? (fun c => c.id == id)

/-- The store after the object `getComponent` finds for `id` has been
regenerated in place: the first component with that id is replaced. -/
def regenerateFirst (samples : Nat) (id : String) : List Component → List Component
  | [] => []
  | c :: cs =>
    if c.id == id then c.generate samples :: cs
    else c :: regenerateFirst samples id cs

/-- Source: the closure `getComp` of `generate`.  A missing component makes
`c.data` throw; a stale one is regenerated in place first. -/
def getComp (samples : Nat) (components : List Component) (id : String) :
    Except (List Component) (Component × List Component) :=
  match getComponent components id with
  | none => .error components
  | some c =>
    if c.data.length ≠ samples then
      .ok (c.generate samples, regenerateFirst samples id components)
    else
      .ok (c, components)

/-! ## The fold -/

/-- What the closure variables `leftVals` / `rightVals` hold: nothing yet,
an array that is not written during the walk (a component's data or a side
buffer), or the accumulator `values` itself (an alias, not a copy). -/
inductive Buf where
  | unset
  | arr (xs : List JSVal)
  | values
  deriving DecidableEq

/-- The read `buf[i]` while the accumulator holds `cur`: a `TypeError` (`none`)
on an unset variable, `undefined` past the end of an array. -/
def Buf.read (cur : List JSVal) : Buf → Nat → Option JSVal
  | .unset, _ => none
  | .arr xs, i => some (xs.getD i .undefined)
  | .values, i => some (cur.getD i .undefined)

/-- The loop of `@stdlib/utils/inmap`: `collection[i] = fcn(collection[i], i)` for
the `n` indices from `i` on; the callback sees the collection as it is now. -/
def inmapLoop (f : List JSVal → Nat → Option JSVal) :
    Nat → Nat → List JSVal → Option (List JSVal)
  | 0, _, vs => some vs
  | n + 1, i, vs =>
    match f vs i with
    | none => none
    | some v => inmapLoop f n (i + 1) (vs.set i v)

/-- Library `@stdlib/utils/inmap`: update every element of the collection in place. -/
def inmap (vs : List JSVal) (f : List JSVal → Nat → Option JSVal) : Option (List JSVal) :=
  inmapLoop f vs.length 0 vs

/-- The loop of `@stdlib/utils/map-function`: push `fcn(i)` for the `n` indices
from `i` on. -/
def mapFunLoop (f : Nat → Option JSVal) : Nat → Nat → Option (List JSVal)
  | 0, _ => some []
  | n + 1, i =>
    match f i with
    | none => none
    | some v => (mapFunLoop f n (i + 1)).map (fun rest => v :: rest)

/-- Library `@stdlib/utils/map-function`: the array `[fcn(0), ..., fcn(n-1)]`. -/
def mapFun (f : Nat → Option JSVal) (n : Nat) : Option (List JSVal) :=
  mapFunLoop f n 0

/-- The closure state of one `generate` call: the accumulator `values`, the
variables `leftVals`, `rightVals`, `cacheVals`, and the component store. -/
structure Walk where
  values : List JSVal
  leftVals : Buf
  rightVals : Buf
  cacheVals : Option (List JSVal)
  components : List Component

/-- The callback bodies of `apply`: `fn(leftVals[i], rightVals[i])`. -/
def applyAt (fn : JSVal → JSVal → JSVal) (l r : Buf) (cur : List JSVal) (i : Nat) :
    Option JSVal :=
  match l.read cur i with
  | none => none
  | some a =>
    match r.read cur i with
    | none => none
    | some b => some (fn a b)

/-- Source: the closure `apply(op, inplace)` of `generate`.  Returns the
accumulator afterwards and the returned array (`undefined` when in place);
`none` is a thrown `TypeError`. -/
def apply (samples : Nat) (w : Walk) (op : OpName) (inplace : Bool) :
    Option (List JSVal × Option (List JSVal)) :=
  match op with
  | .MULTIPLY =>
    if inplace then
      (inmap w.values (applyAt multiply w.leftVals w.rightVals)).map (fun vs => (vs, none))
    else
      (mapFun (applyAt multiply w.leftVals w.rightVals w.values) samples).map
        (fun r => (w.values, some r))
  | .SUBTRACT =>
    if inplace then
      (inmap w.values (applyAt subtract w.leftVals w.rightVals)).map (fun vs => (vs, none))
    else
      (mapFun (applyAt subtract w.leftVals w.rightVals w.values) samples).map
        (fun r => (w.values, some r))
  | _ =>
    if inplace then
      (inmap w.values (applyAt add w.leftVals w.rightVals)).map (fun vs => (vs, none))
    else
      (mapFun (applyAt add w.leftVals w.rightVals w.values) samples).map
        (fun r => (w.values, some r))

/-- A thrown `TypeError` inside the walk leaves the component store behind. -/
def orThrow {α : Type} (components : List Component) : Option α → Except (List Component) α
  | none => .error components
  | some a => .ok a

/-- Source: the first `switch(opCase)` of the `iterate` callback, which binds
`leftVals` and `rightVals`.  `console.assert` only logs and is not modelled;
`left.id` on a missing `left` throws.  `APPLY_NESTED_RIGHT` has no branch. -/
def resolveOperands (samples : Nat) (w : Walk) (n : Node) : Except (List Component) Walk :=
  match n.opCase with
  | .APPLY_BOTH => do
    let lid ← orThrow w.components n.left
    let (cl, comps1) ← getComp samples w.components lid
    let rid ← orThrow comps1 n.right
    let (cr, comps2) ← getComp samples comps1 rid
    pure { w with leftVals := .arr cl.data, rightVals := .arr cr.data, components := comps2 }
  | .APPLY_LEFT => do
    let lid ← orThrow w.components n.left
    let (c, comps1) ← getComp samples w.components lid
    pure { w with leftVals := .arr c.data, rightVals := .values, components := comps1 }
  | .APPLY_RIGHT => do
    let rid ← orThrow w.components n.right
    let (c, comps1) ← getComp samples w.components rid
    pure { w with leftVals := .values, rightVals := .arr c.data, components := comps1 }
  | .APPLY_NESTED_LEFT => do
    let lid ← orThrow w.components n.left
    let (cl, comps1) ← getComp samples w.components lid
    let rid ← orThrow comps1 n.right
    let (cr, comps2) ← getComp samples comps1 rid
    pure { w with leftVals := .arr cl.data, rightVals := .arr cr.data, components := comps2 }
  | .APPLY_NESTED_RIGHT => pure w

/-- Source: `if (hasOp) { cacheVals = apply(op, !hasExtraOp); }`. -/
def applyOp (samples : Nat) (w : Walk) (n : Node) : Except (List Component) Walk :=
  match n.op with
  | none => pure w
  | some op => do
    let (vs, r) ← orThrow w.components (apply samples w op (!n.extraOp.isSome))
    pure { w with values := vs, cacheVals := r }

/-- Source: `if (hasExtraOp && cacheVals) { switch(opCase) {...}; apply(extraOp); }`.
An array is always truthy, so `cacheVals` counts exactly when it is set. -/
def applyExtraOp (samples : Nat) (w : Walk) (n : Node) : Except (List Component) Walk :=
  match n.extraOp, w.cacheVals with
  | some extraOp, some cache => do
    let w1 ← (match n.opCase with
      | .APPLY_NESTED_LEFT => do
        let lid ← orThrow w.components n.left
        let (c, comps1) ← getComp samples w.components lid
        pure { w with leftVals := .arr c.data, rightVals := .arr cache, components := comps1 }
      | .APPLY_NESTED_RIGHT => do
        let rid ← orThrow w.components n.right
        let (c, comps1) ← getComp samples w.components rid
        pure { w with leftVals := .arr cache, rightVals := .arr c.data, components := comps1 }
      | _ => pure w : Except (List Component) Walk)
    let (vs, _) ← orThrow w1.components (apply samples w1 extraOp true)
    pure { w1 with values := vs }
  | _, _ => pure w

/-- Source: the callback `generate` passes to `compositor.iterate`, for one node. -/
def step (samples : Nat) (w : Walk) (n : Node) : Except (List Component) Walk := do
  let w1 ← resolveOperands samples w n
  let w2 ← applyOp samples w1 n
  applyExtraOp samples w2 n

/-- The walk over the nodes `compositor.iterate` yields, in order. -/
def walk (samples : Nat) : Walk → List Node → Except (List Component) Walk
  | w, [] => .ok w
  | w, n :: ns =>
    match step samples w n with
    | .error comps => .error comps
    | .ok w1 => walk samples w1 ns

/-- Library `@stdlib/array/filled`, as called: `filled(0, samples)`. -/
def filled (v : JSVal) (n : Nat) : List JSVal := List.replicate n v

/-- The closure state at the start of `generate`. -/
def initWalk (samples : Nat) (components : List Component) : Walk :=
  { values := filled (.num 0) samples, leftVals := .unset, rightVals := .unset,
    cacheVals := none, components := components }

/-! ## The series -/

/-- What `time-series.js` calls outside itself, for a compositor state `κ`:
the library `datespace` (a date is its epoch timestamp), the methods of the
absent `Compositor` class, and the absent generators (their output as a
function of type key, seed and sample count). -/
structure Env (κ : Type) where
  datespace : String → String → Nat → List Int
  iterate : κ → List Node
  newCompositor : κ
  addData : κ → String → κ
  remove : κ → String → κ
  switchData : κ → String → String → κ
  newGenerator : String → Nat → Nat → List JSVal
  defaultGenerator : Nat → List JSVal

/-- The `options` argument of the constructor. -/
structure Options where
  start : String
  «end» : String
  samples : Nat
  dynamicRange : Bool
  min : JSVal
  max : JSVal

/-- Source: `TS_DEFAULTS`. -/
def TS_DEFAULTS : Options :=
  { samples := 100, dynamicRange := true, min := .num (-2), max := .num 2,
    start := "2022-01-01", «end» := "2022-12-31" }

/-- The fields of a `TimeSeries` (`lastUpdate`, a wall-clock stamp, is left out).
`COMP_ID` is a non-negative integer or `NaN` (`none`).  `issued` is a history
variable that is not in the source: every id `getID` has returned, oldest first. -/
structure TimeSeries (κ : Type) where
  start : String
  «end» : String
  samples : Nat
  dynamicRange : Bool
  min : JSVal
  max : JSVal
  dataX : List Int
  dataY : List JSVal
  COMP_ID : Option Nat
  compositor : κ
  components : List Component
  issued : List String

/-- The state an operation leaves behind, whether it returned or threw. -/
def after {σ : Type} : Except σ σ → σ
  | .ok s => s
  | .error s => s

/-- Source: `get componentIDs()`. -/
def TimeSeries.componentIDs {κ : Type} (ts : TimeSeries κ) : List String :=
  ts.components.map (fun d => d.id)

/-- Source: `get size()`. -/
def TimeSeries.size {κ : Type} (ts : TimeSeries κ) : Nat :=
  ts.components.length

/-- Source: `getID()`, `"comp_" + (this.COMP_ID++)`; returns the id and the
state with the counter advanced (`NaN++` stays `NaN`). -/
def TimeSeries.getID {κ : Type} (ts : TimeSeries κ) : String × TimeSeries κ :=
  match ts.COMP_ID with
  | some n =>
    ("comp_" ++ toString n,
      { ts with COMP_ID := some (n + 1), issued := ts.issued ++ ["comp_" ++ toString n] })
  | none => ("comp_NaN", { ts with issued := ts.issued ++ ["comp_NaN"] })

/-- Source: `hasID(id)`. -/
def TimeSeries.hasID {κ : Type} (ts : TimeSeries κ) (id : String) : Bool :=
  (getComponent ts.components id).isSome

/-- Source: `clear()`. -/
def TimeSeries.clear {κ : Type} (ts : TimeSeries κ) : TimeSeries κ :=
  { ts with dataX := [], dataY := [] }

/-- Source: `generate()`.  A throw inside the walk leaves `dataX`/`dataY`
untouched; components regenerated before the throw stay regenerated. -/
def TimeSeries.generate {κ : Type} (E : Env κ) (ts : TimeSeries κ) :
    Except (TimeSeries κ) (TimeSeries κ) :=
  match walk ts.samples (initWalk ts.samples ts.components) (E.iterate ts.compositor) with
  | .error comps => .error { ts with components := comps }
  | .ok w =>
    .ok { ts with
      components := w.components
      dataX := E.datespace ts.start ts.«end» ts.samples
      dataY := w.values }

/-! ### Identifier counter on load -/

/-- The part of a string after its first `c`, if `c` occurs. -/
def afterFirst (c : Char) : List Char → Option (List Char)
  | [] => none
  | x :: xs => if x = c then some xs else afterFirst c xs

/-- Source: `c.id.slice(c.id.indexOf("_")+1)`; without an underscore `indexOf`
is `-1` and the slice is the whole string. -/
def idSuffix (id : String) : List Char :=
  (afterFirst '_' id.toList).getD id.toList

/-- The value read from the longest prefix of decimal digits, `acc` being the
value read so far (`none`: no digit yet). -/
def parseDigits : Option Nat → List Char → Option Nat
  | acc, [] => acc
  | acc, c :: cs =>
    if c.isDigit then parseDigits (some (acc.getD 0 * 10 + (c.toNat - 48))) cs
    else acc

/-- Builtin `Number.parseInt(s)` in base ten: leading white space, an optional
sign, the longest digit prefix; `NaN` (`none`) without a digit.  The `0x` form
is not modelled. -/
def parseInt (s : List Char) : Option Int :=
  match s.dropWhile Char.isWhitespace with
  | '-' :: r => (parseDigits none r).map (fun n => -(n : Int))
  | '+' :: r => (parseDigits none r).map (fun n => (n : Int))
  | r => (parseDigits none r).map (fun n => (n : Int))

/-- Builtin `Math.max(counter, parsed)` on the values the counter can take:
`NaN` as soon as one argument is `NaN`. -/
def maxCounter : Option Nat → Option Int → Option Nat
  | some n, some k => some (max (n : Int) k).toNat
  | _, _ => none

/-- Source: the counter part of the `components.forEach` of the constructor and
of `fromJSON`: `COMP_ID = Math.max(COMP_ID, Number.parseInt(c.id.slice(...)))`,
starting from `components.length`. -/
def loadCounter (components : List Component) : Option Nat :=
  components.foldl (fun acc c => maxCounter acc (parseInt (idSuffix c.id)))
    (some components.length)

/-! ### Components of a series -/

/-- Source: the keys of `GENERATOR_DEFAULTS` (`generator-defaults.js`). -/
def GENERATOR_KEYS : List String :=
  ["CONSTANT", "TREND", "OUTLIER", "RNG_AWGN", "RNG_AWLN", "RNG_AWUN", "RNG_UNIFORM",
   "RNG_NORMAL", "WAVE_SINE", "WAVE_COSINE", "PDF_UNIFORM", "PDF_NORMAL", "PDF_LOGNORMAL",
   "PMF_POISSON", "PMF_GEOMETRIC"]

/-- Builtin: the property names an object literal inherits from
`Object.prototype`; the operator `in` finds them as well as the own keys. -/
def OBJECT_PROTOTYPE_KEYS : List String :=
  ["constructor", "hasOwnProperty", "isPrototypeOf", "propertyIsEnumerable",
   "toLocaleString", "toString", "valueOf", "__proto__", "__defineGetter__",
   "__defineSetter__", "__lookupGetter__", "__lookupSetter__"]

/-- Source: `generatorType in GENERATOR_DEFAULTS`. -/
def inGeneratorDefaults (generatorType : String) : Bool :=
  decide (generatorType ∈ GENERATOR_KEYS) || decide (generatorType ∈ OBJECT_PROTOTYPE_KEYS)

/-- Modelled from the spec: `new TimeSeriesComponent(ts, generator)`, whose
source is absent: the component takes a newly allocated id from `ts.getID()` and
starts with an empty (stale) buffer. -/
def newComponent {κ : Type} (ts : TimeSeries κ) (gen : Nat → List JSVal) :
    Component × TimeSeries κ :=
  ({ id := ts.getID.1, data := [], gen := gen }, ts.getID.2)

/-- Source: `addComponent(generatorType)`; `seed` is the value of `randi()`. -/
def TimeSeries.addComponent {κ : Type} (E : Env κ) (ts : TimeSeries κ)
    (generatorType : Option String) (seed : Nat) : Except (TimeSeries κ) (TimeSeries κ) :=
  let gen : Nat → List JSVal :=
    match generatorType with
    | some t =>
      if t ≠ "" ∧ inGeneratorDefaults t = true then E.newGenerator t seed
      else E.defaultGenerator
    | none => E.defaultGenerator
  let (c, ts1) := newComponent ts gen
  let ts2 := { ts1 with components := ts1.components ++ [c] }
  let ts3 := { ts2 with compositor := E.addData ts2.compositor c.id }
  ts3.generate E

/-- Source: `removeComponent(id)`; `indexOf` finds the first position of `id`
among `componentIDs`, `splice(idx, 1)` erases it. -/
def TimeSeries.removeComponent {κ : Type} (E : Env κ) (ts : TimeSeries κ) (id : String) :
    Except (TimeSeries κ) (TimeSeries κ) :=
  match ts.componentIDs.indexOf? id with
  | some idx =>
    ({ ts with
        components := ts.components.eraseIdx idx
        compositor := E.remove ts.compositor id } : TimeSeries κ).generate E
  | none => ts.generate E

/-- Source: `getComponentIndex(id)`, `findIndex`; `none` is `-1`. -/
def TimeSeries.getComponentIndex {κ : Type} (ts : TimeSeries κ) (id : String) : Option Nat :=
  ts.components.findIdx? (fun c => c.id == id)

/-- Source: `switchComponents(fromID, toID)`. -/
def TimeSeries.switchComponents {κ : Type} (E : Env κ) (ts : TimeSeries κ)
    (fromID toID : String) : Except (TimeSeries κ) (TimeSeries κ) :=
  match ts.getComponentIndex fromID, ts.getComponentIndex toID with
  | some fromIndex, some toIndex =>
    if fromIndex ≤ ts.components.length ∧ toIndex ≤ ts.components.length ∧
        fromIndex ≠ toIndex then
      match ts.components[fromIndex]?, ts.components[toIndex]? with
      | some cFrom, some cTo =>
        ({ ts with
            components := (ts.components.set fromIndex cTo).set toIndex cFrom
            compositor := E.switchData ts.compositor fromID toID } : TimeSeries κ).generate E
      | _, _ => ts.generate E
    else ts.generate E
  | _, _ => ts.generate E

/-- Source: `constructor(options, components, compositor)`.  A loaded component
is given as the `Component` that the absent `TimeSeriesComponent.fromJSON`
builds from it, a loaded compositor as the state `Compositor.fromJSON` builds. -/
def TimeSeries.new {κ : Type} (E : Env κ) (options : Options) (components : List Component)
    (compositor : Option κ) : Except (TimeSeries κ) (TimeSeries κ) :=
  let ts : TimeSeries κ :=
    { start := options.start, «end» := options.«end», samples := options.samples,
      dynamicRange := options.dynamicRange, min := options.min, max := options.max,
      dataX := [], dataY := [],
      COMP_ID := loadCounter components,
      compositor := compositor.getD E.newCompositor,
      components := components,
      issued := [] }
  if components.length = 0 then ts.addComponent E none 0 else .ok ts

/-- The `json` argument of `fromJSON`. -/
structure SeriesJSON (κ : Type) where
  options : Options
  components : List Component
  compositor : κ

/-- Source: the method `fromJSON(json)`. -/
def TimeSeries.fromJSON {κ : Type} (E : Env κ) (ts : TimeSeries κ) (json : SeriesJSON κ) :
    Except (TimeSeries κ) (TimeSeries κ) :=
  ({ ts with
      start := json.options.start, «end» := json.options.«end»,
      samples := json.options.samples, dynamicRange := json.options.dynamicRange,
      min := json.options.min, max := json.options.max,
      dataX := [], dataY := [],
      COMP_ID := loadCounter json.components,
      compositor := json.compositor,
      components := json.components } : TimeSeries κ).generate E

/-! ### Options -/

/-- Library `d3.extent` without accessor: the least and greatest of the values
that are neither `undefined` nor `NaN`, `[undefined, undefined]` without one. -/
def extent (values : List JSVal) : JSVal × JSVal :=
  values.foldl (fun (acc : JSVal × JSVal) value =>
    if value = .undefined then acc
    else if acc.1 = .undefined then
      (if JSVal.ge value value then (value, value) else acc)
    else
      ((if JSVal.gt acc.1 value then value else acc.1),
       (if JSVal.lt acc.2 value then value else acc.2))) (.undefined, .undefined)

/-- Builtin `Math.round` on a rational: the nearest integer, halves rounded up. -/
def round (v : ℚ) : Int := ⌊v + 1 / 2⌋

/-- A call `setOption(key, value)`: the key with a value of the kind the branch
for that key works on; `dynamicRange` carries whether `value === true`;
`unknown` is any key without a branch. -/
inductive Setting where
  | min (value : JSVal)
  | max (value : JSVal)
  | start (value : String)
  | «end» (value : String)
  | samples (value : ℚ)
  | dynamicRange (value : Bool)
  | unknown (key : String)

/-- Source: `setOption(key, value)`.  In the `dynamicRange` branch the test
`!this.dataY` is false for every array, so no generation happens there. -/
def TimeSeries.setOption {κ : Type} (E : Env κ) (ts : TimeSeries κ) :
    Setting → Except (TimeSeries κ) (TimeSeries κ)
  | .min value => .ok { ts with min := if JSVal.lt value ts.max then value else ts.min }
  | .max value => .ok { ts with max := if JSVal.gt value ts.min then value else ts.max }
  | .start value =>
    ({ ts with start := if value < ts.«end» then value else ts.start } : TimeSeries κ).generate E
  | .«end» value =>
    ({ ts with «end» := if value > ts.start then value else ts.«end» } : TimeSeries κ).generate E
  | .samples value =>
    ({ ts with samples := (Max.max 3 (round value)).toNat } : TimeSeries κ).generate E
  | .dynamicRange value =>
    let ts1 : TimeSeries κ := { ts with dynamicRange := value }
    if !ts1.dynamicRange && ts1.size > 0 then
      .ok { ts1 with min := (extent ts1.dataY).1, max := (extent ts1.dataY).2 }
    else .ok ts1
  | .unknown _ => .ok ts

/-- The calls the claims range over. -/
inductive Op where
  | addComponent (generatorType : Option String) (seed : Nat)
  | removeComponent (id : String)
  | switchComponents (fromID toID : String)

/-- One call on a series. -/
def TimeSeries.run {κ : Type} (E : Env κ) (ts : TimeSeries κ) : Op →
    Except (TimeSeries κ) (TimeSeries κ)
  | .addComponent generatorType seed => ts.addComponent E generatorType seed
  | .removeComponent id => ts.removeComponent E id
  | .switchComponents fromID toID => ts.switchComponents E fromID toID

/-- A finite sequence of calls; a caller that catches a throw goes on with the
object as the throw left it. -/
def TimeSeries.runAll {κ : Type} (E : Env κ) (ts : TimeSeries κ) : List Op → TimeSeries κ
  | [] => ts
  | op :: ops => TimeSeries.runAll E (after (ts.run E op)) ops

/-- Whether the call calls `getID()`: `addComponent` does, once, for the id of the
component it creates. -/
def Op.callsGetID : Op → Bool
  | .addComponent _ _ => true
  | _ => false

/-- The ids the `getID()` calls of a sequence of calls return, in the order of the
calls: each is the first component of `getID` on the state the call starts from. -/
def TimeSeries.idsReturned {κ : Type} (E : Env κ) (ts : TimeSeries κ) : List Op → List String
  | [] => []
  | op :: ops =>
    (if op.callsGetID then [ts.getID.1] else []) ++
      TimeSeries.idsReturned E (after (ts.run E op)) ops

/-! ## Test data -/

/-- Modelled from the spec: a component with the `CONSTANT` prefab generator
(value `v`), whose buffer holds `n` samples. -/
def constantComponent (id : String) (v : ℚ) (n : Nat) : Component :=
  { id := id, data := List.replicate n (.num v), gen := fun k => List.replicate k (.num v) }

/-- A node with both sides present: `left op right`. -/
def bothNode (l : String) (op : OpName) (r : String) : Node :=
  { opCase := .APPLY_BOTH, left := some l, op := some op, right := some r, extraOp := none }

/-- A left-only node: `left op accumulator`. -/
def leftNode (l : String) (op : OpName) : Node :=
  { opCase := .APPLY_LEFT, left := some l, op := some op, right := none, extraOp := none }

/-- A right-only node: `accumulator op right`. -/
def rightNode (op : OpName) (r : String) : Node :=
  { opCase := .APPLY_RIGHT, left := none, op := some op, right := some r, extraOp := none }

/-- A nested-left node. -/
def nestedLeftNode (l : String) (op : OpName) (r : String) (extraOp : OpName) : Node :=
  { opCase := .APPLY_NESTED_LEFT, left := some l, op := some op, right := some r,
    extraOp := some extraOp }

/-- A node that `generate` can walk without a throw, given the component store:
its case binds both operands and the ids that case reads are live. -/
def Node.resolves (components : List Component) (n : Node) : Bool :=
  match n.opCase with
  | .APPLY_BOTH | .APPLY_NESTED_LEFT =>
    (match n.left with
      | some l => (getComponent components l).isSome
      | none => false) &&
    (match n.right with
      | some r => (getComponent components r).isSome
      | none => false)
  | .APPLY_LEFT =>
    (match n.left with
      | some l => (getComponent components l).isSome
      | none => false)
  | .APPLY_RIGHT =>
    (match n.right with
      | some r => (getComponent components r).isSome
      | none => false)
  | .APPLY_NESTED_RIGHT => false

/-- A compositor that walks a single left-only ADD node over `comp_0`, and a date
axis of consecutive timestamps (test data). -/
def singleNodeEnv : Env Unit :=
  { datespace := fun _ _ n => (List.range n).map Int.ofNat
    iterate := fun _ => [leftNode "comp_0" .ADD]
    newCompositor := ()
    addData := fun k _ => k
    remove := fun k _ => k
    switchData := fun k _ _ => k
    newGenerator := fun _ _ n => List.replicate n (.num 1)
    defaultGenerator := fun n => List.replicate n (.num 5) }

/-- A series of three samples over one constant component (test data). -/
def singleNodeSeries : TimeSeries Unit :=
  { start := "2022-01-01", «end» := "2022-12-31", samples := 3, dynamicRange := true,
    min := .num (-2), max := .num 2, dataX := [], dataY := [], COMP_ID := some 1,
    compositor := (), components := [constantComponent "comp_0" 5 3], issued := ["comp_0"] }

/-- The series `singleNodeSeries` after `generate` has run: its composite is the
constant `[5, 5, 5]`, its fixed bounds are still `-2 < 2` (test data). -/
def generatedSeries : TimeSeries Unit :=
  after (singleNodeSeries.generate singleNodeEnv)

/-- The component store a walk result leaves behind, thrown or not. -/
def storeOf : Except (List Component) Walk → List Component
  | .ok w => w.components
  | .error components => components

/-- A compositor that walks the single node `comp_0 - comp_1` (test data). -/
def pairEnv : Env Unit :=
  { datespace := fun _ _ n => (List.range n).map Int.ofNat
    iterate := fun _ => [bothNode "comp_0" .SUBTRACT "comp_1"]
    newCompositor := ()
    addData := fun k _ => k
    remove := fun k _ => k
    switchData := fun k _ _ => k
    newGenerator := fun _ _ n => List.replicate n (.num 1)
    defaultGenerator := fun n => List.replicate n (.num 5) }

/-- A series of three samples over the constants 3 and 4 (test data). -/
def pairSeries : TimeSeries Unit :=
  { start := "2022-01-01", «end» := "2022-12-31", samples := 3, dynamicRange := true,
    min := .num (-2), max := .num 2, dataX := [], dataY := [], COMP_ID := some 2,
    compositor := (),
    components := [constantComponent "comp_0" 3 3, constantComponent "comp_1" 4 3],
    issued := ["comp_0", "comp_1"] }

/-- Two component stores that hold the same components, possibly at other
positions, with pairwise distinct ids. -/
def SameStore (cs cs1 : List Component) : Prop :=
  cs.Perm cs1 ∧ (cs.map (fun c => c.id)).Nodup

/-- Two closure states that differ at most in the positions of the components. -/
def Walk.Similar (w w1 : Walk) : Prop :=
  w.values = w1.values ∧ w.leftVals = w1.leftVals ∧ w.rightVals = w1.rightVals ∧
    w.cacheVals = w1.cacheVals ∧ SameStore w.components w1.components

/-- Two walk results that both threw or both returned, with similar states. -/
def ResultSimilar : Except (List Component) Walk → Except (List Component) Walk → Prop
  | .ok w, .ok w1 => w.Similar w1
  | .error e, .error e1 => SameStore e e1
  | _, _ => False

/-! ## The collection (`timeseries-collection.js`) -/

/-- A member series as the collection reads it: its `id` and its composite `dataY`. -/
structure Member where
  id : String
  dataY : List JSVal
  deriving DecidableEq

/-- An entry of `json.series`, of which the collection reads the `id`. -/
structure MemberJSON where
  id : String
  deriving DecidableEq

/-- What `timeseries-collection.js` calls outside itself: the library `datespace`
and the member class.  The calls it makes on that class (`ts.generate(dataX, force)`,
`TimeSeries.fromJSON(collection, json)`, `new TimeSeries(collection, id, name)`,
`ts.id`) are not the interface of the class in `time-series.js`, so the class is a
parameter here; `generate` is `none` when the call throws. -/
structure CollectionEnv where
  datespace : String → String → Nat → List Int
  generate : List Int → Bool → Member → Option Member
  fromJSON : MemberJSON → Member
  create : String → String → Member

/-- Source: `TSC_DEFAULTS`. -/
def TSC_DEFAULTS : Options :=
  { samples := 100, dynamicRange := true, min := .num (-2), max := .num 2,
    start := "2022-01-01", «end» := "2022-03-31" }

/-! ### The numbers of the counter

`TS_ID` is a JavaScript number, a double.  The counter takes integer values,
`NaN` and `Infinity`; every integer up to `2 ^ 53` is a double, beyond it only
every second, fourth, ... integer is, and arithmetic rounds to the nearest of
them. -/

/-- The numbers the counter arithmetic meets: an integer `z` (one that is a
double), `NaN`, or `Infinity` / `-Infinity`.  `-0` is not told apart from `0`: the
code adds `1` to it, takes a maximum with it and prints it, which give the same for
both. -/
inductive JSInteger where
  | int (z : Int)
  | nan
  | infinity (negative : Bool)
  deriving DecidableEq

/-- The double nearest to the natural number `n`, ties going to the even
significand (IEEE 754 round-to-nearest-even on 53 bits); `none` when `n` rounds
beyond the largest double `(2 ^ 53 - 1) * 2 ^ 971`, that is to `Infinity`.  `e` is
the number of bits of `n` beyond 53. -/
def roundToDouble (n : Nat) : Option Nat :=
  if n < 2 ^ 53 then some n
  else
    let e := (Nat.toDigits 2 n).length - 53
    let q := n / 2 ^ e
    let r := n % 2 ^ e
    let q1 := if 2 ^ e < 2 * r ∨ (2 * r = 2 ^ e ∧ q % 2 = 1) then q + 1 else q
    if e < 971 ∨ (e = 971 ∧ q1 < 2 ^ 53) then some (q1 * 2 ^ e) else none

/-- The number an exact integer result is stored as. -/
def toNumber : Int → JSInteger
  | .ofNat n =>
    match roundToDouble n with
    | some m => .int m
    | none => .infinity false
  | .negSucc n =>
    match roundToDouble (n + 1) with
    | some m => .int (-(m : Int))
    | none => .infinity true

/-- Builtin `x + k` for an integer `k` (`k = 1` in `TS_ID++` and `parseInt(...)+1`,
`k = -1` in `TS_ID-1`): the exact sum rounded to a double; `NaN` and the
infinities stay. -/
def JSInteger.plus (x : JSInteger) (k : Int) : JSInteger :=
  match x with
  | .int z => toNumber (z + k)
  | other => other

/-- Builtin `Math.max` on two of these numbers: `NaN` as soon as one argument is
`NaN`. -/
def JSInteger.max : JSInteger → JSInteger → JSInteger
  | .nan, _ => .nan
  | _, .nan => .nan
  | .infinity false, _ => .infinity false
  | _, .infinity false => .infinity false
  | .infinity true, y => y
  | x, .infinity true => x
  | .int a, .int b => .int (Max.max a b)

/-- Builtin `Number::toString`, the digits: for a double `n` of `nd` decimal
digits, the digits `s`, their number `k` and the number `m` of digits of the
printed value, such that `s * 10 ^ (m - k)` rounds to `n` with `k` as small as
possible; of two such `s` the one nearer to `n`, the even one on a tie.  The
printed value has `nd + 1` digits only when it is `10 ^ nd` (the double next below
`10 ^ 23` prints as `1e+23`); otherwise `m = nd`. -/
def shortestDigits (n : Nat) : Nat × Nat × Nat :=
  let nd := (toString n).length
  if roundToDouble (10 ^ nd) = some n then (1, 1, nd + 1)
  else
    ((List.range nd).filterMap (fun i =>
      let k := i + 1
      let p := 10 ^ (nd - k)
      let lo := n / p
      let okLo := decide (roundToDouble (lo * p) = some n)
      let okHi := decide (lo + 1 < 10 ^ k) && decide (roundToDouble ((lo + 1) * p) = some n)
      let r := n % p
      if okLo && okHi then
        (if 2 * r < p ∨ (2 * r = p ∧ lo % 2 = 0) then some (lo, k, nd) else some (lo + 1, k, nd))
      else if okLo then some (lo, k, nd)
      else if okHi then some (lo + 1, k, nd)
      else none)).head?.getD (n, nd, nd)

/-- Builtin `Number::toString` on a non-negative integer double.  Below
`2 ^ 53` every integer is a double, so no shorter digit string rounds to `n` and
the result is the decimal numeral of `n`; from there on it is the shortest digits
that round to `n`, padded with zeros up to 21 digits (`2 ^ 60` prints as
`1152921504606847000`) and in exponent form beyond (`1e+21`). -/
def natToString (n : Nat) : String :=
  if n < 2 ^ 53 then toString n
  else
    let s := (shortestDigits n).1
    let k := (shortestDigits n).2.1
    let m := (shortestDigits n).2.2
    if m ≤ 21 then toString s ++ String.mk (List.replicate (m - k) '0')
    else
      let ds := (toString s).toList
      (if k = 1 then String.mk ds else String.mk (ds.take 1 ++ '.' :: ds.drop 1))
        ++ "e+" ++ toString (m - 1)

/-- Builtin: the string a number becomes in `"ts_" + number`. -/
def numberToString : JSInteger → String
  | .int z => if z < 0 then "-" ++ natToString z.natAbs else natToString z.natAbs
  | .nan => "NaN"
  | .infinity false => "Infinity"
  | .infinity true => "-Infinity"

/-- Builtin: the code points `Number.parseInt` skips at the start of its argument,
white space (tab, vertical tab, form feed, the space separators of Unicode, the
byte order mark) and line terminators. -/
def isStrWhiteSpace (c : Char) : Bool :=
  c.toNat ∈ [0x9, 0xA, 0xB, 0xC, 0xD, 0x20, 0xA0, 0x1680, 0x2028, 0x2029, 0x202F, 0x205F,
    0x3000, 0xFEFF] || (0x2000 ≤ c.toNat && c.toNat ≤ 0x200A)

/-- The value of a hexadecimal digit. -/
def hexDigit (c : Char) : Option Nat :=
  if c.isDigit then some (c.toNat - 48)
  else if 'a'.toNat ≤ c.toNat ∧ c.toNat ≤ 'f'.toNat then some (c.toNat - 87)
  else if 'A'.toNat ≤ c.toNat ∧ c.toNat ≤ 'F'.toNat then some (c.toNat - 55)
  else none

/-- The value read from the longest prefix of hexadecimal digits, `acc` being the
value read so far (`none`: no digit yet). -/
def parseHexDigits : Option Nat → List Char → Option Nat
  | acc, [] => acc
  | acc, c :: cs =>
    match hexDigit c with
    | some d => parseHexDigits (some (acc.getD 0 * 16 + d)) cs
    | none => acc

/-- The digits of `Number.parseInt` after the sign: base sixteen after a prefix
`0x` or `0X`, base ten otherwise; `none` without a digit. -/
def parseMagnitude : List Char → Option Nat
  | '0' :: 'x' :: r => parseHexDigits none r
  | '0' :: 'X' :: r => parseHexDigits none r
  | r => parseDigits none r

/-- Builtin `Number.parseInt(s)` without a radix, as the number it returns: leading
white space, an optional sign, an optional `0x`, the longest digit prefix; `NaN`
without a digit; the integer read is rounded to a double.  (For more than 20
decimal digits the standard lets an implementation round the digits first; the
model rounds the exact value.) -/
def parseIntNumber (s : List Char) : JSInteger :=
  match s.dropWhile isStrWhiteSpace with
  | '-' :: r =>
    match parseMagnitude r with
    | some n => toNumber (-(n : Int))
    | none => .nan
  | '+' :: r =>
    match parseMagnitude r with
    | some n => toNumber n
    | none => .nan
  | r =>
    match parseMagnitude r with
    | some n => toNumber n
    | none => .nan

/-- The fields of a `TimeSeriesCollection` (without the wall-clock `lastUpdate`).
`TS_ID` is a number, stored as a double. -/
structure TimeSeriesCollection where
  start : String
  «end» : String
  samples : Nat
  dynamicRange : Bool
  min : JSVal
  max : JSVal
  dataX : List Int
  series : List Member
  TS_ID : JSInteger

/-- The arguments of the collection's `fromJSON`. -/
structure CollectionJSON where
  options : Options
  series : List MemberJSON

/-- Source: `get size()` of the collection. -/
def TimeSeriesCollection.size (c : TimeSeriesCollection) : Nat :=
  c.series.length

/-- Source: `this.series.forEach(ts => ts.generate(this.dataX, force))`; a throw
leaves the members before it regenerated and the others as they were. -/
def generateMembers (E : CollectionEnv) (dataX : List Int) (force : Bool) :
    List Member → Except (List Member) (List Member)
  | [] => .ok []
  | m :: ms =>
    match E.generate dataX force m with
    | none => .error (m :: ms)
    | some m1 =>
      match generateMembers E dataX force ms with
      | .ok rest => .ok (m1 :: rest)
      | .error rest => .error (m1 :: rest)

/-- Source: `generate(force)` of the collection. -/
def TimeSeriesCollection.generate (E : CollectionEnv) (c : TimeSeriesCollection)
    (force : Bool) : Except TimeSeriesCollection TimeSeriesCollection :=
  let dataX := E.datespace c.start c.«end» c.samples
  match generateMembers E dataX force c.series with
  | .ok series => .ok { c with dataX := dataX, series := series }
  | .error series => .error { c with dataX := dataX, series := series }

/-- Builtin `Math.max` on two values: `NaN` unless both are numbers. -/
def mathMax : JSVal → JSVal → JSVal
  | .num a, .num b => .num (max a b)
  | _, _ => .nan

/-- Builtin `Math.min` on two values: `NaN` unless both are numbers. -/
def mathMin : JSVal → JSVal → JSVal
  | .num a, .num b => .num (min a b)
  | _, _ => .nan

/-- Source: `setOption(key, value)` of the collection. -/
def TimeSeriesCollection.setOption (E : CollectionEnv) (c : TimeSeriesCollection) :
    Setting → Except TimeSeriesCollection TimeSeriesCollection
  | .min value => .ok { c with min := if JSVal.lt value c.max then value else c.min }
  | .max value => .ok { c with max := if JSVal.ge value c.min then value else c.max }
  | .start value =>
    ({ c with start := if value < c.«end» then value else c.start } :
      TimeSeriesCollection).generate E true
  | .«end» value =>
    ({ c with «end» := if value > c.start then value else c.«end» } :
      TimeSeriesCollection).generate E true
  | .samples value =>
    ({ c with samples := (Max.max 3 (round value)).toNat } :
      TimeSeriesCollection).generate E true
  | .dynamicRange value =>
    let c1 : TimeSeriesCollection := { c with dynamicRange := value }
    if !c1.dynamicRange && c1.size > 0 then
      match (if c1.dataX.length ≠ c1.samples then c1.generate E false else .ok c1) with
      | .error c2 => .error c2
      | .ok c2 =>
        .ok (c2.series.foldl (fun (acc : TimeSeriesCollection) s =>
          { acc with
            min := mathMax (extent s.dataY).1 acc.min
            max := mathMin (extent s.dataY).2 acc.max }) c2)
    else .ok c1
  | .unknown _ => .ok c

/-- Source: `getID()` of the collection, `"ts_" + (this.TS_ID++)`: the id made
from the counter as it was, and the state with the counter plus one, rounded to a
double (at `2 ^ 53` the sum rounds back to `2 ^ 53`; `NaN` and `Infinity` stay). -/
def TimeSeriesCollection.getID (c : TimeSeriesCollection) : String × TimeSeriesCollection :=
  ("ts_" ++ numberToString c.TS_ID, { c with TS_ID := c.TS_ID.plus 1 })

/-- Source: `getName(number)`, `"timeseries " + number`. -/
def TimeSeriesCollection.getName (number : JSInteger) : String :=
  "timeseries " ++ numberToString number

/-- Source: `getTimeSeries(id)`. -/
def TimeSeriesCollection.getTimeSeries (c : TimeSeriesCollection) (id : String) :
    Option Member :=
  c.series.find? (fun ts => ts.id == id)

/-- Source: `hasTimeSeries(id)`. -/
def TimeSeriesCollection.hasTimeSeries (c : TimeSeriesCollection) (id : String) : Bool :=
  (c.getTimeSeries id).isSome

/-- Source: `getTimeSeriesIndex(id)`; `none` is `-1`. -/
def TimeSeriesCollection.getTimeSeriesIndex (c : TimeSeriesCollection) (id : String) :
    Option Nat :=
  c.series.findIdx? (fun ts => ts.id == id)

/-- Source: `addTimeSeries(timeseries)`; `none` is the default `null`. -/
def TimeSeriesCollection.addTimeSeries (E : CollectionEnv) (c : TimeSeriesCollection)
    (timeseries : Option Member) : Except TimeSeriesCollection TimeSeriesCollection :=
  match timeseries with
  | some ts =>
    let c1 : TimeSeriesCollection :=
      if c.hasTimeSeries ts.id then
        match c.getTimeSeriesIndex ts.id with
        | some idx => { c with series := c.series.eraseIdx idx }
        | none => c
      else c
    ({ c1 with series := c1.series ++ [ts] } : TimeSeriesCollection).generate E false
  | none =>
    let c1 := c.getID.2
    ({ c1 with
        series := c1.series ++
          [E.create c.getID.1 (TimeSeriesCollection.getName (c1.TS_ID.plus (-1)))] } :
      TimeSeriesCollection).generate E false

/-- Source: `removeTimeSeries(id)`. -/
def TimeSeriesCollection.removeTimeSeries (E : CollectionEnv) (c : TimeSeriesCollection)
    (id : String) : Except TimeSeriesCollection TimeSeriesCollection :=
  match c.getTimeSeriesIndex id with
  | some idx =>
    ({ c with series := c.series.eraseIdx idx } : TimeSeriesCollection).generate E false
  | none => .ok c

/-- Source: the counter part of `series.forEach` in the constructor and in
`fromJSON` of the collection: `TS_ID = Math.max(TS_ID, Number.parseInt(...)+1)`,
starting from the number of entries (an array length, below `2 ^ 32`, is a double
as it is). -/
def loadSeriesCounter (ids : List String) : JSInteger :=
  ids.foldl (fun acc id => JSInteger.max acc ((parseIntNumber (idSuffix id)).plus 1))
    (.int ids.length)

/-- Source: `constructor(options, series)` of the collection.  Its `forEach` sets a
property on the array `this.series` and pushes nothing. -/
def TimeSeriesCollection.new (E : CollectionEnv) (options : Options) (series : List Member) :
    Except TimeSeriesCollection TimeSeriesCollection :=
  let c : TimeSeriesCollection :=
    { start := options.start, «end» := options.«end», samples := options.samples,
      dynamicRange := options.dynamicRange, min := options.min, max := options.max,
      dataX := [], series := [],
      TS_ID := loadSeriesCounter (series.map (fun s => s.id)) }
  if c.size > 0 then c.generate E false else .ok c

/-- Source: the method `fromJSON(json)` of the collection. -/
def TimeSeriesCollection.fromJSON (E : CollectionEnv) (c : TimeSeriesCollection)
    (json : CollectionJSON) : Except TimeSeriesCollection TimeSeriesCollection :=
  ({ c with
      start := json.options.start, «end» := json.options.«end»,
      samples := json.options.samples, dynamicRange := json.options.dynamicRange,
      min := json.options.min, max := json.options.max,
      dataX := [],
      series := json.series.map E.fromJSON,
      TS_ID := loadSeriesCounter (json.series.map (fun s => s.id)) } :
    TimeSeriesCollection).generate E false

/-- The calls on a collection the claims range over. -/
inductive CollectionOp where
  | getID
  | addTimeSeries (timeseries : Option Member)
  | removeTimeSeries (id : String)

/-- Whether the call calls `getID()`: `getID` itself, and `addTimeSeries()` without
a series, which passes the id to the new member. -/
def CollectionOp.callsGetID : CollectionOp → Bool
  | .getID => true
  | .addTimeSeries none => true
  | _ => false

/-- One call on a collection; the state it leaves behind. -/
def TimeSeriesCollection.run (E : CollectionEnv) (c : TimeSeriesCollection) :
    CollectionOp → TimeSeriesCollection
  | .getID => c.getID.2
  | .addTimeSeries timeseries => after (c.addTimeSeries E timeseries)
  | .removeTimeSeries id => after (c.removeTimeSeries E id)

/-- A finite sequence of calls on a collection. -/
def TimeSeriesCollection.runAll (E : CollectionEnv) (c : TimeSeriesCollection) :
    List CollectionOp → TimeSeriesCollection
  | [] => c
  | op :: ops => TimeSeriesCollection.runAll E (c.run E op) ops

/-- The ids the `getID()` calls of a sequence of calls return, in the order of the
calls: each is the first component of `getID` on the state the call starts from. -/
def TimeSeriesCollection.idsReturned (E : CollectionEnv) (c : TimeSeriesCollection) :
    List CollectionOp → List String
  | [] => []
  | op :: ops =>
    (if op.callsGetID then [c.getID.1] else []) ++
      TimeSeriesCollection.idsReturned E (c.run E op) ops

/-- A member class whose `generate` keeps the member as it is (test data). -/
def plainCollectionEnv : CollectionEnv :=
  { datespace := fun _ _ n => (List.range n).map Int.ofNat
    generate := fun _ _ m => some m
    fromJSON := fun s => { id := s.id, dataY := [] }
    create := fun id _ => { id := id, dataY := [] } }

/-- An empty collection with the default options (test data). -/
def defaultCollection : TimeSeriesCollection :=
  { start := "2022-01-01", «end» := "2022-03-31", samples := 100, dynamicRange := true,
    min := .num (-2), max := .num 2, dataX := [], series := [], TS_ID := .int 0 }

/-! ## The generator catalog (`generator-defaults.js`) -/

/-- The arguments of `new GeneratorOption(name, default, { min, max, step,
validators })`; the class itself is absent from the sources. -/
structure GeneratorOption where
  name : String
  defaultValue : ℚ
  min : Option ℚ := none
  max : Option ℚ := none
  step : Option ℚ := none
  validators : List String := []

/-- An entry of `GENERATOR_DEFAULTS`; `type` holds the member name of the absent
`GENERATOR_TYPES`. -/
structure GeneratorSpec where
  key : String
  name : String
  type : String
  title : String
  seedRequired : Bool
  options : List GeneratorOption

/-- Source: `GENERATOR_DEFAULTS`, entry by entry in the order of the file. -/
def GENERATOR_DEFAULTS : List GeneratorSpec :=
  [ { key := "CONSTANT", name := "constant", type := "PREFAB", title := "Constant",
      seedRequired := false,
      options := [{ name := "value", defaultValue := 0, step := some (1 / 10) }] },
    { key := "TREND", name := "trend", type := "PREFAB", title := "Linear Trend",
      seedRequired := false,
      options := [
        { name := "position", defaultValue := 1 / 2, min := some 0, max := some 1,
          step := some (1 / 100), validators := ["EXCLUSIVE_0_1"] },
        { name := "slope", defaultValue := 1 / 10, validators := ["NOT_ZERO"] }] },
    { key := "OUTLIER", name := "outlier", type := "PREFAB", title := "Outlier",
      seedRequired := false,
      options := [
        { name := "position", defaultValue := 1 / 2, min := some 0, max := some 1,
          step := some (1 / 100), validators := ["EXCLUSIVE_0_1"] },
        { name := "width", defaultValue := 1, min := some 1, step := some 1 },
        { name := "magnitude", defaultValue := 1 / 2, min := some 0, step := some (1 / 100),
          validators := ["POSITIVE"] }] },
    { key := "RNG_AWGN", name := "awgn", type := "RNG",
      title := "Additive White Gaussian Noise", seedRequired := true,
      options := [
        { name := "sigma", defaultValue := 1 / 10, min := some 0,
          validators := ["NOT_ZERO", "POSITIVE"] }] },
    { key := "RNG_AWLN", name := "awln", type := "RNG",
      title := "Additive White Laplacian Noise", seedRequired := true,
      options := [
        { name := "sigma", defaultValue := 1 / 10, min := some 0,
          validators := ["NOT_ZERO", "POSITIVE"] }] },
    { key := "RNG_AWUN", name := "awun", type := "RNG",
      title := "Additive White Uniform Noise", seedRequired := true,
      options := [
        { name := "sigma", defaultValue := 1 / 10, min := some 0,
          validators := ["NOT_ZERO", "POSITIVE"] }] },
    { key := "RNG_UNIFORM", name := "uniform", type := "RNG", title := "Random Uniform",
      seedRequired := true,
      options := [
        { name := "min", defaultValue := 0 },
        { name := "max", defaultValue := 1 }] },
    { key := "RNG_NORMAL", name := "normal", type := "RNG", title := "Random Normal",
      seedRequired := true,
      options := [
        { name := "mu", defaultValue := 0 },
        { name := "sigma", defaultValue := 1 / 10, min := some 0,
          validators := ["NOT_ZERO"] }] },
    { key := "WAVE_SINE", name := "sine", type := "WAVE", title := "Sine Wave",
      seedRequired := false,
      options := [
        { name := "period", defaultValue := 10, min := some 1, step := some 1,
          validators := ["INTEGER"] },
        { name := "amplitude", defaultValue := 1, min := some (1 / 10), step := some (1 / 10),
          validators := ["POSITIVE"] },
        { name := "offset", defaultValue := 0, min := some 0, step := some 1,
          validators := ["INTEGER"] }] },
    { key := "WAVE_COSINE", name := "cosine", type := "WAVE", title := "Cosine Wave",
      seedRequired := false,
      options := [
        { name := "period", defaultValue := 10, min := some 1, step := some 1,
          validators := ["INTEGER"] },
        { name := "amplitude", defaultValue := 1, min := some (1 / 10), step := some (1 / 10),
          validators := ["POSITIVE"] },
        { name := "offset", defaultValue := 0, min := some 0, step := some 1,
          validators := ["INTEGER"] }] },
    { key := "PDF_UNIFORM", name := "uniform", type := "PDF", title := "PDF Uniform",
      seedRequired := false,
      options := [
        { name := "minSupport", defaultValue := 0, step := some (1 / 10) },
        { name := "maxSupport", defaultValue := 1, step := some (1 / 10) },
        { name := "magnitude", defaultValue := 1 / 10, min := some 0,
          validators := ["POSITIVE"] }] },
    { key := "PDF_NORMAL", name := "normal", type := "PDF", title := "PDF Normal",
      seedRequired := false,
      options := [
        { name := "mu", defaultValue := 0 },
        { name := "sigma", defaultValue := 1 / 10, min := some 0, validators := ["NOT_ZERO"] },
        { name := "magnitude", defaultValue := 1 / 10, min := some 0,
          validators := ["POSITIVE"] }] },
    { key := "PDF_LOGNORMAL", name := "lognormal", type := "PDF", title := "PDF LogNormal",
      seedRequired := false,
      options := [
        { name := "mean", defaultValue := 0 },
        { name := "std", defaultValue := 1 / 10, min := some 0, validators := ["NOT_ZERO"] },
        { name := "magnitude", defaultValue := 1 / 10, min := some 0,
          validators := ["POSITIVE"] }] },
    { key := "PMF_POISSON", name := "poisson", type := "PMF", title := "PMF Poisson",
      seedRequired := false,
      options := [
        { name := "lambda", defaultValue := 1, min := some 1, step := some 1,
          validators := ["INTEGER"] },
        { name := "magnitude", defaultValue := 1 / 10, min := some 0,
          validators := ["POSITIVE"] }] },
    { key := "PMF_GEOMETRIC", name := "geometric", type := "PMF", title := "PMF Geometric",
      seedRequired := false,
      options := [
        { name := "p", defaultValue := 1 / 2, min := some 0, max := some 1,
          validators := ["EXCLUSIVE_0_1"] },
        { name := "magnitude", defaultValue := 1 / 10, min := some 0,
          validators := ["POSITIVE"] }] } ]

/-- Modelled from the spec: the named validator predicates, whose code is absent:
`NOT_ZERO` (value is not 0), `EXCLUSIVE_0_1` (value strictly inside (0,1)),
`INTEGER` (value is a non-negative integer), `POSITIVE` (value above 0); a tag
that is none of these validates nothing. -/
def validates (tag : String) (v : ℚ) : Bool :=
  if tag = "NOT_ZERO" then decide (v ≠ 0)
  else if tag = "EXCLUSIVE_0_1" then decide (0 < v) && decide (v < 1)
  else if tag = "INTEGER" then decide (0 ≤ v) && decide (v.den = 1)
  else if tag = "POSITIVE" then decide (0 < v)
  else false

/-- A default that lies within the declared bounds of its option and passes every
validator attached to it. -/
def GeneratorOption.valid (o : GeneratorOption) : Bool :=
  (match o.min with
    | some m => decide (m ≤ o.defaultValue)
    | none => true) &&
  (match o.max with
    | some m => decide (o.defaultValue ≤ m)
    | none => true) &&
  o.validators.all (fun tag => validates tag o.defaultValue)

/-- A left-only node without operator. -/
def bareLeftNode (l : String) : Node :=
  { opCase := .APPLY_LEFT, left := some l, op := none, right := none, extraOp := none }

/-- A nested-right node. -/
def nestedRightNode (l : String) (op : OpName) (r : String) (extraOp : OpName) : Node :=
  { opCase := .APPLY_NESTED_RIGHT, left := some l, op := some op, right := some r,
    extraOp := some extraOp }

/-- Four constant components of three samples: 5, 2, 10 and 1 (test data). -/
def fourComponents : List Component :=
  [constantComponent "comp_0" 5 3, constantComponent "comp_1" 2 3,
   constantComponent "comp_2" 10 3, constantComponent "comp_3" 1 3]

/-! ## Reference semantics used to state the properties -/

/-- The arithmetic meaning of the three operator tags of the spec:
`ADD(x,y)=x+y`, `SUBTRACT(x,y)=x-y`, `MULTIPLY(x,y)=x*y`. -/
def arith : OpName → Option (JSVal → JSVal → JSVal)
  | .ADD => some add
  | .SUBTRACT => some subtract
  | .MULTIPLY => some multiply
  | .other _ => none

/-- The element `buf[i]` of a bound operand while the accumulator holds `cur`. -/
def Buf.get (cur : List JSVal) (b : Buf) (i : Nat) : JSVal :=
  (b.read cur i).getD .undefined

/-- The elementwise fold of two operands computed from a snapshot `cur` of the
accumulator, over `n` indices: nothing is written while it is computed. -/
def foldCopy (fn : JSVal → JSVal → JSVal) (l r : Buf) (cur : List JSVal) (n : Nat) :
    List JSVal :=
  (List.range n).map (fun i => fn (l.get cur i) (r.get cur i))

/-! ## Properties of the fold -/

theorem applyAt_bound (fn : JSVal → JSVal → JSVal) (l r : Buf) (cur : List JSVal) (i : Nat)
    (hl : l ≠ .unset) (hr : r ≠ .unset) :
    applyAt fn l r cur i = some (fn (l.get cur i) (r.get cur i)) := by
  cases l <;> cases r <;> simp_all [applyAt, Buf.read, Buf.get]

theorem Buf.get_set_ne (b : Buf) (cur : List JSVal) (i j : Nat) (v : JSVal) (h : i ≠ j) :
    b.get (cur.set i v) j = b.get cur j := by
  cases b <;> simp [Buf.get, Buf.read, List.getElem?_set_ne h]

theorem inmapLoop_spec (fn : JSVal → JSVal → JSVal) (l r : Buf)
    (hl : l ≠ .unset) (hr : r ≠ .unset) :
    ∀ (n i : Nat) (vs : List JSVal), ∃ vs1,
      inmapLoop (applyAt fn l r) n i vs = some vs1 ∧ vs1.length = vs.length ∧
      ∀ j, vs1[j]? =
        if i ≤ j ∧ j < i + n then (vs[j]?).map (fun _ => fn (l.get vs j) (r.get vs j))
        else vs[j]? := by
  intro n
  induction n with
  | zero =>
    intro i vs
    refine ⟨vs, rfl, rfl, ?_⟩
    intro j
    have h0 : ¬ (i ≤ j ∧ j < i + 0) := by omega
    rw [if_neg h0]
  | succ n ih =>
    intro i vs
    obtain ⟨vs1, h1, h2, h3⟩ := ih (i + 1) (vs.set i (fn (l.get vs i) (r.get vs i)))
    refine ⟨vs1, ?_, ?_, ?_⟩
    · simp only [inmapLoop, applyAt_bound fn l r vs i hl hr]
      exact h1
    · simpa using h2
    · intro j
      rw [h3 j]
      by_cases hij : i = j
      · subst hij
        have h4 : ¬ (i + 1 ≤ i ∧ i < i + 1 + n) := by omega
        have h5 : i ≤ i ∧ i < i + (n + 1) := by omega
        rw [if_neg h4, if_pos h5, List.getElem?_set]
        by_cases hlen : i < vs.length
        · simp [hlen]
        · simp [hlen, List.getElem?_eq_none (Nat.le_of_not_lt hlen)]
      · rw [List.getElem?_set_ne hij, Buf.get_set_ne l vs i j _ hij,
          Buf.get_set_ne r vs i j _ hij]
        by_cases h6 : i + 1 ≤ j ∧ j < i + 1 + n
        · have h7 : i ≤ j ∧ j < i + (n + 1) := by omega
          rw [if_pos h6, if_pos h7]
        · have h7 : ¬ (i ≤ j ∧ j < i + (n + 1)) := by omega
          rw [if_neg h6, if_neg h7]

theorem inmap_eq_foldCopy (fn : JSVal → JSVal → JSVal) (l r : Buf) (vs : List JSVal)
    (hl : l ≠ .unset) (hr : r ≠ .unset) :
    inmap vs (applyAt fn l r) = some (foldCopy fn l r vs vs.length) := by
  obtain ⟨vs1, h1, h2, h3⟩ := inmapLoop_spec fn l r hl hr vs.length 0 vs
  rw [inmap, h1]
  congr 1
  apply List.ext_getElem?
  intro j
  rw [h3 j]
  by_cases hj : j < vs.length
  · have : 0 ≤ j ∧ j < 0 + vs.length := by omega
    simp [foldCopy, this, hj, List.getElem?_range hj]
  · have : ¬ (0 ≤ j ∧ j < 0 + vs.length) := by omega
    have h4 : vs.length ≤ j := Nat.le_of_not_lt hj
    simp [foldCopy, this, List.getElem?_eq_none, h4]

theorem mapFunLoop_spec (f : Nat → Option JSVal) (g : Nat → JSVal) (hf : ∀ i, f i = some (g i)) :
    ∀ (n i : Nat), mapFunLoop f n i = some ((List.range' i n).map g) := by
  intro n
  induction n with
  | zero => intro i; rfl
  | succ n ih =>
    intro i
    simp [mapFunLoop, hf i, ih (i + 1), List.range'_succ]

theorem mapFun_eq_foldCopy (fn : JSVal → JSVal → JSVal) (l r : Buf) (vs : List JSVal) (n : Nat)
    (hl : l ≠ .unset) (hr : r ≠ .unset) :
    mapFun (applyAt fn l r vs) n = some (foldCopy fn l r vs n) := by
  rw [mapFun, mapFunLoop_spec _ (fun i => fn (l.get vs i) (r.get vs i))
    (fun i => applyAt_bound fn l r vs i hl hr)]
  simp [foldCopy, List.range_eq_range']


theorem getComp_fresh (samples : Nat) (comps : List Component) (id : String) (c : Component)
    (hc : getComponent comps id = some c) (hlen : c.data.length = samples) :
    getComp samples comps id = .ok (c, comps) := by
  simp [getComp, hc, hlen]

theorem foldCopy_length (fn : JSVal → JSVal → JSVal) (l r : Buf) (cur : List JSVal) (n : Nat) :
    (foldCopy fn l r cur n).length = n := by
  simp [foldCopy]

theorem foldCopy_getElem? (fn : JSVal → JSVal → JSVal) (l r : Buf) (cur : List JSVal)
    (n i : Nat) (hi : i < n) :
    (foldCopy fn l r cur n)[i]? = some (fn (l.get cur i) (r.get cur i)) := by
  simp [foldCopy, List.getElem?_range hi]

theorem apply_inplace (samples : Nat) (w : Walk) (op : OpName) (fn : JSVal → JSVal → JSVal)
    (hfn : arith op = some fn) (hl : w.leftVals ≠ .unset) (hr : w.rightVals ≠ .unset) :
    apply samples w op true =
      some (foldCopy fn w.leftVals w.rightVals w.values w.values.length, none) := by
  cases op <;> simp [arith] at hfn <;> subst hfn <;>
    simp [apply, inmap_eq_foldCopy _ _ _ _ hl hr]

theorem apply_copy (samples : Nat) (w : Walk) (op : OpName) (fn : JSVal → JSVal → JSVal)
    (hfn : arith op = some fn) (hl : w.leftVals ≠ .unset) (hr : w.rightVals ≠ .unset) :
    apply samples w op false =
      some (w.values, some (foldCopy fn w.leftVals w.rightVals w.values samples)) := by
  cases op <;> simp [arith] at hfn <;> subst hfn <;>
    simp [apply, mapFun_eq_foldCopy _ _ _ _ _ hl hr]

theorem Buf.get_arr (cur xs : List JSVal) (i : Nat) (a : JSVal) (h : xs[i]? = some a) :
    (Buf.arr xs).get cur i = a := by
  simp [Buf.get, Buf.read, h]

theorem Buf.get_values (cur : List JSVal) (i : Nat) (a : JSVal) (h : cur[i]? = some a) :
    Buf.values.get cur i = a := by
  simp [Buf.get, Buf.read, h]

theorem getElem?_of_lt_length (xs : List JSVal) (i : Nat) (h : i < xs.length) :
    ∃ a, xs[i]? = some a :=
  ⟨xs[i], List.getElem?_eq_getElem h⟩

/-- C1: a both-present node with operator ADD, SUBTRACT or MULTIPLY and no extra
operator leaves `values[i] = op(L[i], R[i])` at every index below `samples`,
whatever the accumulator held before. -/
theorem step_apply_both (samples : Nat) (w : Walk) (n : Node) (lid rid : String)
    (cl cr : Component) (op : OpName) (fn : JSVal → JSVal → JSVal)
    (hcase : n.opCase = .APPLY_BOTH) (hleft : n.left = some lid) (hright : n.right = some rid)
    (hop : n.op = some op) (hfn : arith op = some fn) (hextra : n.extraOp = none)
    (hcl : getComponent w.components lid = some cl)
    (hcr : getComponent w.components rid = some cr)
    (hL : cl.data.length = samples) (hR : cr.data.length = samples)
    (hv : w.values.length = samples) :
    ∃ w1, step samples w n = .ok w1 ∧ w1.values.length = samples ∧
      ∀ i, i < samples → ∃ a b, cl.data[i]? = some a ∧ cr.data[i]? = some b ∧
        w1.values[i]? = some (fn a b) := by
  have happly := apply_inplace samples
    { w with leftVals := .arr cl.data, rightVals := .arr cr.data } op fn hfn
    (by simp) (by simp)
  refine ⟨{ w with leftVals := .arr cl.data, rightVals := .arr cr.data,
                   values := foldCopy fn (.arr cl.data) (.arr cr.data) w.values w.values.length,
                   cacheVals := none }, ?_, ?_, ?_⟩
  · simp only [step, resolveOperands, hcase, hleft, hright, orThrow, bind, Except.bind, pure,
      Except.pure, getComp_fresh samples w.components lid cl hcl hL,
      getComp_fresh samples w.components rid cr hcr hR, applyOp, hop, hextra, applyExtraOp]
    simp only [Option.isSome_none, Bool.not_false, happly]
  · simp [foldCopy_length, hv]
  · intro i hi
    obtain ⟨a, ha⟩ := getElem?_of_lt_length cl.data i (by omega)
    obtain ⟨b, hb⟩ := getElem?_of_lt_length cr.data i (by omega)
    refine ⟨a, b, ha, hb, ?_⟩
    simp only []
    rw [foldCopy_getElem? _ _ _ _ _ _ (by omega), Buf.get_arr _ _ _ _ ha, Buf.get_arr _ _ _ _ hb]

theorem step_apply_both_witness :
    (∃ w1, step 3 (initWalk 3 [constantComponent "comp_0" 3 3, constantComponent "comp_1" 4 3])
        (bothNode "comp_0" .SUBTRACT "comp_1") = .ok w1 ∧ w1.values.length = 3 ∧
      ∀ i, i < 3 → ∃ a b, (constantComponent "comp_0" 3 3).data[i]? = some a ∧
        (constantComponent "comp_1" 4 3).data[i]? = some b ∧
        w1.values[i]? = some (subtract a b)) ∧
    (walk 3 (initWalk 3 [constantComponent "comp_0" 3 3, constantComponent "comp_1" 4 3])
        [bothNode "comp_0" .SUBTRACT "comp_1"]).toOption.map (fun w => w.values)
      = some [.num (-1), .num (-1), .num (-1)] :=
  ⟨step_apply_both 3 (initWalk 3 [constantComponent "comp_0" 3 3, constantComponent "comp_1" 4 3])
      (bothNode "comp_0" .SUBTRACT "comp_1") "comp_0" "comp_1"
      (constantComponent "comp_0" 3 3) (constantComponent "comp_1" 4 3) .SUBTRACT subtract
      rfl rfl rfl rfl rfl rfl rfl rfl rfl rfl rfl,
    by with_unfolding_all decide⟩

/-- C3: a left-only node with operator ADD, SUBTRACT or MULTIPLY and no extra
operator leaves `values[i] = op(L[i], values[i])`: the component is the left
operand and the accumulator as it was before the node the right one. -/
theorem step_apply_left (samples : Nat) (w : Walk) (n : Node) (lid : String)
    (c : Component) (op : OpName) (fn : JSVal → JSVal → JSVal)
    (hcase : n.opCase = .APPLY_LEFT) (hleft : n.left = some lid)
    (hop : n.op = some op) (hfn : arith op = some fn) (hextra : n.extraOp = none)
    (hc : getComponent w.components lid = some c)
    (hL : c.data.length = samples) (hv : w.values.length = samples) :
    ∃ w1, step samples w n = .ok w1 ∧ w1.values.length = samples ∧
      ∀ i, i < samples → ∃ a v, c.data[i]? = some a ∧ w.values[i]? = some v ∧
        w1.values[i]? = some (fn a v) := by
  have happly := apply_inplace samples
    { w with leftVals := .arr c.data, rightVals := .values } op fn hfn (by simp) (by simp)
  refine ⟨{ w with leftVals := .arr c.data, rightVals := .values,
                   values := foldCopy fn (.arr c.data) .values w.values w.values.length,
                   cacheVals := none }, ?_, ?_, ?_⟩
  · simp only [step, resolveOperands, hcase, hleft, orThrow, bind, Except.bind, pure,
      Except.pure, getComp_fresh samples w.components lid c hc hL, applyOp, hop, hextra,
      applyExtraOp]
    simp only [Option.isSome_none, Bool.not_false, happly]
  · simp [foldCopy_length, hv]
  · intro i hi
    obtain ⟨a, ha⟩ := getElem?_of_lt_length c.data i (by omega)
    obtain ⟨v, hb⟩ := getElem?_of_lt_length w.values i (by omega)
    refine ⟨a, v, ha, hb, ?_⟩
    simp only []
    rw [foldCopy_getElem? _ _ _ _ _ _ (by omega), Buf.get_arr _ _ _ _ ha,
      Buf.get_values _ _ _ hb]

theorem step_apply_left_witness :
    (∃ w1, step 3 (initWalk 3 [constantComponent "comp_0" 5 3]) (leftNode "comp_0" .ADD) = .ok w1 ∧
      w1.values.length = 3 ∧
      ∀ i, i < 3 → ∃ a v, (constantComponent "comp_0" 5 3).data[i]? = some a ∧
        (initWalk 3 [constantComponent "comp_0" 5 3]).values[i]? = some v ∧
        w1.values[i]? = some (add a v)) ∧
    (walk 3 (initWalk 3 [constantComponent "comp_0" 5 3])
        [leftNode "comp_0" .ADD]).toOption.map (fun w => w.values)
      = some [.num 5, .num 5, .num 5] :=
  ⟨step_apply_left 3 (initWalk 3 [constantComponent "comp_0" 5 3]) (leftNode "comp_0" .ADD)
      "comp_0" (constantComponent "comp_0" 5 3) .ADD add rfl rfl rfl rfl rfl rfl rfl rfl,
    by with_unfolding_all decide⟩

/-- C4: a right-only node with operator ADD, SUBTRACT or MULTIPLY and no extra
operator leaves `values[i] = op(values[i], R[i])` (accumulator minus `R` for
SUBTRACT), and the in-place update through the alias is the array the
side-buffer fold returns on a copy of the accumulator. -/
theorem step_apply_right (samples : Nat) (w : Walk) (n : Node) (rid : String)
    (c : Component) (op : OpName) (fn : JSVal → JSVal → JSVal)
    (hcase : n.opCase = .APPLY_RIGHT) (hright : n.right = some rid)
    (hop : n.op = some op) (hfn : arith op = some fn) (hextra : n.extraOp = none)
    (hc : getComponent w.components rid = some c)
    (hR : c.data.length = samples) (hv : w.values.length = samples) :
    ∃ w1, step samples w n = .ok w1 ∧ w1.values.length = samples ∧
      (∀ i, i < samples → ∃ v b, w.values[i]? = some v ∧ c.data[i]? = some b ∧
        w1.values[i]? = some (fn v b)) ∧
      (op = .SUBTRACT → ∀ (i : Nat) (x y : ℚ), w.values[i]? = some (.num x) → c.data[i]? = some (.num y) →
        w1.values[i]? = some (.num (x - y))) ∧
      mapFun (applyAt fn (.arr w.values) (.arr c.data) w.values) samples = some w1.values := by
  have happly := apply_inplace samples
    { w with leftVals := .values, rightVals := .arr c.data } op fn hfn (by simp) (by simp)
  have hidx : ∀ i, i < samples → ∃ v b, w.values[i]? = some v ∧ c.data[i]? = some b ∧
      (foldCopy fn .values (.arr c.data) w.values w.values.length)[i]? = some (fn v b) := by
    intro i hi
    obtain ⟨v, ha⟩ := getElem?_of_lt_length w.values i (by omega)
    obtain ⟨b, hb⟩ := getElem?_of_lt_length c.data i (by omega)
    refine ⟨v, b, ha, hb, ?_⟩
    rw [foldCopy_getElem? _ _ _ _ _ _ (by omega), Buf.get_values _ _ _ ha,
      Buf.get_arr _ _ _ _ hb]
  refine ⟨{ w with leftVals := .values, rightVals := .arr c.data,
                   values := foldCopy fn .values (.arr c.data) w.values w.values.length,
                   cacheVals := none }, ?_, ?_, hidx, ?_, ?_⟩
  · simp only [step, resolveOperands, hcase, hright, orThrow, bind, Except.bind, pure,
      Except.pure, getComp_fresh samples w.components rid c hc hR, applyOp, hop, hextra,
      applyExtraOp]
    simp only [Option.isSome_none, Bool.not_false, happly]
  · simp [foldCopy_length, hv]
  · intro hsub i x y hx hy
    subst hsub
    simp only [arith, Option.some.injEq] at hfn
    subst hfn
    have hi : i < samples := by
      rw [← hv]
      exact (List.getElem?_eq_some.mp hx).1
    obtain ⟨v, b, h1, h2, h3⟩ := hidx i hi
    rw [hx] at h1
    rw [hy] at h2
    cases h1
    cases h2
    simpa [subtract] using h3
  · rw [mapFun_eq_foldCopy _ _ _ _ _ (by simp) (by simp)]
    congr 1
    simp only [foldCopy, hv]
    apply List.map_congr_left
    intro i _
    simp [Buf.get, Buf.read]

theorem step_apply_right_witness :
    ∃ w1, step 3 { initWalk 3 [constantComponent "comp_0" 4 3] with
          values := [.num 10, .num 20, .num 30] } (rightNode .SUBTRACT "comp_0") = .ok w1 ∧
      w1.values.length = 3 ∧
      (∀ i, i < 3 → ∃ v b, [JSVal.num 10, .num 20, .num 30][i]? = some v ∧
        (constantComponent "comp_0" 4 3).data[i]? = some b ∧
        w1.values[i]? = some (subtract v b)) ∧
      (OpName.SUBTRACT = .SUBTRACT → ∀ (i : Nat) (x y : ℚ), [JSVal.num 10, .num 20, .num 30][i]? = some (.num x) →
        (constantComponent "comp_0" 4 3).data[i]? = some (.num y) →
        w1.values[i]? = some (.num (x - y))) ∧
      mapFun (applyAt subtract (.arr [.num 10, .num 20, .num 30])
        (.arr (constantComponent "comp_0" 4 3).data) [.num 10, .num 20, .num 30]) 3
        = some w1.values :=
  step_apply_right 3 { initWalk 3 [constantComponent "comp_0" 4 3] with
      values := [.num 10, .num 20, .num 30] } (rightNode .SUBTRACT "comp_0")
    "comp_0" (constantComponent "comp_0" 4 3) .SUBTRACT subtract rfl rfl rfl rfl rfl rfl rfl rfl

/-- C5 as stated fails: with `A = [5,5,5]`, `B = [2,2,2]`, first operator ADD and
second operator SUBTRACT the node leaves `5 - (5 + 2) = -2` at every index, not
`(5 + 2) - 5 = 2`. -/
theorem step_nested_left_counterexample :
    (step 3 (initWalk 3 [constantComponent "comp_0" 5 3, constantComponent "comp_1" 2 3])
        (nestedLeftNode "comp_0" .ADD "comp_1" .SUBTRACT)).toOption.map (fun w => w.values)
      = some [.num (-2), .num (-2), .num (-2)] ∧
    ¬ ∃ w1, step 3 (initWalk 3 [constantComponent "comp_0" 5 3, constantComponent "comp_1" 2 3])
        (nestedLeftNode "comp_0" .ADD "comp_1" .SUBTRACT) = .ok w1 ∧
      ∀ i, i < 3 → w1.values[i]? = some (subtract (add (.num 5) (.num 2)) (.num 5)) := by
  have hcode : (step 3
      (initWalk 3 [constantComponent "comp_0" 5 3, constantComponent "comp_1" 2 3])
      (nestedLeftNode "comp_0" .ADD "comp_1" .SUBTRACT)).toOption.map (fun w => w.values)
      = some [.num (-2), .num (-2), .num (-2)] := by with_unfolding_all decide
  refine ⟨hcode, ?_⟩
  rintro ⟨w1, hstep, hall⟩
  rw [hstep] at hcode
  simp only [Except.toOption, Option.map_some', Option.some.injEq] at hcode
  have h0 := hall 0 (by decide)
  rw [hcode] at h0
  revert h0
  with_unfolding_all decide

/-- C5, amended: a nested-left node first folds `A op1 B` into a side buffer
without writing the accumulator, then leaves `values[i] = op2(A[i], op1(A[i], B[i]))`:
the left component is the left operand of the second fold, the side buffer the
right one. -/
theorem step_apply_nested_left (samples : Nat) (w : Walk) (n : Node) (lid rid : String)
    (cl cr : Component) (op1 op2 : OpName) (fn1 fn2 : JSVal → JSVal → JSVal)
    (hcase : n.opCase = .APPLY_NESTED_LEFT) (hleft : n.left = some lid)
    (hright : n.right = some rid)
    (hop : n.op = some op1) (hfn1 : arith op1 = some fn1)
    (hextra : n.extraOp = some op2) (hfn2 : arith op2 = some fn2)
    (hcl : getComponent w.components lid = some cl)
    (hcr : getComponent w.components rid = some cr)
    (hL : cl.data.length = samples) (hR : cr.data.length = samples)
    (hv : w.values.length = samples) :
    ∃ w1 w2 w3 cache, resolveOperands samples w n = .ok w1 ∧
      applyOp samples w1 n = .ok w2 ∧ w2.values = w.values ∧ w2.cacheVals = some cache ∧
      applyExtraOp samples w2 n = .ok w3 ∧ step samples w n = .ok w3 ∧
      w3.values.length = samples ∧
      ∀ i, i < samples → ∃ a b, cl.data[i]? = some a ∧ cr.data[i]? = some b ∧
        cache[i]? = some (fn1 a b) ∧ w3.values[i]? = some (fn2 a (fn1 a b)) := by
  have happly1 := apply_copy samples
    { w with leftVals := .arr cl.data, rightVals := .arr cr.data } op1 fn1 hfn1
    (by simp) (by simp)
  have happly2 := apply_inplace samples
    { w with leftVals := .arr cl.data,
             rightVals := .arr (foldCopy fn1 (.arr cl.data) (.arr cr.data) w.values samples),
             cacheVals := some (foldCopy fn1 (.arr cl.data) (.arr cr.data) w.values samples) }
    op2 fn2 hfn2 (by simp) (by simp)
  have h1 : resolveOperands samples w n =
      .ok { w with leftVals := .arr cl.data, rightVals := .arr cr.data } := by
    simp only [resolveOperands, hcase, hleft, hright, orThrow, bind, Except.bind, pure,
      Except.pure, getComp_fresh samples w.components lid cl hcl hL,
      getComp_fresh samples w.components rid cr hcr hR]
  have h2 : applyOp samples { w with leftVals := .arr cl.data, rightVals := .arr cr.data } n =
      .ok { w with leftVals := .arr cl.data, rightVals := .arr cr.data,
                   cacheVals := some (foldCopy fn1 (.arr cl.data) (.arr cr.data) w.values
                     samples) } := by
    simp only [applyOp, hop, hextra, Option.isSome_some, Bool.not_true, happly1, orThrow, bind,
      Except.bind, pure, Except.pure]
  have h3 : applyExtraOp samples
      { w with leftVals := .arr cl.data, rightVals := .arr cr.data,
               cacheVals := some (foldCopy fn1 (.arr cl.data) (.arr cr.data) w.values
                 samples) } n =
      .ok { w with
        leftVals := .arr cl.data,
        rightVals := .arr (foldCopy fn1 (.arr cl.data) (.arr cr.data) w.values samples),
        cacheVals := some (foldCopy fn1 (.arr cl.data) (.arr cr.data) w.values samples),
        values := foldCopy fn2 (.arr cl.data)
          (.arr (foldCopy fn1 (.arr cl.data) (.arr cr.data) w.values samples)) w.values
          w.values.length } := by
    simp only [applyExtraOp, hextra, hcase, hleft, orThrow, bind, Except.bind, pure,
      Except.pure, getComp_fresh samples w.components lid cl hcl hL, happly2]
  refine ⟨_, _, _, _, h1, h2, rfl, rfl, h3, ?_, ?_, ?_⟩
  · simp only [step, h1, h2, h3, bind, Except.bind]
  · simp [foldCopy_length, hv]
  · intro i hi
    obtain ⟨a, ha⟩ := getElem?_of_lt_length cl.data i (by omega)
    obtain ⟨b, hb⟩ := getElem?_of_lt_length cr.data i (by omega)
    have hcache : (foldCopy fn1 (.arr cl.data) (.arr cr.data) w.values samples)[i]? =
        some (fn1 a b) := by
      rw [foldCopy_getElem? _ _ _ _ _ _ hi, Buf.get_arr _ _ _ _ ha, Buf.get_arr _ _ _ _ hb]
    refine ⟨a, b, ha, hb, hcache, ?_⟩
    simp only []
    rw [foldCopy_getElem? _ _ _ _ _ _ (by omega), Buf.get_arr _ _ _ _ ha,
      Buf.get_arr _ _ _ _ hcache]

theorem step_apply_nested_left_witness :
    ∃ w1 w2 w3 cache,
      resolveOperands 3
        (initWalk 3 [constantComponent "comp_0" 5 3, constantComponent "comp_1" 2 3])
        (nestedLeftNode "comp_0" .ADD "comp_1" .SUBTRACT) = .ok w1 ∧
      applyOp 3 w1 (nestedLeftNode "comp_0" .ADD "comp_1" .SUBTRACT) = .ok w2 ∧
      w2.values =
        (initWalk 3 [constantComponent "comp_0" 5 3, constantComponent "comp_1" 2 3]).values ∧
      w2.cacheVals = some cache ∧
      applyExtraOp 3 w2 (nestedLeftNode "comp_0" .ADD "comp_1" .SUBTRACT) = .ok w3 ∧
      step 3 (initWalk 3 [constantComponent "comp_0" 5 3, constantComponent "comp_1" 2 3])
        (nestedLeftNode "comp_0" .ADD "comp_1" .SUBTRACT) = .ok w3 ∧
      w3.values.length = 3 ∧
      ∀ i, i < 3 → ∃ a b, (constantComponent "comp_0" 5 3).data[i]? = some a ∧
        (constantComponent "comp_1" 2 3).data[i]? = some b ∧
        cache[i]? = some (add a b) ∧ w3.values[i]? = some (subtract a (add a b)) :=
  step_apply_nested_left 3
    (initWalk 3 [constantComponent "comp_0" 5 3, constantComponent "comp_1" 2 3])
    (nestedLeftNode "comp_0" .ADD "comp_1" .SUBTRACT) "comp_0" "comp_1"
    (constantComponent "comp_0" 5 3) (constantComponent "comp_1" 2 3) .ADD .SUBTRACT add subtract
    rfl rfl rfl rfl rfl rfl rfl rfl rfl rfl rfl rfl

/-- C6: the fold helper `apply` computes `x+y`, `x-y`, `x*y` per index for ADD,
SUBTRACT, MULTIPLY, in place (over the accumulator) and into a side buffer (over
`samples` indices), and every other operator name behaves exactly as ADD. -/
theorem apply_operator_semantics (samples : Nat) (w : Walk)
    (hl : w.leftVals ≠ .unset) (hr : w.rightVals ≠ .unset) :
    (∀ x y : ℚ, add (.num x) (.num y) = .num (x + y) ∧
      subtract (.num x) (.num y) = .num (x - y) ∧
      multiply (.num x) (.num y) = .num (x * y)) ∧
    arith .ADD = some add ∧ arith .SUBTRACT = some subtract ∧ arith .MULTIPLY = some multiply ∧
    (∀ op fn, arith op = some fn →
      (∃ vs, apply samples w op true = some (vs, none) ∧ vs.length = w.values.length ∧
        ∀ i, i < w.values.length →
          vs[i]? = some (fn (w.leftVals.get w.values i) (w.rightVals.get w.values i))) ∧
      (∃ buf, apply samples w op false = some (w.values, some buf) ∧ buf.length = samples ∧
        ∀ i, i < samples →
          buf[i]? = some (fn (w.leftVals.get w.values i) (w.rightVals.get w.values i)))) ∧
    (∀ tag inplace, apply samples w (.other tag) inplace = apply samples w .ADD inplace) := by
  refine ⟨fun x y => ⟨rfl, rfl, rfl⟩, rfl, rfl, rfl, ?_, ?_⟩
  · intro op fn hfn
    refine ⟨⟨_, apply_inplace samples w op fn hfn hl hr, foldCopy_length _ _ _ _ _, ?_⟩,
      ⟨_, apply_copy samples w op fn hfn hl hr, foldCopy_length _ _ _ _ _, ?_⟩⟩
    · intro i hi
      exact foldCopy_getElem? _ _ _ _ _ _ hi
    · intro i hi
      exact foldCopy_getElem? _ _ _ _ _ _ hi
  · intro tag inplace
    simp [apply]

theorem apply_operator_semantics_witness :
    (multiply (.num 3) (.num 4) = .num 12) ∧
    (∃ vs, apply 2 { initWalk 2 [] with leftVals := .arr [.num 3, .num 1], rightVals := .values }
        .SUBTRACT true = some (vs, none) ∧ vs.length = 2) ∧
    apply 2 { initWalk 2 [] with leftVals := .arr [.num 3, .num 1], rightVals := .values }
        (.other "DIVIDE") false =
      apply 2 { initWalk 2 [] with leftVals := .arr [.num 3, .num 1], rightVals := .values }
        .ADD false := by
  have h := apply_operator_semantics 2
    { initWalk 2 [] with leftVals := .arr [.num 3, .num 1], rightVals := .values }
    (by simp) (by simp)
  refine ⟨?_, ?_, h.2.2.2.2.2 "DIVIDE" false⟩
  · have h3 := (h.1 3 4).2.2
    norm_num at h3
    exact h3
  · obtain ⟨vs, h1, h2, _⟩ := (h.2.2.2.2.1 .SUBTRACT subtract rfl).1
    exact ⟨vs, h1, h2⟩

/-! ## Lengths after `generate` -/

theorem inmapLoop_length (f : List JSVal → Nat → Option JSVal) :
    ∀ (n i : Nat) (vs vs1 : List JSVal), inmapLoop f n i vs = some vs1 →
      vs1.length = vs.length := by
  intro n
  induction n with
  | zero =>
    intro i vs vs1 h
    simp only [inmapLoop, Option.some.injEq] at h
    rw [← h]
  | succ n ih =>
    intro i vs vs1 h
    simp only [inmapLoop] at h
    cases hf : f vs i with
    | none => simp [hf] at h
    | some v =>
      simp only [hf] at h
      have := ih (i + 1) _ vs1 h
      simpa using this

theorem apply_length (samples : Nat) (w : Walk) (op : OpName) (inplace : Bool)
    (vs : List JSVal) (r : Option (List JSVal))
    (h : apply samples w op inplace = some (vs, r)) : vs.length = w.values.length := by
  cases op <;> cases inplace <;>
    simp only [apply, Bool.false_eq_true, if_false, if_true, Option.map_eq_some',
      Prod.mk.injEq] at h <;>
    obtain ⟨a, h1, h2, _⟩ := h
  all_goals subst h2
  all_goals first
    | rfl
    | exact inmapLoop_length _ _ _ _ _ h1

theorem apply_total (samples : Nat) (w : Walk) (op : OpName) (inplace : Bool)
    (hl : w.leftVals ≠ .unset) (hr : w.rightVals ≠ .unset) :
    ∃ vs r, apply samples w op inplace = some (vs, r) := by
  have key : ∀ op1 fn, arith op1 = some fn → ∃ vs r, apply samples w op1 inplace = some (vs, r) := by
    intro op1 fn hfn
    cases inplace
    · exact ⟨_, _, apply_copy samples w op1 fn hfn hl hr⟩
    · exact ⟨_, _, apply_inplace samples w op1 fn hfn hl hr⟩
  cases op with
  | ADD => exact key .ADD add rfl
  | SUBTRACT => exact key .SUBTRACT subtract rfl
  | MULTIPLY => exact key .MULTIPLY multiply rfl
  | other tag =>
    have h : apply samples w (.other tag) inplace = apply samples w .ADD inplace := by
      simp [apply]
    rw [h]
    exact key .ADD add rfl

theorem regenerateFirst_ids (samples : Nat) (id : String) (comps : List Component) :
    (regenerateFirst samples id comps).map (fun c => c.id) = comps.map (fun c => c.id) := by
  induction comps with
  | nil => rfl
  | cons c cs ih =>
    simp only [regenerateFirst]
    split
    · simp [Component.generate]
    · simp [ih]

theorem getComponent_isSome_ids (comps1 comps2 : List Component) (id : String)
    (h : comps1.map (fun c => c.id) = comps2.map (fun c => c.id)) :
    (getComponent comps1 id).isSome = (getComponent comps2 id).isSome := by
  induction comps1 generalizing comps2 with
  | nil =>
    cases comps2 with
    | nil => rfl
    | cons d ds => simp at h
  | cons c cs ih =>
    cases comps2 with
    | nil => simp at h
    | cons d ds =>
      simp only [List.map_cons, List.cons.injEq] at h
      obtain ⟨h1, h2⟩ := h
      simp only [getComponent, List.find?_cons, h1]
      cases hd : (d.id == id)
      · exact ih ds h2
      · rfl

theorem getComp_values (samples : Nat) (comps : List Component) (id : String)
    (c : Component) (comps1 : List Component)
    (h : getComp samples comps id = .ok (c, comps1)) :
    comps1.map (fun c => c.id) = comps.map (fun c => c.id) := by
  simp only [getComp] at h
  cases hc : getComponent comps id with
  | none => simp [hc] at h
  | some c0 =>
    simp only [hc] at h
    split at h
    · simp only [Except.ok.injEq, Prod.mk.injEq] at h
      rw [← h.2]
      exact regenerateFirst_ids samples id comps
    · simp only [Except.ok.injEq, Prod.mk.injEq] at h
      rw [← h.2]

theorem getComp_total (samples : Nat) (comps : List Component) (id : String)
    (h : (getComponent comps id).isSome = true) :
    ∃ c comps1, getComp samples comps id = .ok (c, comps1) := by
  obtain ⟨c0, hc⟩ := Option.isSome_iff_exists.mp h
  simp only [getComp, hc]
  split
  · exact ⟨_, _, rfl⟩
  · exact ⟨_, _, rfl⟩

theorem resolveOperands_values (samples : Nat) (w w1 : Walk) (n : Node)
    (h : resolveOperands samples w n = .ok w1) : w1.values = w.values := by
  unfold resolveOperands at h
  cases hcase : n.opCase <;> simp only [hcase, bind, Except.bind, pure, Except.pure] at h
  all_goals repeat' split at h
  all_goals (cases h <;> rfl)

theorem applyOp_length (samples : Nat) (w w1 : Walk) (n : Node)
    (h : applyOp samples w n = .ok w1) : w1.values.length = w.values.length := by
  unfold applyOp at h
  cases hop : n.op with
  | none =>
    simp only [hop, pure, Except.pure, Except.ok.injEq] at h
    subst h
    rfl
  | some op =>
    simp only [hop, bind, Except.bind, pure, Except.pure] at h
    cases ha : apply samples w op (!n.extraOp.isSome) with
    | none =>
      simp only [ha, orThrow] at h
      cases h
    | some p =>
      obtain ⟨vs, r⟩ := p
      simp only [ha, orThrow, Except.ok.injEq] at h
      subst h
      exact apply_length samples w op _ vs r ha

theorem applyExtraOp_length (samples : Nat) (w w1 : Walk) (n : Node)
    (h : applyExtraOp samples w n = .ok w1) : w1.values.length = w.values.length := by
  unfold applyExtraOp at h
  split at h
  · rename_i extraOp cache _ _
    simp only [bind, Except.bind, pure, Except.pure] at h
    split at h
    · cases h
    · rename_i w2 hw2
      have hvals : w2.values = w.values := by
        split at hw2
        all_goals repeat' split at hw2
        all_goals (cases hw2 <;> rfl)
      cases ha : apply samples w2 extraOp true with
      | none =>
        simp only [ha, orThrow] at h
        cases h
      | some p =>
        obtain ⟨vs, r⟩ := p
        simp only [ha, orThrow, Except.ok.injEq] at h
        subst h
        rw [← hvals]
        exact apply_length samples w2 extraOp true vs r ha
  · simp only [pure, Except.pure, Except.ok.injEq] at h
    subst h
    rfl

theorem step_length (samples : Nat) (w w1 : Walk) (n : Node)
    (h : step samples w n = .ok w1) : w1.values.length = w.values.length := by
  simp only [step, bind, Except.bind] at h
  split at h
  · cases h
  · rename_i wa ha
    split at h
    · cases h
    · rename_i wb hb
      rw [applyExtraOp_length samples wb w1 n h, applyOp_length samples wa wb n hb,
        resolveOperands_values samples w wa n ha]

theorem walk_length (samples : Nat) (nodes : List Node) :
    ∀ (w w1 : Walk), walk samples w nodes = .ok w1 → w1.values.length = w.values.length := by
  induction nodes with
  | nil =>
    intro w w1 h
    simp only [walk, Except.ok.injEq] at h
    rw [h]
  | cons n ns ih =>
    intro w w1 h
    simp only [walk] at h
    split at h
    · cases h
    · rename_i w2 h2
      rw [ih w2 w1 h, step_length samples w w2 n h2]

theorem resolveOperands_total (samples : Nat) (w : Walk) (n : Node)
    (h : n.resolves w.components = true) :
    ∃ w1, resolveOperands samples w n = .ok w1 ∧
      w1.components.map (fun c => c.id) = w.components.map (fun c => c.id) ∧
      w1.leftVals ≠ .unset ∧ w1.rightVals ≠ .unset := by
  unfold Node.resolves at h
  unfold resolveOperands
  cases hcase : n.opCase <;> simp only [hcase, Bool.and_eq_true] at h
  case APPLY_NESTED_RIGHT => cases h
  case APPLY_LEFT =>
    cases hl : n.left with
    | none => simp [hl] at h
    | some l =>
      simp only [hl] at h
      obtain ⟨c, comps1, hc⟩ := getComp_total samples w.components l h
      refine ⟨{ w with leftVals := .arr c.data, rightVals := .values, components := comps1 },
        ?_, ?_, ?_, ?_⟩
      · simp only [orThrow, bind, Except.bind, pure, Except.pure, hc]
      · exact getComp_values samples w.components l c comps1 hc
      · simp
      · simp
  case APPLY_RIGHT =>
    cases hr : n.right with
    | none => simp [hr] at h
    | some r =>
      simp only [hr] at h
      obtain ⟨c, comps1, hc⟩ := getComp_total samples w.components r h
      refine ⟨{ w with leftVals := .values, rightVals := .arr c.data, components := comps1 },
        ?_, ?_, ?_, ?_⟩
      · simp only [orThrow, bind, Except.bind, pure, Except.pure, hc]
      · exact getComp_values samples w.components r c comps1 hc
      · simp
      · simp
  all_goals
    cases hl : n.left with
    | none => simp [hl] at h
    | some l =>
      cases hr : n.right with
      | none => simp [hr] at h
      | some r =>
        simp only [hl, hr] at h
        obtain ⟨c, comps1, hc⟩ := getComp_total samples w.components l h.1
        have hids := getComp_values samples w.components l c comps1 hc
        have h2 : (getComponent comps1 r).isSome = true := by
          rw [getComponent_isSome_ids comps1 w.components r hids]
          exact h.2
        obtain ⟨d, comps2, hd⟩ := getComp_total samples comps1 r h2
        refine ⟨{ w with leftVals := .arr c.data, rightVals := .arr d.data,
                         components := comps2 }, ?_, ?_, ?_, ?_⟩
        · simp only [orThrow, bind, Except.bind, pure, Except.pure, hc, hd]
        · exact (getComp_values samples comps1 r d comps2 hd).trans hids
        · simp
        · simp

theorem applyOp_total (samples : Nat) (w : Walk) (n : Node)
    (hl : w.leftVals ≠ .unset) (hr : w.rightVals ≠ .unset) :
    ∃ w1, applyOp samples w n = .ok w1 ∧ w1.components = w.components ∧
      w1.leftVals = w.leftVals ∧ w1.rightVals = w.rightVals := by
  unfold applyOp
  cases hop : n.op with
  | none => exact ⟨w, rfl, rfl, rfl, rfl⟩
  | some op =>
    obtain ⟨vs, r, ha⟩ := apply_total samples w op (!n.extraOp.isSome) hl hr
    refine ⟨{ w with values := vs, cacheVals := r }, ?_, ?_, ?_, ?_⟩
    · simp only [ha, orThrow, bind, Except.bind, pure, Except.pure]
    · rfl
    · rfl
    · rfl

theorem applyExtraOp_total (samples : Nat) (w : Walk) (n : Node)
    (h : n.resolves w.components = true)
    (hl : w.leftVals ≠ .unset) (hr : w.rightVals ≠ .unset) :
    ∃ w1, applyExtraOp samples w n = .ok w1 ∧
      w1.components.map (fun c => c.id) = w.components.map (fun c => c.id) := by
  unfold applyExtraOp
  cases hx : n.extraOp with
  | none => exact ⟨w, rfl, rfl⟩
  | some extraOp =>
    cases hcache : w.cacheVals with
    | none => exact ⟨w, rfl, rfl⟩
    | some cache =>
      unfold Node.resolves at h
      cases hcase : n.opCase <;> simp only [hcase, Bool.and_eq_true] at h
      case APPLY_NESTED_RIGHT => cases h
      case APPLY_NESTED_LEFT =>
        cases hleft : n.left with
        | none => simp [hleft] at h
        | some l =>
          simp only [hleft] at h
          obtain ⟨c, comps1, hc⟩ := getComp_total samples w.components l h.1
          obtain ⟨vs, r, ha⟩ := apply_total samples
            { w with leftVals := .arr c.data, rightVals := .arr cache, components := comps1,
                     cacheVals := some cache }
            extraOp true (by simp) (by simp)
          refine ⟨{ w with leftVals := .arr c.data, rightVals := .arr cache,
                           components := comps1, values := vs, cacheVals := some cache },
            ?_, ?_⟩
          · simp only [orThrow, bind, Except.bind, pure, Except.pure, hc, ha]
          · exact getComp_values samples w.components l c comps1 hc
      all_goals
        obtain ⟨vs, r, ha⟩ := apply_total samples w extraOp true hl hr
        refine ⟨{ w with values := vs }, ?_, ?_⟩
        · simp only [orThrow, bind, Except.bind, pure, Except.pure, ha]
        · rfl

theorem Node.resolves_ids (comps1 comps2 : List Component) (n : Node)
    (h : comps1.map (fun c => c.id) = comps2.map (fun c => c.id)) :
    n.resolves comps1 = n.resolves comps2 := by
  unfold Node.resolves
  cases n.opCase <;> cases n.left <;> cases n.right <;>
    simp only [getComponent_isSome_ids comps1 comps2 _ h]

theorem step_total (samples : Nat) (w : Walk) (n : Node)
    (h : n.resolves w.components = true) :
    ∃ w1, step samples w n = .ok w1 ∧
      w1.components.map (fun c => c.id) = w.components.map (fun c => c.id) := by
  obtain ⟨wa, ha, hida, hla, hra⟩ := resolveOperands_total samples w n h
  obtain ⟨wb, hb, hcb, hlb, hrb⟩ := applyOp_total samples wa n hla hra
  have hres : n.resolves wb.components = true := by
    rw [hcb, Node.resolves_ids wa.components w.components n hida]
    exact h
  obtain ⟨wc, hc, hidc⟩ := applyExtraOp_total samples wb n hres (hlb ▸ hla) (hrb ▸ hra)
  refine ⟨wc, ?_, ?_⟩
  · simp only [step, bind, Except.bind, ha, hb, hc]
  · rw [hidc, hcb, hida]

theorem walk_total (samples : Nat) (nodes : List Node) :
    ∀ (w : Walk), (∀ n ∈ nodes, n.resolves w.components = true) →
      ∃ w1, walk samples w nodes = .ok w1 := by
  induction nodes with
  | nil => intro w _; exact ⟨w, rfl⟩
  | cons n ns ih =>
    intro w h
    obtain ⟨w2, h2, hids⟩ := step_total samples w n (h n (List.mem_cons_self n ns))
    have h3 : ∀ m ∈ ns, m.resolves w2.components = true := by
      intro m hm
      rw [Node.resolves_ids w2.components w.components m hids]
      exact h m (List.mem_cons_of_mem n hm)
    obtain ⟨w1, h1⟩ := ih w2 h3
    exact ⟨w1, by simp only [walk, h2, h1]⟩

theorem generate_ok_lengths {κ : Type} (E : Env κ) (ts ts1 : TimeSeries κ)
    (hdates : ∀ a b n, (E.datespace a b n).length = n) (h : ts.generate E = .ok ts1) :
    ts1.samples = ts.samples ∧ ts1.dataY.length = ts1.samples ∧
      ts1.dataX.length = ts1.samples := by
  simp only [TimeSeries.generate] at h
  split at h
  · cases h
  · rename_i w hw
    have hlen := walk_length ts.samples _ _ w hw
    cases h
    refine ⟨rfl, ?_, hdates _ _ _⟩
    simpa [initWalk, filled] using hlen

/-- C2: once `generate` has run to its end, `dataY.length = samples` and
`dataX.length = samples`, for every series and every node sequence, given a date
axis builder that returns `samples` points; it does run to its end when every
node's case binds both operands over live component ids; and the same lengths
hold when `setOption` for `start` / `end` / `samples`, `addComponent`,
`removeComponent` or `switchComponents` return. -/
theorem generate_lengths {κ : Type} (E : Env κ) (ts : TimeSeries κ)
    (hdates : ∀ a b n, (E.datespace a b n).length = n) :
    (∀ ts1, ts.generate E = .ok ts1 →
      ts1.samples = ts.samples ∧ ts1.dataY.length = ts1.samples ∧
        ts1.dataX.length = ts1.samples) ∧
    ((∀ n ∈ E.iterate ts.compositor, n.resolves ts.components = true) →
      ∃ ts1, ts.generate E = .ok ts1) ∧
    (∀ s ts1, ((∃ v, s = .start v) ∨ (∃ v, s = .«end» v) ∨ (∃ v, s = .samples v)) →
      ts.setOption E s = .ok ts1 →
      ts1.dataY.length = ts1.samples ∧ ts1.dataX.length = ts1.samples) ∧
    (∀ op ts1, ts.run E op = .ok ts1 →
      ts1.dataY.length = ts1.samples ∧ ts1.dataX.length = ts1.samples) := by
  refine ⟨fun ts1 h => generate_ok_lengths E ts ts1 hdates h, ?_, ?_, ?_⟩
  · intro h
    obtain ⟨w1, h1⟩ := walk_total ts.samples (E.iterate ts.compositor)
      (initWalk ts.samples ts.components) h
    simp only [TimeSeries.generate, h1]
    exact ⟨_, rfl⟩
  · intro s ts1 hs h
    rcases hs with ⟨v, rfl⟩ | ⟨v, rfl⟩ | ⟨v, rfl⟩ <;>
      exact (generate_ok_lengths E _ ts1 hdates h).2
  · intro op ts1 h
    cases op with
    | addComponent generatorType seed =>
      exact (generate_ok_lengths E _ ts1 hdates h).2
    | removeComponent id =>
      simp only [TimeSeries.run, TimeSeries.removeComponent] at h
      split at h <;> exact (generate_ok_lengths E _ ts1 hdates h).2
    | switchComponents fromID toID =>
      simp only [TimeSeries.run, TimeSeries.switchComponents] at h
      repeat' split at h
      all_goals exact (generate_ok_lengths E _ ts1 hdates h).2

theorem generate_lengths_witness :
    ∃ ts1, singleNodeSeries.generate singleNodeEnv = .ok ts1 ∧ ts1.dataY.length = 3 ∧
      ts1.dataX.length = 3 := by
  have h := generate_lengths singleNodeEnv singleNodeSeries
    (by intro a b n; simp [singleNodeEnv])
  obtain ⟨ts1, h1⟩ := h.2.1 (by
    intro n hn
    simp only [singleNodeEnv, List.mem_singleton] at hn
    subst hn
    rfl)
  obtain ⟨hs, hy, hx⟩ := h.1 ts1 h1
  exact ⟨ts1, h1, by rw [hy, hs]; rfl, by rw [hx, hs]; rfl⟩

/-! ## Identifiers -/

theorem digitChar_isDigit (m : Nat) (h : m < 10) :
    (Nat.digitChar m).isDigit = true ∧ (Nat.digitChar m).toNat - 48 = m := by
  interval_cases m <;> exact ⟨rfl, rfl⟩

theorem parseDigits_toDigitsCore (fuel : Nat) :
    ∀ (n : Nat) (ds : List Char) (acc : Option Nat), n < fuel →
      ∃ k, parseDigits acc (Nat.toDigitsCore 10 fuel n ds) =
        parseDigits (some (acc.getD 0 * 10 ^ k + n)) ds := by
  induction fuel with
  | zero => intro n ds acc h; omega
  | succ fuel ih =>
    intro n ds acc h
    obtain ⟨hd1, hd2⟩ := digitChar_isDigit (n % 10) (Nat.mod_lt n (by decide))
    simp only [Nat.toDigitsCore]
    split
    · rename_i h0
      refine ⟨1, ?_⟩
      have hn : n % 10 = n := by omega
      rw [hn] at hd1 hd2
      simp only [parseDigits, hd1, if_true, hd2, pow_one, hn]
    · rename_i h0
      obtain ⟨k, hk⟩ := ih (n / 10) (Nat.digitChar (n % 10) :: ds) acc (by omega)
      refine ⟨k + 1, ?_⟩
      rw [hk]
      simp only [parseDigits, hd1, if_true, hd2, Option.getD_some]
      congr 2
      rw [pow_succ, Nat.add_mul, Nat.mul_assoc]
      omega

theorem parseDigits_repr (n : Nat) : parseDigits none (toString n).toList = some n := by
  obtain ⟨k, hk⟩ := parseDigits_toDigitsCore (n + 1) n [] none (Nat.lt_succ_self n)
  have h : (toString n).toList = Nat.toDigitsCore 10 (n + 1) n [] := rfl
  rw [h, hk]
  simp [parseDigits]

theorem toString_nat_injective (n m : Nat) (h : toString n = toString m) : n = m := by
  have h1 := parseDigits_repr n
  rw [h, parseDigits_repr m] at h1
  exact (Option.some.inj h1).symm

theorem comp_id_injective (n m : Nat) (h : "comp_" ++ toString n = "comp_" ++ toString m) :
    n = m := by
  apply toString_nat_injective
  have h1 := congrArg String.toList h
  simp only [String.toList, String.data_append] at h1
  exact String.ext (List.append_cancel_left h1)

theorem generate_counter {κ : Type} (E : Env κ) (ts : TimeSeries κ) :
    (after (ts.generate E)).COMP_ID = ts.COMP_ID ∧
      (after (ts.generate E)).issued = ts.issued := by
  simp only [TimeSeries.generate]
  split <;> exact ⟨rfl, rfl⟩

theorem removeComponent_counter {κ : Type} (E : Env κ) (ts : TimeSeries κ) (id : String) :
    (after (ts.removeComponent E id)).COMP_ID = ts.COMP_ID ∧
      (after (ts.removeComponent E id)).issued = ts.issued := by
  simp only [TimeSeries.removeComponent]
  split
  · exact generate_counter E _
  · exact generate_counter E _

theorem switchComponents_counter {κ : Type} (E : Env κ) (ts : TimeSeries κ)
    (fromID toID : String) :
    (after (ts.switchComponents E fromID toID)).COMP_ID = ts.COMP_ID ∧
      (after (ts.switchComponents E fromID toID)).issued = ts.issued := by
  simp only [TimeSeries.switchComponents]
  repeat' split
  all_goals exact generate_counter E _

theorem addComponent_counter {κ : Type} (E : Env κ) (ts : TimeSeries κ)
    (generatorType : Option String) (seed : Nat) :
    (after (ts.addComponent E generatorType seed)).COMP_ID = ts.getID.2.COMP_ID ∧
      (after (ts.addComponent E generatorType seed)).issued = ts.getID.2.issued := by
  simp only [TimeSeries.addComponent, newComponent]
  exact generate_counter E _

/-! ## Loading a series -/

theorem toDigitsCore_head (fuel : Nat) :
    ∀ (n : Nat) (ds : List Char), n < fuel →
      ∃ m rest, m < 10 ∧ Nat.toDigitsCore 10 fuel n ds = Nat.digitChar m :: rest := by
  induction fuel with
  | zero => intro n ds h; omega
  | succ fuel ih =>
    intro n ds h
    simp only [Nat.toDigitsCore]
    split
    · exact ⟨n % 10, ds, Nat.mod_lt n (by decide), rfl⟩
    · exact ih (n / 10) _ (by omega)

theorem parseInt_digit_head (m : Nat) (rest : List Char) (h : m < 10) :
    parseInt (Nat.digitChar m :: rest) =
      (parseDigits none (Nat.digitChar m :: rest)).map (fun n => (n : Int)) := by
  interval_cases m <;> rfl

theorem parseInt_repr (n : Nat) : parseInt (toString n).toList = some (n : Int) := by
  obtain ⟨m, rest, hm, hrest⟩ := toDigitsCore_head (n + 1) n [] (Nat.lt_succ_self n)
  have h : (toString n).toList = Nat.toDigitsCore 10 (n + 1) n [] := rfl
  have h2 := parseDigits_repr n
  rw [h] at h2 ⊢
  rw [hrest] at h2 ⊢
  rw [parseInt_digit_head m rest hm, h2]
  rfl

theorem idSuffix_comp (n : Nat) : idSuffix ("comp_" ++ toString n) = (toString n).toList := by
  simp [idSuffix, afterFirst, String.toList, String.data_append]
  rfl

theorem loadCounter_single (c : Component) (n : Nat) (hid : c.id = "comp_" ++ toString n) :
    loadCounter [c] = some (max 1 n) := by
  simp only [loadCounter, List.foldl_cons, List.foldl_nil, hid, idSuffix_comp, parseInt_repr,
    maxCounter, List.length_singleton]
  congr 1
  omega

theorem loadCounter_fold (cs : List Component) :
    ∀ (ns : List Nat) (k : Nat),
      cs.map (fun c => c.id) = ns.map (fun n => "comp_" ++ toString n) →
      cs.foldl (fun acc c => maxCounter acc (parseInt (idSuffix c.id))) (some k) =
        some (ns.foldl max k) := by
  induction cs with
  | nil =>
    intro ns k h
    cases ns with
    | nil => rfl
    | cons n ns => simp at h
  | cons c cs ih =>
    intro ns k h
    cases ns with
    | nil => simp at h
    | cons n ns =>
      simp only [List.map_cons, List.cons.injEq] at h
      obtain ⟨h1, h2⟩ := h
      simp only [List.foldl_cons, h1, idSuffix_comp, parseInt_repr, maxCounter]
      have h3 : (max (k : Int) (n : Int)).toNat = max k n := by omega
      rw [h3]
      exact ih ns (max k n) h2

theorem foldl_max_eq (ns : List Nat) (m : Nat) :
    ∀ (k : Nat), (∀ n ∈ ns, n ≤ m) → k ≤ m → (m ∈ ns ∨ k = m) → ns.foldl max k = m := by
  induction ns with
  | nil =>
    intro k _ _ h
    rcases h with h | h
    · simp at h
    · exact h
  | cons n ns ih =>
    intro k hall hk h
    have hn : n ≤ m := hall n (List.mem_cons_self n ns)
    simp only [List.foldl_cons]
    apply ih (max k n) (fun a ha => hall a (List.mem_cons_of_mem n ha)) (by omega)
    rcases h with h | h
    · rcases List.mem_cons.mp h with h1 | h1
      · right
        omega
      · left
        exact h1
    · right
      omega

/-- C8, the code at its failing inputs: for loaded components with ids
`comp_<n>` whose greatest suffix `m` is at least the number of components (an
earlier component was removed before saving), the constructor and `fromJSON`
set the counter to `m`, not `m + 1`, so the next `getID()` returns `comp_<m>`,
the id of a loaded component. -/
theorem loaded_id_collides {κ : Type} (E : Env κ) (options : Options)
    (compositor : Option κ) (held : TimeSeries κ) (json : SeriesJSON κ)
    (cs : List Component) (ns : List Nat) (m : Nat)
    (hids : cs.map (fun c => c.id) = ns.map (fun n => "comp_" ++ toString n))
    (hmem : m ∈ ns) (hmax : ∀ n ∈ ns, n ≤ m) (hlen : cs.length ≤ m)
    (hjson : json.components = cs) :
    loadCounter cs = some m ∧
    (∃ ts, TimeSeries.new E options cs compositor = .ok ts ∧
      ts.COMP_ID = some m ∧ ts.components = cs ∧
      ts.getID.1 = "comp_" ++ toString m ∧ ts.hasID ts.getID.1 = true) ∧
    (after (held.fromJSON E json)).COMP_ID = some m := by
  have hc : loadCounter cs = some m := by
    rw [loadCounter, loadCounter_fold cs ns cs.length hids,
      foldl_max_eq ns m cs.length hmax hlen (Or.inl hmem)]
  have hne : ¬ cs.length = 0 := by
    intro h0
    have h1 : cs = [] := List.length_eq_zero.mp h0
    rw [h1] at hids
    cases ns with
    | nil => simp at hmem
    | cons n ns => simp at hids
  have hfind : (getComponent cs ("comp_" ++ toString m)).isSome = true := by
    have h1 : "comp_" ++ toString m ∈ cs.map (fun c => c.id) := by
      rw [hids]
      exact List.mem_map.mpr ⟨m, hmem, rfl⟩
    obtain ⟨c, hc1, hc2⟩ := List.mem_map.mp h1
    rw [getComponent, List.find?_isSome]
    exact ⟨c, hc1, by simpa using hc2⟩
  have hnew : TimeSeries.new E options cs compositor = .ok
      { start := options.start, «end» := options.«end», samples := options.samples,
        dynamicRange := options.dynamicRange, min := options.min, max := options.max,
        dataX := [], dataY := [], COMP_ID := loadCounter cs,
        compositor := compositor.getD E.newCompositor, components := cs, issued := [] } := by
    simp only [TimeSeries.new, hne, if_false]
  refine ⟨hc, ⟨_, hnew, hc, rfl, ?_, ?_⟩, ?_⟩
  · simp only [TimeSeries.getID, hc]
  · simp only [TimeSeries.getID, hc, TimeSeries.hasID]
    exact hfind
  · simp only [TimeSeries.fromJSON]
    rw [(generate_counter E _).1, hjson]
    exact hc

theorem loaded_id_collides_witness :
    loadCounter [constantComponent "comp_1" 0 100] = some 1 ∧
    (∃ ts, TimeSeries.new singleNodeEnv TS_DEFAULTS [constantComponent "comp_1" 0 100] none
        = .ok ts ∧
      ts.COMP_ID = some 1 ∧ ts.components = [constantComponent "comp_1" 0 100] ∧
      ts.getID.1 = "comp_" ++ toString 1 ∧ ts.hasID ts.getID.1 = true) ∧
    (after (singleNodeSeries.fromJSON singleNodeEnv
      { options := TS_DEFAULTS, components := [constantComponent "comp_1" 0 100],
        compositor := () })).COMP_ID = some 1 :=
  loaded_id_collides singleNodeEnv TS_DEFAULTS none singleNodeSeries
    { options := TS_DEFAULTS, components := [constantComponent "comp_1" 0 100],
      compositor := () }
    [constantComponent "comp_1" 0 100] [1] 1 rfl (by decide) (by decide) (by decide) rfl

/-! ## Options -/

theorem JSVal.lt_of_ge (a b : JSVal) (h : JSVal.ge a b = true) : JSVal.lt a b = false := by
  cases a <;> cases b <;> simp_all [JSVal.ge, JSVal.lt]

/-- C9: `setOption("min", v)` never throws, keeps `min` when `v >= max` and sets
`min = v` when `v < max`; `setOption("max", v)` never throws, keeps `max` when
`v <= min` and sets `max = v` when `v > min`. -/
theorem setOption_min_max {κ : Type} (E : Env κ) (ts : TimeSeries κ) (v : JSVal) :
    (∃ ts1, ts.setOption E (.min v) = .ok ts1 ∧
      (JSVal.ge v ts.max = true → ts1.min = ts.min) ∧
      (JSVal.lt v ts.max = true → ts1.min = v)) ∧
    (∃ ts1, ts.setOption E (.max v) = .ok ts1 ∧
      (JSVal.le v ts.min = true → ts1.max = ts.max) ∧
      (JSVal.gt v ts.min = true → ts1.max = v)) := by
  refine ⟨⟨_, rfl, ?_, ?_⟩, ⟨_, rfl, ?_, ?_⟩⟩
  · intro h
    simp [JSVal.lt_of_ge v ts.max h]
  · intro h
    simp [h]
  · intro h
    have h1 : JSVal.gt v ts.min = false := JSVal.lt_of_ge ts.min v h
    simp [h1]
  · intro h
    simp [h]

theorem generate_range {κ : Type} (E : Env κ) (ts : TimeSeries κ) :
    (after (ts.generate E)).min = ts.min ∧ (after (ts.generate E)).max = ts.max := by
  simp only [TimeSeries.generate]
  split <;> exact ⟨rfl, rfl⟩

/-- C10 as stated fails: on a series with bounds `-2 < 2` whose composite is the
constant `[5, 5, 5]`, `setOption("dynamicRange", false)` returns with
`min = max = 5`. -/
theorem setOption_range_counterexample :
    JSVal.lt generatedSeries.min generatedSeries.max = true ∧
    generatedSeries.dataY = [.num 5, .num 5, .num 5] ∧
    (after (generatedSeries.setOption singleNodeEnv (.dynamicRange false))).min = .num 5 ∧
    (after (generatedSeries.setOption singleNodeEnv (.dynamicRange false))).max = .num 5 ∧
    JSVal.lt (after (generatedSeries.setOption singleNodeEnv (.dynamicRange false))).min
      (after (generatedSeries.setOption singleNodeEnv (.dynamicRange false))).max = false := by
  refine ⟨?_, ?_, ?_, ?_, ?_⟩ <;> with_unfolding_all decide

/-- C10, amended: with `min < max` before the call, `min < max` still holds after
`setOption(key, value)` for the keys `min`, `max`, `start`, `end`, `samples`, for
`dynamicRange` set to `true` and for `dynamicRange` on a series without
components; `setOption("dynamicRange", false)` on a series with components sets
`min` and `max` to the two ends of `d3.extent(dataY)`. -/
theorem setOption_preserves_range {κ : Type} (E : Env κ) (ts : TimeSeries κ) (s : Setting)
    (h : JSVal.lt ts.min ts.max = true)
    (hs : ∀ b, s = .dynamicRange b → b = true ∨ ts.size = 0) :
    JSVal.lt (after (ts.setOption E s)).min (after (ts.setOption E s)).max = true ∧
    (0 < ts.size →
      (after (ts.setOption E (.dynamicRange false))).min = (extent ts.dataY).1 ∧
      (after (ts.setOption E (.dynamicRange false))).max = (extent ts.dataY).2) := by
  constructor
  · cases s with
    | min value =>
      simp only [TimeSeries.setOption, after]
      split
      · assumption
      · exact h
    | max value =>
      simp only [TimeSeries.setOption, after]
      split
      · rename_i h1
        exact h1
      · exact h
    | start value =>
      simp only [TimeSeries.setOption]
      rw [(generate_range E _).1, (generate_range E _).2]
      exact h
    | «end» value =>
      simp only [TimeSeries.setOption]
      rw [(generate_range E _).1, (generate_range E _).2]
      exact h
    | samples value =>
      simp only [TimeSeries.setOption]
      rw [(generate_range E _).1, (generate_range E _).2]
      exact h
    | dynamicRange value =>
      rcases hs value rfl with hb | hz
      · subst hb
        simpa [TimeSeries.setOption, after] using h
      · simp only [TimeSeries.setOption, TimeSeries.size] at hz ⊢
        simpa [hz, after] using h
    | unknown key =>
      simpa [TimeSeries.setOption, after] using h
  · intro hpos
    simp only [TimeSeries.setOption, TimeSeries.size] at hpos ⊢
    simp [hpos, after]

theorem setOption_preserves_range_witness :
    JSVal.lt (after (generatedSeries.setOption singleNodeEnv (.samples (7 / 2)))).min
      (after (generatedSeries.setOption singleNodeEnv (.samples (7 / 2)))).max = true ∧
    (0 < generatedSeries.size →
      (after (generatedSeries.setOption singleNodeEnv (.dynamicRange false))).min
        = (extent generatedSeries.dataY).1 ∧
      (after (generatedSeries.setOption singleNodeEnv (.dynamicRange false))).max
        = (extent generatedSeries.dataY).2) :=
  setOption_preserves_range singleNodeEnv generatedSeries (.samples (7 / 2))
    (by with_unfolding_all decide) (by intro b hb; cases hb)

/-! ## Options of a series, continued -/

theorem generate_options {κ : Type} (E : Env κ) (ts : TimeSeries κ) :
    (after (ts.generate E)).start = ts.start ∧ (after (ts.generate E)).«end» = ts.«end» ∧
      (after (ts.generate E)).samples = ts.samples := by
  simp only [TimeSeries.generate]
  split <;> exact ⟨rfl, rfl, rfl⟩

theorem extent_fold_nums (xs : List ℚ) :
    ∀ (a b : ℚ),
      (xs.map JSVal.num).foldl (fun (acc : JSVal × JSVal) value =>
        if value = .undefined then acc
        else if acc.1 = .undefined then
          (if JSVal.ge value value then (value, value) else acc)
        else
          ((if JSVal.gt acc.1 value then value else acc.1),
           (if JSVal.lt acc.2 value then value else acc.2))) (JSVal.num a, JSVal.num b)
      = (JSVal.num (xs.foldl min a), JSVal.num (xs.foldl max b)) := by
  induction xs with
  | nil => intro a b; rfl
  | cons v xs ih =>
    intro a b
    simp only [List.map_cons, List.foldl_cons, JSVal.gt, JSVal.lt, reduceCtorEq, if_false]
    have h1 : (if decide (v < a) = true then JSVal.num v else JSVal.num a) =
        JSVal.num (min a v) := by
      by_cases h : v < a
      · simp [h, min_eq_right (le_of_lt h)]
      · simp [h, min_eq_left (not_lt.mp h)]
    have h2 : (if decide (b < v) = true then JSVal.num v else JSVal.num b) =
        JSVal.num (max b v) := by
      by_cases h : b < v
      · simp [h, max_eq_right (le_of_lt h)]
      · simp [h, max_eq_left (not_lt.mp h)]
    rw [h1, h2]
    exact ih (min a v) (max b v)

theorem extent_nums (x : ℚ) (xs : List ℚ) :
    extent ((x :: xs).map JSVal.num) = (.num (xs.foldl min x), .num (xs.foldl max x)) := by
  have h := extent_fold_nums xs x x
  simp only [extent, List.map_cons, List.foldl_cons, reduceCtorEq, if_false, if_true, JSVal.ge,
    le_refl, decide_True]
  exact h

/-- C11, the code at its failing inputs: on a series with a component whose cached
composite was cleared, `setOption("dynamicRange", false)` returns without
recomputing (`dataY` stays empty) and sets `min` and `max` to `undefined`; with a
composite of numbers in `dataY` it sets them to the least and the greatest of
them. -/
theorem dynamicRange_stale_snapshot {κ : Type} (E : Env κ) (ts : TimeSeries κ)
    (hsize : 0 < ts.size) :
    (∃ ts1, ts.clear.setOption E (.dynamicRange false) = .ok ts1 ∧ ts1.dataY = [] ∧
      ts1.min = .undefined ∧ ts1.max = .undefined) ∧
    (∀ x xs, ts.dataY = (x :: xs).map JSVal.num →
      ∃ ts1, ts.setOption E (.dynamicRange false) = .ok ts1 ∧
        ts1.min = .num (xs.foldl min x) ∧ ts1.max = .num (xs.foldl max x)) := by
  have hs : decide (0 < ts.components.length) = true := by
    simpa [TimeSeries.size] using hsize
  constructor
  · refine ⟨{ ts.clear with dynamicRange := false, min := .undefined, max := .undefined },
      ?_, rfl, rfl, rfl⟩
    simp only [TimeSeries.setOption, TimeSeries.clear, TimeSeries.size, Bool.not_false,
      Bool.true_and, hs, if_true, gt_iff_lt]
    rfl
  · intro x xs hx
    refine ⟨{ ts with dynamicRange := false, min := .num (xs.foldl min x),
                      max := .num (xs.foldl max x) }, ?_, rfl, rfl⟩
    simp only [TimeSeries.setOption, TimeSeries.size, Bool.not_false, Bool.true_and, hs,
      if_true, gt_iff_lt, hx, extent_nums]

theorem dynamicRange_stale_snapshot_witness :
    (∃ ts1, generatedSeries.clear.setOption singleNodeEnv (.dynamicRange false) = .ok ts1 ∧
      ts1.dataY = [] ∧ ts1.min = .undefined ∧ ts1.max = .undefined) ∧
    (∀ x xs, generatedSeries.dataY = (x :: xs).map JSVal.num →
      ∃ ts1, generatedSeries.setOption singleNodeEnv (.dynamicRange false) = .ok ts1 ∧
        ts1.min = .num (xs.foldl min x) ∧ ts1.max = .num (xs.foldl max x)) :=
  dynamicRange_stale_snapshot singleNodeEnv generatedSeries (by decide)

theorem round_nearest (v : ℚ) : v - 1 / 2 < (round v : ℚ) ∧ (round v : ℚ) ≤ v + 1 / 2 := by
  constructor
  · have h := Int.lt_floor_add_one (v + 1 / 2)
    simp only [round]
    linarith
  · exact Int.floor_le (v + 1 / 2)

/-- C12: after `setOption("samples", v)` with a number `v` the field `samples` is
`max(3, round(v))`, `round` being the nearest integer with halves rounded up, so it
is an integer that is at least 3; when the call returns the composite and the date
axis have that length, and it returns when every node's case binds both operands
over live component ids. -/
theorem setOption_samples {κ : Type} (E : Env κ) (ts : TimeSeries κ) (v : ℚ)
    (hdates : ∀ a b n, (E.datespace a b n).length = n) :
    (((after (ts.setOption E (.samples v))).samples : Int) = max 3 (round v)) ∧
    (v - 1 / 2 < (round v : ℚ) ∧ (round v : ℚ) ≤ v + 1 / 2) ∧
    3 ≤ (after (ts.setOption E (.samples v))).samples ∧
    (∀ ts1, ts.setOption E (.samples v) = .ok ts1 →
      ts1.dataY.length = ts1.samples ∧ ts1.dataX.length = ts1.samples) ∧
    ((∀ n ∈ E.iterate ts.compositor, n.resolves ts.components = true) →
      ∃ ts1, ts.setOption E (.samples v) = .ok ts1 ∧
        (ts1.samples : Int) = max 3 (round v) ∧ ts1.dataY.length = ts1.samples) := by
  have hsamples : (after (ts.setOption E (.samples v))).samples = (max 3 (round v)).toNat := by
    simp only [TimeSeries.setOption]
    exact (generate_options E _).2.2
  have hcast : (((max 3 (round v)).toNat : Nat) : Int) = max 3 (round v) :=
    Int.toNat_of_nonneg (le_trans (by decide) (le_max_left 3 (round v)))
  refine ⟨by rw [hsamples, hcast], round_nearest v, ?_, ?_, ?_⟩
  · rw [hsamples]
    have h3 : (3 : Int) ≤ max 3 (round v) := le_max_left 3 (round v)
    omega
  · intro ts1 h
    exact (generate_ok_lengths E _ ts1 hdates h).2
  · intro hres
    obtain ⟨w1, h1⟩ := walk_total (max 3 (round v)).toNat (E.iterate ts.compositor)
      (initWalk (max 3 (round v)).toNat ts.components) hres
    have hok : ts.setOption E (.samples v) = .ok
        { ts with samples := (max 3 (round v)).toNat, components := w1.components,
                  dataX := E.datespace ts.start ts.«end» (max 3 (round v)).toNat,
                  dataY := w1.values } := by
      simp only [TimeSeries.setOption, TimeSeries.generate, h1]
    refine ⟨_, hok, hcast, ?_⟩
    exact (generate_ok_lengths E _ _ hdates hok).2.1

theorem setOption_samples_witness :
    (((after (generatedSeries.setOption singleNodeEnv (.samples (7 / 2)))).samples : Int)
      = max 3 (round (7 / 2))) ∧
    ((7 / 2 : ℚ) - 1 / 2 < (round (7 / 2) : ℚ) ∧ (round (7 / 2) : ℚ) ≤ 7 / 2 + 1 / 2) ∧
    3 ≤ (after (generatedSeries.setOption singleNodeEnv (.samples (7 / 2)))).samples ∧
    (∀ ts1, generatedSeries.setOption singleNodeEnv (.samples (7 / 2)) = .ok ts1 →
      ts1.dataY.length = ts1.samples ∧ ts1.dataX.length = ts1.samples) ∧
    ((∀ n ∈ singleNodeEnv.iterate generatedSeries.compositor,
        n.resolves generatedSeries.components = true) →
      ∃ ts1, generatedSeries.setOption singleNodeEnv (.samples (7 / 2)) = .ok ts1 ∧
        (ts1.samples : Int) = max 3 (round (7 / 2)) ∧ ts1.dataY.length = ts1.samples) :=
  setOption_samples singleNodeEnv generatedSeries (7 / 2)
    (by intro a b n; simp [singleNodeEnv])

/-- C13: with `start < end` before the call, `setOption("start", v)` sets
`start = v` exactly when `v < end` and keeps it otherwise, `setOption("end", v)`
sets `end = v` exactly when `v > start` and keeps it otherwise, the other of the
two dates is untouched, and `start < end` holds after either call. -/
theorem setOption_start_end {κ : Type} (E : Env κ) (ts : TimeSeries κ) (v : String)
    (h : ts.start < ts.«end») :
    ((v < ts.«end» → (after (ts.setOption E (.start v))).start = v) ∧
      (¬ v < ts.«end» → (after (ts.setOption E (.start v))).start = ts.start) ∧
      (after (ts.setOption E (.start v))).«end» = ts.«end» ∧
      (after (ts.setOption E (.start v))).start < (after (ts.setOption E (.start v))).«end») ∧
    ((v > ts.start → (after (ts.setOption E (.«end» v))).«end» = v) ∧
      (¬ v > ts.start → (after (ts.setOption E (.«end» v))).«end» = ts.«end») ∧
      (after (ts.setOption E (.«end» v))).start = ts.start ∧
      (after (ts.setOption E (.«end» v))).start < (after (ts.setOption E (.«end» v))).«end») := by
  have hs : (after (ts.setOption E (.start v))).start = (if v < ts.«end» then v else ts.start) ∧
      (after (ts.setOption E (.start v))).«end» = ts.«end» := by
    simp only [TimeSeries.setOption]
    exact ⟨(generate_options E _).1, (generate_options E _).2.1⟩
  have he : (after (ts.setOption E (.«end» v))).«end» = (if v > ts.start then v else ts.«end») ∧
      (after (ts.setOption E (.«end» v))).start = ts.start := by
    simp only [TimeSeries.setOption]
    exact ⟨(generate_options E _).2.1, (generate_options E _).1⟩
  refine ⟨⟨?_, ?_, hs.2, ?_⟩, ⟨?_, ?_, he.2, ?_⟩⟩
  · intro hv
    rw [hs.1, if_pos hv]
  · intro hv
    rw [hs.1, if_neg hv]
  · rw [hs.1, hs.2]
    split
    · assumption
    · exact h
  · intro hv
    rw [he.1, if_pos hv]
  · intro hv
    rw [he.1, if_neg hv]
  · rw [he.1, he.2]
    split
    · assumption
    · exact h

theorem setOption_start_end_witness :
    (("2022-06-01" < generatedSeries.«end» →
        (after (generatedSeries.setOption singleNodeEnv (.start "2022-06-01"))).start
          = "2022-06-01") ∧
      (¬ "2022-06-01" < generatedSeries.«end» →
        (after (generatedSeries.setOption singleNodeEnv (.start "2022-06-01"))).start
          = generatedSeries.start) ∧
      (after (generatedSeries.setOption singleNodeEnv (.start "2022-06-01"))).«end»
        = generatedSeries.«end» ∧
      (after (generatedSeries.setOption singleNodeEnv (.start "2022-06-01"))).start
        < (after (generatedSeries.setOption singleNodeEnv (.start "2022-06-01"))).«end») ∧
    (("2022-06-01" > generatedSeries.start →
        (after (generatedSeries.setOption singleNodeEnv (.«end» "2022-06-01"))).«end»
          = "2022-06-01") ∧
      (¬ "2022-06-01" > generatedSeries.start →
        (after (generatedSeries.setOption singleNodeEnv (.«end» "2022-06-01"))).«end»
          = generatedSeries.«end») ∧
      (after (generatedSeries.setOption singleNodeEnv (.«end» "2022-06-01"))).start
        = generatedSeries.start ∧
      (after (generatedSeries.setOption singleNodeEnv (.«end» "2022-06-01"))).start
        < (after (generatedSeries.setOption singleNodeEnv (.«end» "2022-06-01"))).«end») :=
  setOption_start_end singleNodeEnv generatedSeries "2022-06-01"
    (by
      have h1 : generatedSeries.start = "2022-01-01" := by with_unfolding_all rfl
      have h2 : generatedSeries.«end» = "2022-12-31" := by with_unfolding_all rfl
      rw [h1, h2, String.lt_iff_toList_lt]
      decide)

/-! ## The component list -/

theorem getComp_store (samples : Nat) (comps : List Component) (id : String) :
    (∀ e, getComp samples comps id = .error e → e = comps) ∧
    (∀ c comps1, getComp samples comps id = .ok (c, comps1) →
      comps1.map (fun c => c.id) = comps.map (fun c => c.id)) := by
  constructor
  · intro e h
    simp only [getComp] at h
    split at h
    · cases h
      rfl
    · split at h <;> cases h
  · intro c comps1 h
    exact getComp_values samples comps id c comps1 h

theorem resolveOperands_store (samples : Nat) (w : Walk) (n : Node) :
    (storeOf (resolveOperands samples w n)).map (fun c => c.id) =
      w.components.map (fun c => c.id) := by
  unfold resolveOperands
  cases n.opCase <;> simp only [bind, Except.bind, pure, Except.pure]
  case APPLY_NESTED_RIGHT => rfl
  case APPLY_LEFT =>
    cases n.left with
    | none => rfl
    | some l =>
      simp only [orThrow]
      cases hg : getComp samples w.components l with
      | error e => rw [(getComp_store samples w.components l).1 e hg]; rfl
      | ok p => exact (getComp_store samples w.components l).2 p.1 p.2 hg
  case APPLY_RIGHT =>
    cases n.right with
    | none => rfl
    | some r =>
      simp only [orThrow]
      cases hg : getComp samples w.components r with
      | error e => rw [(getComp_store samples w.components r).1 e hg]; rfl
      | ok p => exact (getComp_store samples w.components r).2 p.1 p.2 hg
  all_goals
    cases n.left with
    | none => rfl
    | some l =>
      simp only [orThrow]
      cases hg : getComp samples w.components l with
      | error e => rw [(getComp_store samples w.components l).1 e hg]; rfl
      | ok p =>
        have h1 := (getComp_store samples w.components l).2 p.1 p.2 hg
        cases n.right with
        | none => exact h1
        | some r =>
          simp only []
          cases hg2 : getComp samples p.2 r with
          | error e => rw [(getComp_store samples p.2 r).1 e hg2]; exact h1
          | ok q => exact ((getComp_store samples p.2 r).2 q.1 q.2 hg2).trans h1

theorem applyOp_store (samples : Nat) (w : Walk) (n : Node) :
    storeOf (applyOp samples w n) = w.components := by
  unfold applyOp
  cases n.op with
  | none => rfl
  | some op =>
    simp only [bind, Except.bind, pure, Except.pure]
    cases apply samples w op (!n.extraOp.isSome) <;> rfl

theorem applyExtraOp_store (samples : Nat) (w : Walk) (n : Node) :
    (storeOf (applyExtraOp samples w n)).map (fun c => c.id) =
      w.components.map (fun c => c.id) := by
  unfold applyExtraOp
  cases n.extraOp with
  | none => rfl
  | some extraOp =>
    cases w.cacheVals with
    | none => rfl
    | some cache =>
      simp only [bind, Except.bind, pure, Except.pure]
      cases n.opCase
      case APPLY_NESTED_LEFT =>
        cases n.left with
        | none => rfl
        | some l =>
          simp only [orThrow]
          cases hg : getComp samples w.components l with
          | error e => rw [(getComp_store samples w.components l).1 e hg]; rfl
          | ok p =>
            have h1 := (getComp_store samples w.components l).2 p.1 p.2 hg
            simp only []
            cases apply samples
              { w with leftVals := .arr p.1.data, rightVals := .arr cache,
                       components := p.2, cacheVals := some cache } extraOp true <;> exact h1
      case APPLY_NESTED_RIGHT =>
        cases n.right with
        | none => rfl
        | some r =>
          simp only [orThrow]
          cases hg : getComp samples w.components r with
          | error e => rw [(getComp_store samples w.components r).1 e hg]; rfl
          | ok p =>
            have h1 := (getComp_store samples w.components r).2 p.1 p.2 hg
            simp only []
            cases apply samples
              { w with leftVals := .arr cache, rightVals := .arr p.1.data,
                       components := p.2, cacheVals := some cache } extraOp true <;> exact h1
      all_goals
        simp only [orThrow]
        cases apply samples w extraOp true <;> rfl

theorem step_store (samples : Nat) (w : Walk) (n : Node) :
    (storeOf (step samples w n)).map (fun c => c.id) = w.components.map (fun c => c.id) := by
  have h1 := resolveOperands_store samples w n
  simp only [step, bind, Except.bind]
  cases ha : resolveOperands samples w n with
  | error e =>
    rw [ha] at h1
    exact h1
  | ok wa =>
    rw [ha] at h1
    have h2 := applyOp_store samples wa n
    simp only []
    cases hb : applyOp samples wa n with
    | error e =>
      rw [hb] at h2
      simp only [storeOf] at h1 h2 ⊢
      rw [h2]
      exact h1
    | ok wb =>
      rw [hb] at h2
      have h3 := applyExtraOp_store samples wb n
      simp only [storeOf] at h1 h2
      simp only []
      rw [h3, h2]
      exact h1

theorem walk_store (samples : Nat) (nodes : List Node) :
    ∀ (w : Walk), (storeOf (walk samples w nodes)).map (fun c => c.id) =
      w.components.map (fun c => c.id) := by
  induction nodes with
  | nil => intro w; rfl
  | cons n ns ih =>
    intro w
    have h1 := step_store samples w n
    simp only [walk]
    cases hs : step samples w n with
    | error e =>
      rw [hs] at h1
      exact h1
    | ok w1 =>
      rw [hs] at h1
      simp only []
      rw [ih w1]
      exact h1

theorem generate_componentIDs {κ : Type} (E : Env κ) (ts : TimeSeries κ) :
    (after (ts.generate E)).componentIDs = ts.componentIDs := by
  have h := walk_store ts.samples (E.iterate ts.compositor) (initWalk ts.samples ts.components)
  simp only [TimeSeries.generate, TimeSeries.componentIDs]
  cases hw : walk ts.samples (initWalk ts.samples ts.components) (E.iterate ts.compositor) with
  | error e =>
    rw [hw] at h
    exact h
  | ok w =>
    rw [hw] at h
    exact h

theorem hasID_iff_mem {κ : Type} (ts : TimeSeries κ) (id : String) :
    ts.hasID id = true ↔ id ∈ ts.componentIDs := by
  simp only [TimeSeries.hasID, getComponent, List.find?_isSome, TimeSeries.componentIDs,
    List.mem_map, beq_iff_eq]

theorem eraseIdx_indexOf_ids (cs : List Component) (a : String) :
    ∀ (idx : Nat), (cs.map (fun c => c.id)).indexOf? a = some idx →
      (cs.eraseIdx idx).map (fun c => c.id) = (cs.map (fun c => c.id)).erase a := by
  induction cs with
  | nil => intro idx h; simp at h
  | cons c cs ih =>
    intro idx h
    simp only [List.map_cons, List.indexOf?_cons] at h
    by_cases hc : c.id = a
    · simp only [hc, beq_self_eq_true, if_true, Option.some.injEq] at h
      subst h
      simp [hc]
    · have hb : (c.id == a) = false := by simpa using hc
      simp only [hb, Bool.false_eq_true, if_false, Option.map_eq_some'] at h
      obtain ⟨k, hk, rfl⟩ := h
      simp [List.erase_cons, hb, ih k hk]

theorem indexOf_ids_none (cs : List Component) (a : String)
    (h : a ∉ cs.map (fun c => c.id)) : (cs.map (fun c => c.id)).indexOf? a = none := by
  rw [List.indexOf?_eq_none_iff]
  intro x hx hxa
  have : x = a := by simpa using hxa
  exact h (this ▸ hx)

theorem indexOf_ids_some (cs : List Component) (a : String)
    (h : a ∈ cs.map (fun c => c.id)) : ∃ idx, (cs.map (fun c => c.id)).indexOf? a = some idx := by
  cases hi : (cs.map (fun c => c.id)).indexOf? a with
  | some idx => exact ⟨idx, rfl⟩
  | none =>
    rw [List.indexOf?_eq_none_iff] at hi
    exact absurd (by simp) (hi a h)

/-- C14: on a series with pairwise distinct component ids, `removeComponent(id)`
with `id` present leaves the ids of the list with `id` erased (so no component has
that id, the size is one less and the others keep their order); with `id` absent it
is the plain `generate()` call: the ids are unchanged and nothing is thrown when
every node resolves. -/
theorem removeComponent_spec {κ : Type} (E : Env κ) (ts : TimeSeries κ) (id : String)
    (hnodup : ts.componentIDs.Nodup) :
    (id ∈ ts.componentIDs →
      (after (ts.removeComponent E id)).componentIDs = ts.componentIDs.erase id ∧
      (after (ts.removeComponent E id)).hasID id = false ∧
      (after (ts.removeComponent E id)).size + 1 = ts.size ∧
      (after (ts.removeComponent E id)).componentIDs =
        ts.componentIDs.filter (fun d => d != id) ∧
      ((after (ts.removeComponent E id)).componentIDs).Sublist ts.componentIDs) ∧
    (id ∉ ts.componentIDs →
      ts.removeComponent E id = ts.generate E ∧
      (after (ts.removeComponent E id)).componentIDs = ts.componentIDs ∧
      ((∀ n ∈ E.iterate ts.compositor, n.resolves ts.components = true) →
        ∃ ts1, ts.removeComponent E id = .ok ts1)) := by
  constructor
  · intro hmem
    obtain ⟨idx, hidx⟩ := indexOf_ids_some ts.components id hmem
    have hids : (after (ts.removeComponent E id)).componentIDs = ts.componentIDs.erase id := by
      simp only [TimeSeries.removeComponent, TimeSeries.componentIDs, hidx]
      rw [← eraseIdx_indexOf_ids ts.components id idx hidx]
      exact generate_componentIDs E _
    have hnot : id ∉ (after (ts.removeComponent E id)).componentIDs := by
      rw [hids]
      exact hnodup.not_mem_erase
    refine ⟨hids, ?_, ?_, ?_, ?_⟩
    · cases hh : (after (ts.removeComponent E id)).hasID id with
      | false => rfl
      | true => exact absurd ((hasID_iff_mem _ id).mp hh) hnot
    · have hlen := congrArg List.length hids
      simp only [TimeSeries.componentIDs, List.length_map] at hlen
      have hmem1 : id ∈ ts.components.map (fun d => d.id) := hmem
      rw [List.length_erase_of_mem hmem1, List.length_map] at hlen
      have hpos : 0 < ts.components.length := by
        have := List.length_pos_of_mem hmem1
        simpa using this
      simp only [TimeSeries.size]
      omega
    · rw [hids]
      exact hnodup.erase_eq_filter id
    · rw [hids]
      exact List.erase_sublist id _
  · intro hmem
    have hnone := indexOf_ids_none ts.components id hmem
    have heq : ts.removeComponent E id = ts.generate E := by
      simp only [TimeSeries.removeComponent, TimeSeries.componentIDs, hnone]
    refine ⟨heq, ?_, ?_⟩
    · rw [heq]
      exact generate_componentIDs E ts
    · intro hres
      rw [heq]
      obtain ⟨w1, h1⟩ := walk_total ts.samples (E.iterate ts.compositor)
        (initWalk ts.samples ts.components) hres
      simp only [TimeSeries.generate, h1]
      exact ⟨_, rfl⟩

theorem removeComponent_spec_witness :
    ("comp_0" ∈ generatedSeries.componentIDs →
      (after (generatedSeries.removeComponent singleNodeEnv "comp_0")).componentIDs
        = generatedSeries.componentIDs.erase "comp_0" ∧
      (after (generatedSeries.removeComponent singleNodeEnv "comp_0")).hasID "comp_0" = false ∧
      (after (generatedSeries.removeComponent singleNodeEnv "comp_0")).size + 1
        = generatedSeries.size ∧
      (after (generatedSeries.removeComponent singleNodeEnv "comp_0")).componentIDs =
        generatedSeries.componentIDs.filter (fun d => d != "comp_0") ∧
      ((after (generatedSeries.removeComponent singleNodeEnv "comp_0")).componentIDs).Sublist
        generatedSeries.componentIDs) ∧
    ("comp_0" ∉ generatedSeries.componentIDs →
      generatedSeries.removeComponent singleNodeEnv "comp_0"
        = generatedSeries.generate singleNodeEnv ∧
      (after (generatedSeries.removeComponent singleNodeEnv "comp_0")).componentIDs
        = generatedSeries.componentIDs ∧
      ((∀ n ∈ singleNodeEnv.iterate generatedSeries.compositor,
          n.resolves generatedSeries.components = true) →
        ∃ ts1, generatedSeries.removeComponent singleNodeEnv "comp_0" = .ok ts1)) :=
  removeComponent_spec singleNodeEnv generatedSeries "comp_0" (by with_unfolding_all decide)

theorem getComponentIndex_of_getElem (cs : List Component) (a : String) :
    ∀ (i : Nat), (cs.map (fun c => c.id)).Nodup → (cs.map (fun c => c.id))[i]? = some a →
      cs.findIdx? (fun c => c.id == a) = some i := by
  induction cs with
  | nil => intro i _ h; simp at h
  | cons c cs ih =>
    intro i hnd h
    simp only [List.map_cons, List.nodup_cons] at hnd
    cases i with
    | zero =>
      simp only [List.map_cons, List.getElem?_cons_zero, Option.some.injEq] at h
      simp [h]
    | succ k =>
      simp only [List.map_cons, List.getElem?_cons_succ] at h
      have hmem : a ∈ cs.map (fun c => c.id) := List.mem_iff_getElem?.mpr ⟨k, h⟩
      have hne : (c.id == a) = false := by
        have : c.id ≠ a := fun hca => hnd.1 (hca ▸ hmem)
        simpa using this
      rw [List.findIdx?_cons, hne, List.findIdx?_succ, ih k hnd.2 h]
      rfl

theorem getComponentIndex_none (cs : List Component) (a : String)
    (h : a ∉ cs.map (fun c => c.id)) : cs.findIdx? (fun c => c.id == a) = none := by
  rw [List.findIdx?_eq_none_iff]
  intro c hc
  have hne : c.id ≠ a := fun hca => h (hca ▸ List.mem_map_of_mem (fun c => c.id) hc)
  simpa using hne

/-- C15: on a series with pairwise distinct component ids, `switchComponents` with
two different ids that are both present leaves the list of ids with those two
entries transposed, every other position unchanged; with an id missing or the two
ids equal it is the plain `generate()` call and the list of ids is unchanged. -/
theorem switchComponents_spec {κ : Type} (E : Env κ) (ts : TimeSeries κ)
    (fromID toID : String) (hnodup : ts.componentIDs.Nodup) :
    (∀ i j, ts.componentIDs[i]? = some fromID → ts.componentIDs[j]? = some toID →
      fromID ≠ toID →
      (after (ts.switchComponents E fromID toID)).componentIDs =
        (ts.componentIDs.set i toID).set j fromID ∧
      (after (ts.switchComponents E fromID toID)).componentIDs[i]? = some toID ∧
      (after (ts.switchComponents E fromID toID)).componentIDs[j]? = some fromID ∧
      (∀ k, k ≠ i → k ≠ j →
        (after (ts.switchComponents E fromID toID)).componentIDs[k]? = ts.componentIDs[k]?)) ∧
    ((fromID ∉ ts.componentIDs ∨ toID ∉ ts.componentIDs ∨ fromID = toID) →
      ts.switchComponents E fromID toID = ts.generate E ∧
      (after (ts.switchComponents E fromID toID)).componentIDs = ts.componentIDs) := by
  constructor
  · intro i j hi hj hne
    have hfi := getComponentIndex_of_getElem ts.components fromID i hnodup hi
    have hfj := getComponentIndex_of_getElem ts.components toID j hnodup hj
    have hij : i ≠ j := by
      intro h
      rw [h, hj] at hi
      exact hne (Option.some.inj hi).symm
    simp only [TimeSeries.componentIDs, List.getElem?_map, Option.map_eq_some'] at hi hj
    obtain ⟨cFrom, hcf, hcfid⟩ := hi
    obtain ⟨cTo, hct, hctid⟩ := hj
    have hil : i < ts.components.length := (List.getElem?_eq_some.mp hcf).1
    have hjl : j < ts.components.length := (List.getElem?_eq_some.mp hct).1
    have hids : (after (ts.switchComponents E fromID toID)).componentIDs =
        (ts.componentIDs.set i toID).set j fromID := by
      simp only [TimeSeries.switchComponents, TimeSeries.getComponentIndex, hfi, hfj, hcf, hct]
      rw [if_pos ⟨Nat.le_of_lt hil, Nat.le_of_lt hjl, hij⟩, generate_componentIDs]
      simp only [TimeSeries.componentIDs, List.map_set, hcfid, hctid]
    refine ⟨hids, ?_, ?_, ?_⟩
    · rw [hids, List.getElem?_set_ne (Ne.symm hij), List.getElem?_set_eq_of_lt]
      simpa [TimeSeries.componentIDs] using hil
    · rw [hids, List.getElem?_set_eq_of_lt]
      simpa [TimeSeries.componentIDs] using hjl
    · intro k hki hkj
      rw [hids, List.getElem?_set_ne (Ne.symm hkj), List.getElem?_set_ne (Ne.symm hki)]
  · intro h
    have heq : ts.switchComponents E fromID toID = ts.generate E := by
      simp only [TimeSeries.switchComponents, TimeSeries.getComponentIndex]
      rcases h with h | h | h
      · rw [getComponentIndex_none ts.components fromID h]
      · rw [getComponentIndex_none ts.components toID h]
        split
        · rename_i h1 h2
          cases h2
        · rfl
      · subst h
        split
        · rename_i fromIndex toIndex h1 h2
          rw [h1] at h2
          have h3 : fromIndex = toIndex := Option.some.inj h2
          rw [if_neg (fun hc => hc.2.2 h3)]
        · rfl
    exact ⟨heq, by rw [heq]; exact generate_componentIDs E ts⟩

theorem switchComponents_spec_witness :
    (∀ i j, pairSeries.componentIDs[i]? = some "comp_0" →
      pairSeries.componentIDs[j]? = some "comp_1" → "comp_0" ≠ "comp_1" →
      (after (pairSeries.switchComponents pairEnv "comp_0" "comp_1")).componentIDs =
        (pairSeries.componentIDs.set i "comp_1").set j "comp_0" ∧
      (after (pairSeries.switchComponents pairEnv "comp_0" "comp_1")).componentIDs[i]?
        = some "comp_1" ∧
      (after (pairSeries.switchComponents pairEnv "comp_0" "comp_1")).componentIDs[j]?
        = some "comp_0" ∧
      (∀ k, k ≠ i → k ≠ j →
        (after (pairSeries.switchComponents pairEnv "comp_0" "comp_1")).componentIDs[k]?
          = pairSeries.componentIDs[k]?)) ∧
    (("comp_0" ∉ pairSeries.componentIDs ∨ "comp_1" ∉ pairSeries.componentIDs ∨
        "comp_0" = "comp_1") →
      pairSeries.switchComponents pairEnv "comp_0" "comp_1" = pairSeries.generate pairEnv ∧
      (after (pairSeries.switchComponents pairEnv "comp_0" "comp_1")).componentIDs
        = pairSeries.componentIDs) :=
  switchComponents_spec pairEnv pairSeries "comp_0" "comp_1" (by decide)

/-! ## Resolution by id -/

theorem find_perm (p : Component → Bool) (cs cs1 : List Component) (hp : cs.Perm cs1) :
    (∀ a ∈ cs, ∀ b ∈ cs, p a = true → p b = true → a = b) →
      cs.find? p = cs1.find? p := by
  induction hp with
  | nil => intro _; rfl
  | cons x _ ih =>
    intro h
    simp only [List.find?_cons]
    cases p x
    · exact ih (fun a ha b hb => h a (List.mem_cons_of_mem x ha) b (List.mem_cons_of_mem x hb))
    · rfl
  | swap x y l =>
    intro h
    simp only [List.find?_cons]
    cases hx : p x <;> cases hy : p y <;> simp only []
    have := h y (List.mem_cons_self y _) x (List.mem_cons_of_mem y (List.mem_cons_self x l)) hy hx
    rw [this]
  | trans h1 _ ih1 ih2 =>
    intro h
    rw [ih1 h]
    exact ih2 (fun a ha b hb => h a (h1.mem_iff.mpr ha) b (h1.mem_iff.mpr hb))

theorem eq_of_id_eq (cs : List Component) (hnd : (cs.map (fun c => c.id)).Nodup) :
    ∀ a ∈ cs, ∀ b ∈ cs, a.id = b.id → a = b := by
  induction cs with
  | nil => intro a ha; simp at ha
  | cons c cs ih =>
    simp only [List.map_cons, List.nodup_cons] at hnd
    intro a ha b hb hab
    rcases List.mem_cons.mp ha with ha1 | ha1 <;> rcases List.mem_cons.mp hb with hb1 | hb1
    · rw [ha1, hb1]
    · have hm : b.id ∈ cs.map (fun c => c.id) := List.mem_map_of_mem (fun c => c.id) hb1
      rw [← hab, ha1] at hm
      exact absurd hm hnd.1
    · have hm : a.id ∈ cs.map (fun c => c.id) := List.mem_map_of_mem (fun c => c.id) ha1
      rw [hab, hb1] at hm
      exact absurd hm hnd.1
    · exact ih hnd.2 a ha1 b hb1 hab

theorem getComponent_sameStore (cs cs1 : List Component) (id : String)
    (h : SameStore cs cs1) : getComponent cs id = getComponent cs1 id := by
  apply find_perm _ cs cs1 h.1
  intro a ha b hb hpa hpb
  apply eq_of_id_eq cs h.2 a ha b hb
  simp only [beq_iff_eq] at hpa hpb
  rw [hpa, hpb]

theorem regenerateFirst_eq_map (samples : Nat) (id : String) (cs : List Component)
    (hnd : (cs.map (fun c => c.id)).Nodup) :
    regenerateFirst samples id cs =
      cs.map (fun c => if c.id == id then c.generate samples else c) := by
  induction cs with
  | nil => rfl
  | cons c cs ih =>
    simp only [List.map_cons, List.nodup_cons] at hnd
    simp only [regenerateFirst, List.map_cons]
    by_cases hc : c.id = id
    · have hb : (c.id == id) = true := by simpa using hc
      simp only [hb, if_true, List.cons.injEq, true_and]
      symm
      conv_rhs => rw [← List.map_id cs]
      apply List.map_congr_left
      intro d hd
      have hne : d.id ≠ id := by
        intro hdi
        exact hnd.1 (by rw [hc, ← hdi]; exact List.mem_map_of_mem (fun c => c.id) hd)
      have hb2 : (d.id == id) = false := by simpa using hne
      simp [hb2]
    · have hb : (c.id == id) = false := by simpa using hc
      simp only [hb, Bool.false_eq_true, if_false, List.cons.injEq, true_and]
      exact ih hnd.2

theorem sameStore_nodup_right (cs cs1 : List Component) (h : SameStore cs cs1) :
    (cs1.map (fun c => c.id)).Nodup :=
  (h.1.map (fun c => c.id)).nodup_iff.mp h.2

theorem regenerateFirst_sameStore (samples : Nat) (id : String) (cs cs1 : List Component)
    (h : SameStore cs cs1) :
    SameStore (regenerateFirst samples id cs) (regenerateFirst samples id cs1) := by
  constructor
  · rw [regenerateFirst_eq_map samples id cs h.2,
      regenerateFirst_eq_map samples id cs1 (sameStore_nodup_right cs cs1 h)]
    exact h.1.map _
  · rw [regenerateFirst_ids]
    exact h.2

theorem getComp_similar (samples : Nat) (cs cs1 : List Component) (id : String)
    (h : SameStore cs cs1) :
    (∀ e, getComp samples cs id = .error e → e = cs ∧ getComp samples cs1 id = .error cs1) ∧
    (∀ c cs2, getComp samples cs id = .ok (c, cs2) →
      ∃ cs3, getComp samples cs1 id = .ok (c, cs3) ∧ SameStore cs2 cs3) := by
  have hg := getComponent_sameStore cs cs1 id h
  constructor
  · intro e he
    refine ⟨(getComp_store samples cs id).1 e he, ?_⟩
    simp only [getComp] at he ⊢
    rw [← hg]
    cases hc : getComponent cs id with
    | none => rfl
    | some c =>
      simp only [hc] at he
      split at he <;> cases he
  · intro c cs2 hok
    simp only [getComp] at hok ⊢
    rw [← hg]
    cases hc : getComponent cs id with
    | none => simp [hc] at hok
    | some c0 =>
      simp only [hc] at hok ⊢
      split at hok
      · rename_i hlen
        simp only [Except.ok.injEq, Prod.mk.injEq] at hok
        rw [if_pos hlen, ← hok.1, ← hok.2]
        exact ⟨_, rfl, regenerateFirst_sameStore samples id cs cs1 h⟩
      · rename_i hlen
        simp only [Except.ok.injEq, Prod.mk.injEq] at hok
        rw [if_neg hlen, ← hok.1, ← hok.2]
        exact ⟨_, rfl, h⟩

theorem apply_congr (samples : Nat) (w w1 : Walk) (op : OpName) (inplace : Bool)
    (hv : w.values = w1.values) (hl : w.leftVals = w1.leftVals)
    (hr : w.rightVals = w1.rightVals) :
    apply samples w op inplace = apply samples w1 op inplace := by
  simp only [apply, hv, hl, hr]

theorem resolveOperands_similar (samples : Nat) (w w1 : Walk) (n : Node) (h : w.Similar w1) :
    ResultSimilar (resolveOperands samples w n) (resolveOperands samples w1 n) := by
  obtain ⟨hv, hl, hr, hc, hs⟩ := h
  unfold resolveOperands
  cases n.opCase <;> simp only [bind, Except.bind, pure, Except.pure]
  case APPLY_NESTED_RIGHT => exact ⟨hv, hl, hr, hc, hs⟩
  case APPLY_LEFT =>
    cases n.left with
    | none => exact hs
    | some l =>
      simp only [orThrow]
      cases hg : getComp samples w.components l with
      | error e =>
        obtain ⟨he, h1⟩ := (getComp_similar samples _ _ l hs).1 e hg
        rw [h1, he]
        exact hs
      | ok p =>
        obtain ⟨cs3, h1, hs3⟩ := (getComp_similar samples _ _ l hs).2 p.1 p.2 hg
        rw [h1]
        exact ⟨hv, rfl, rfl, hc, hs3⟩
  case APPLY_RIGHT =>
    cases n.right with
    | none => exact hs
    | some r =>
      simp only [orThrow]
      cases hg : getComp samples w.components r with
      | error e =>
        obtain ⟨he, h1⟩ := (getComp_similar samples _ _ r hs).1 e hg
        rw [h1, he]
        exact hs
      | ok p =>
        obtain ⟨cs3, h1, hs3⟩ := (getComp_similar samples _ _ r hs).2 p.1 p.2 hg
        rw [h1]
        exact ⟨hv, rfl, rfl, hc, hs3⟩
  all_goals
    cases n.left with
    | none => exact hs
    | some l =>
      simp only [orThrow]
      cases hg : getComp samples w.components l with
      | error e =>
        obtain ⟨he, h1⟩ := (getComp_similar samples _ _ l hs).1 e hg
        rw [h1, he]
        exact hs
      | ok p =>
        obtain ⟨cs3, h1, hs3⟩ := (getComp_similar samples _ _ l hs).2 p.1 p.2 hg
        rw [h1]
        simp only []
        cases n.right with
        | none => exact hs3
        | some r =>
          simp only []
          cases hg2 : getComp samples p.2 r with
          | error e =>
            obtain ⟨he, h2⟩ := (getComp_similar samples _ _ r hs3).1 e hg2
            rw [h2, he]
            exact hs3
          | ok q =>
            obtain ⟨cs4, h2, hs4⟩ := (getComp_similar samples _ _ r hs3).2 q.1 q.2 hg2
            rw [h2]
            exact ⟨hv, rfl, rfl, hc, hs4⟩

theorem applyOp_similar (samples : Nat) (w w1 : Walk) (n : Node) (h : w.Similar w1) :
    ResultSimilar (applyOp samples w n) (applyOp samples w1 n) := by
  obtain ⟨hv, hl, hr, hc, hs⟩ := h
  unfold applyOp
  cases n.op with
  | none => exact ⟨hv, hl, hr, hc, hs⟩
  | some op =>
    simp only [bind, Except.bind, pure, Except.pure]
    rw [← apply_congr samples w w1 op (!n.extraOp.isSome) hv hl hr]
    cases apply samples w op (!n.extraOp.isSome) with
    | none => exact hs
    | some p => exact ⟨rfl, hl, hr, rfl, hs⟩

theorem applyExtraOp_similar (samples : Nat) (w w1 : Walk) (n : Node) (h : w.Similar w1) :
    ResultSimilar (applyExtraOp samples w n) (applyExtraOp samples w1 n) := by
  obtain ⟨hv, hl, hr, hc, hs⟩ := h
  unfold applyExtraOp
  rw [← hc]
  cases n.extraOp with
  | none => exact ⟨hv, hl, hr, hc, hs⟩
  | some extraOp =>
    cases hcache : w.cacheVals with
    | none => exact ⟨hv, hl, hr, hc, hs⟩
    | some cache =>
      simp only [bind, Except.bind, pure, Except.pure]
      cases n.opCase
      case APPLY_NESTED_LEFT =>
        cases n.left with
        | none => exact hs
        | some l =>
          simp only [orThrow]
          cases hg : getComp samples w.components l with
          | error e =>
            obtain ⟨he, h1⟩ := (getComp_similar samples _ _ l hs).1 e hg
            rw [h1, he]
            exact hs
          | ok p =>
            obtain ⟨cs3, h1, hs3⟩ := (getComp_similar samples _ _ l hs).2 p.1 p.2 hg
            rw [h1]
            simp only []
            rw [← apply_congr samples
              { w with leftVals := .arr p.1.data, rightVals := .arr cache, components := p.2,
                       cacheVals := some cache }
              { w1 with leftVals := .arr p.1.data, rightVals := .arr cache, components := cs3,
                        cacheVals := some cache }
              extraOp true hv rfl rfl]
            cases apply samples
              { w with leftVals := .arr p.1.data, rightVals := .arr cache, components := p.2,
                       cacheVals := some cache }
              extraOp true with
            | none => exact hs3
            | some q => exact ⟨rfl, rfl, rfl, rfl, hs3⟩
      case APPLY_NESTED_RIGHT =>
        cases n.right with
        | none => exact hs
        | some r =>
          simp only [orThrow]
          cases hg : getComp samples w.components r with
          | error e =>
            obtain ⟨he, h1⟩ := (getComp_similar samples _ _ r hs).1 e hg
            rw [h1, he]
            exact hs
          | ok p =>
            obtain ⟨cs3, h1, hs3⟩ := (getComp_similar samples _ _ r hs).2 p.1 p.2 hg
            rw [h1]
            simp only []
            rw [← apply_congr samples
              { w with leftVals := .arr cache, rightVals := .arr p.1.data, components := p.2,
                       cacheVals := some cache }
              { w1 with leftVals := .arr cache, rightVals := .arr p.1.data, components := cs3,
                        cacheVals := some cache }
              extraOp true hv rfl rfl]
            cases apply samples
              { w with leftVals := .arr cache, rightVals := .arr p.1.data, components := p.2,
                       cacheVals := some cache }
              extraOp true with
            | none => exact hs3
            | some q => exact ⟨rfl, rfl, rfl, rfl, hs3⟩
      all_goals
        simp only [orThrow]
        rw [← apply_congr samples w w1 extraOp true hv hl hr]
        cases apply samples w extraOp true with
        | none => exact hs
        | some q => exact ⟨rfl, hl, hr, hc, hs⟩

theorem resultSimilar_bind (r r1 : Except (List Component) Walk)
    (f : Walk → Except (List Component) Walk) (h : ResultSimilar r r1)
    (hf : ∀ w w1, w.Similar w1 → ResultSimilar (f w) (f w1)) :
    ResultSimilar (r >>= f) (r1 >>= f) := by
  cases r with
  | error e =>
    cases r1 with
    | error e1 => exact h
    | ok w1 => exact absurd h id
  | ok w =>
    cases r1 with
    | error e1 => exact absurd h id
    | ok w1 => exact hf w w1 h

theorem step_similar (samples : Nat) (w w1 : Walk) (n : Node) (h : w.Similar w1) :
    ResultSimilar (step samples w n) (step samples w1 n) := by
  unfold step
  apply resultSimilar_bind _ _ _ (resolveOperands_similar samples w w1 n h)
  intro wa wa1 ha
  apply resultSimilar_bind _ _ _ (applyOp_similar samples wa wa1 n ha)
  intro wb wb1 hb
  exact applyExtraOp_similar samples wb wb1 n hb

theorem walk_similar (samples : Nat) (nodes : List Node) :
    ∀ (w w1 : Walk), w.Similar w1 →
      ResultSimilar (walk samples w nodes) (walk samples w1 nodes) := by
  induction nodes with
  | nil => intro w w1 h; exact h
  | cons n ns ih =>
    intro w w1 h
    have hs := step_similar samples w w1 n h
    simp only [walk]
    cases h1 : step samples w n with
    | error e =>
      cases h2 : step samples w1 n with
      | error e1 =>
        rw [h1, h2] at hs
        exact hs
      | ok v1 =>
        rw [h1, h2] at hs
        exact absurd hs id
    | ok v =>
      cases h2 : step samples w1 n with
      | error e1 =>
        rw [h1, h2] at hs
        exact absurd hs id
      | ok v1 =>
        rw [h1, h2] at hs
        exact ih v v1 hs

theorem swap_perm_head (t : List Component) :
    ∀ (j : Nat) (a x : Component), t[j]? = some x → (x :: t.set j a).Perm (a :: t) := by
  induction t with
  | nil => intro j a x h; simp at h
  | cons b u ih =>
    intro j a x h
    cases j with
    | zero =>
      simp only [List.getElem?_cons_zero, Option.some.injEq] at h
      subst h
      exact List.Perm.swap a b u
    | succ k =>
      simp only [List.getElem?_cons_succ] at h
      simp only [List.set_cons_succ]
      exact ((List.Perm.swap b x (u.set k a)).trans ((ih k a x h).cons b)).trans
        (List.Perm.swap a b u)

theorem swap_perm (cs : List Component) :
    ∀ (i j : Nat) (a b : Component), cs[i]? = some a → cs[j]? = some b →
      ((cs.set i b).set j a).Perm cs := by
  induction cs with
  | nil => intro i j a b h; simp at h
  | cons c t ih =>
    intro i j a b hi hj
    cases i with
    | zero =>
      simp only [List.getElem?_cons_zero, Option.some.injEq] at hi
      subst hi
      cases j with
      | zero =>
        simp only [List.getElem?_cons_zero, Option.some.injEq] at hj
        subst hj
        simp
      | succ k =>
        simp only [List.getElem?_cons_succ] at hj
        simp only [List.set_cons_zero, List.set_cons_succ]
        exact swap_perm_head t k c b hj
    | succ m =>
      simp only [List.getElem?_cons_succ] at hi
      cases j with
      | zero =>
        simp only [List.getElem?_cons_zero, Option.some.injEq] at hj
        subst hj
        simp only [List.set_cons_zero, List.set_cons_succ]
        have h1 := swap_perm_head t m c a hi
        exact h1
      | succ k =>
        simp only [List.getElem?_cons_succ] at hj
        simp only [List.set_cons_succ]
        exact (ih m k a b hi hj).cons c

theorem generate_dataY_congr {κ : Type} (E : Env κ) (ts ts1 : TimeSeries κ)
    (hs : ts.samples = ts1.samples) (hd : ts.dataY = ts1.dataY)
    (hc : SameStore ts.components ts1.components)
    (hn : E.iterate ts.compositor = E.iterate ts1.compositor) :
    (after (ts.generate E)).dataY = (after (ts1.generate E)).dataY ∧
    (∀ r, ts.generate E = .ok r → ∃ r1, ts1.generate E = .ok r1 ∧ r1.dataY = r.dataY) := by
  have h := walk_similar ts.samples (E.iterate ts.compositor)
    (initWalk ts.samples ts.components) (initWalk ts.samples ts1.components)
    ⟨rfl, rfl, rfl, rfl, hc⟩
  simp only [TimeSeries.generate]
  rw [← hs, ← hn]
  cases h1 : walk ts.samples (initWalk ts.samples ts.components) (E.iterate ts.compositor) with
  | error e =>
    cases h2 : walk ts.samples (initWalk ts.samples ts1.components)
        (E.iterate ts.compositor) with
    | error e1 =>
      refine ⟨hd, ?_⟩
      intro r hr
      cases hr
    | ok v1 =>
      rw [h1, h2] at h
      exact absurd h id
  | ok v =>
    cases h2 : walk ts.samples (initWalk ts.samples ts1.components)
        (E.iterate ts.compositor) with
    | error e1 =>
      rw [h1, h2] at h
      exact absurd h id
    | ok v1 =>
      rw [h1, h2] at h
      refine ⟨h.1, ?_⟩
      intro r hr
      cases hr
      exact ⟨_, rfl, h.1.symm⟩

/-- C16: on a series with pairwise distinct component ids, `generate()` finds each
node's component by id, so a component list with two positions exchanged resolves
every id to the same component and yields the same `dataY` for the same node
sequence; `switchComponents` therefore leaves `dataY` as `generate()` gives it
whenever the compositor walks the same nodes after `switchData`. -/
theorem switch_preserves_composite {κ : Type} (E : Env κ) (ts : TimeSeries κ)
    (hnodup : ts.componentIDs.Nodup) :
    (∀ i j cFrom cTo, ts.components[i]? = some cFrom → ts.components[j]? = some cTo →
      (∀ id, getComponent ((ts.components.set i cTo).set j cFrom) id =
        getComponent ts.components id) ∧
      (after (({ ts with components := (ts.components.set i cTo).set j cFrom } :
        TimeSeries κ).generate E)).dataY = (after (ts.generate E)).dataY ∧
      (∀ r, ts.generate E = .ok r →
        ∃ r1, ({ ts with components := (ts.components.set i cTo).set j cFrom } :
          TimeSeries κ).generate E = .ok r1 ∧ r1.dataY = r.dataY)) ∧
    (∀ fromID toID,
      E.iterate (E.switchData ts.compositor fromID toID) = E.iterate ts.compositor →
      (after (ts.switchComponents E fromID toID)).dataY = (after (ts.generate E)).dataY) := by
  have hstore : ∀ i j cFrom cTo, ts.components[i]? = some cFrom →
      ts.components[j]? = some cTo →
      SameStore ts.components ((ts.components.set i cTo).set j cFrom) :=
    fun i j cFrom cTo hi hj => ⟨(swap_perm ts.components i j cFrom cTo hi hj).symm, hnodup⟩
  constructor
  · intro i j cFrom cTo hi hj
    have hs := hstore i j cFrom cTo hi hj
    have hg := generate_dataY_congr E ts
      { ts with components := (ts.components.set i cTo).set j cFrom } rfl rfl hs rfl
    exact ⟨fun id => (getComponent_sameStore _ _ id hs).symm, hg.1.symm, hg.2⟩
  · intro fromID toID hiter
    simp only [TimeSeries.switchComponents]
    split
    · rename_i fromIndex toIndex _ _
      split
      · split
        · rename_i cFrom cTo hi hj
          have hs := hstore fromIndex toIndex cFrom cTo hi hj
          exact (generate_dataY_congr E ts
            { ts with components := (ts.components.set fromIndex cTo).set toIndex cFrom,
                      compositor := E.switchData ts.compositor fromID toID }
            rfl rfl hs hiter.symm).1.symm
        · rfl
      · rfl
    · rfl

theorem switch_preserves_composite_witness :
    ((∀ i j cFrom cTo, pairSeries.components[i]? = some cFrom →
      pairSeries.components[j]? = some cTo →
      (∀ id, getComponent ((pairSeries.components.set i cTo).set j cFrom) id =
        getComponent pairSeries.components id) ∧
      (after (({ pairSeries with components := (pairSeries.components.set i cTo).set j cFrom } :
        TimeSeries Unit).generate pairEnv)).dataY = (after (pairSeries.generate pairEnv)).dataY ∧
      (∀ r, pairSeries.generate pairEnv = .ok r →
        ∃ r1, ({ pairSeries with components := (pairSeries.components.set i cTo).set j cFrom } :
          TimeSeries Unit).generate pairEnv = .ok r1 ∧ r1.dataY = r.dataY)) ∧
    (∀ fromID toID,
      pairEnv.iterate (pairEnv.switchData pairSeries.compositor fromID toID)
        = pairEnv.iterate pairSeries.compositor →
      (after (pairSeries.switchComponents pairEnv fromID toID)).dataY
        = (after (pairSeries.generate pairEnv)).dataY)) ∧
    (after (pairSeries.generate pairEnv)).dataY = [.num (-1), .num (-1), .num (-1)] ∧
    (after (pairSeries.switchComponents pairEnv "comp_0" "comp_1")).dataY
      = [.num (-1), .num (-1), .num (-1)] ∧
    (after (pairSeries.switchComponents pairEnv "comp_0" "comp_1")).componentIDs
      = ["comp_1", "comp_0"] :=
  ⟨switch_preserves_composite pairEnv pairSeries (by decide),
    by with_unfolding_all decide, by with_unfolding_all decide, by with_unfolding_all decide⟩

/-! ## Adding a component -/

/-- C17 as stated fails: `addComponent("NOPE")`, a non-empty key that is not in the
catalog, returns without an error and the series has a second component,
`comp_1`, exactly as after `addComponent()`. -/
theorem addComponent_unknown_type_counterexample :
    inGeneratorDefaults "NOPE" = false ∧
    (generatedSeries.addComponent singleNodeEnv (some "NOPE") 7).toOption.map
      (fun t => t.componentIDs) = some ["comp_0", "comp_1"] ∧
    generatedSeries.addComponent singleNodeEnv (some "NOPE") 7 =
      generatedSeries.addComponent singleNodeEnv none 7 := by
  refine ⟨by decide, by with_unfolding_all decide, rfl⟩

/-- C17, amended: `addComponent(typeKey)` with a type key that `in` does not find
in `GENERATOR_DEFAULTS` runs the branch of an omitted type key: the call is the
same as `addComponent()`, no error comes from the key, and one component with the
next id is appended. -/
theorem addComponent_unknown_type {κ : Type} (E : Env κ) (ts : TimeSeries κ)
    (generatorType : String) (seed : Nat) (h : inGeneratorDefaults generatorType = false) :
    ts.addComponent E (some generatorType) seed = ts.addComponent E none seed ∧
    (after (ts.addComponent E (some generatorType) seed)).componentIDs
      = ts.componentIDs ++ [ts.getID.1] ∧
    (after (ts.addComponent E (some generatorType) seed)).size = ts.size + 1 := by
  have heq : ts.addComponent E (some generatorType) seed = ts.addComponent E none seed := by
    simp only [TimeSeries.addComponent, h, Bool.false_eq_true, and_false, if_false]
  have hids : (after (ts.addComponent E (some generatorType) seed)).componentIDs
      = ts.componentIDs ++ [ts.getID.1] := by
    rw [heq]
    simp only [TimeSeries.addComponent, newComponent]
    rw [generate_componentIDs]
    simp only [TimeSeries.componentIDs, List.map_append, List.map_cons, List.map_nil]
    congr 1
    simp only [TimeSeries.getID]
    split <;> rfl
  refine ⟨heq, hids, ?_⟩
  have hlen := congrArg List.length hids
  simpa [TimeSeries.componentIDs, TimeSeries.size] using hlen

theorem addComponent_unknown_type_witness :
    generatedSeries.addComponent singleNodeEnv (some "NOPE") 7
      = generatedSeries.addComponent singleNodeEnv none 7 ∧
    (after (generatedSeries.addComponent singleNodeEnv (some "NOPE") 7)).componentIDs
      = generatedSeries.componentIDs ++ [generatedSeries.getID.1] ∧
    (after (generatedSeries.addComponent singleNodeEnv (some "NOPE") 7)).size
      = generatedSeries.size + 1 :=
  addComponent_unknown_type singleNodeEnv generatedSeries "NOPE" 7 (by decide)

/-! ## The collection -/

/-- C18, the code at its failing inputs: on a collection whose `min` is the number
`m`, `setOption("max", m)` is accepted, since the test is `value >= this.min`, and
returns with `max = min = m`, so `min < max` no longer holds; a single series
keeps its `max` on the same call. -/
theorem collection_max_accepts_min {κ : Type} (E : CollectionEnv) (c : TimeSeriesCollection)
    (S : Env κ) (ts : TimeSeries κ) (m : ℚ) (hc : c.min = .num m) (hts : ts.min = .num m) :
    (∃ c1, c.setOption E (.max (.num m)) = .ok c1 ∧ c1.min = .num m ∧ c1.max = .num m ∧
      JSVal.lt c1.min c1.max = false) ∧
    (∃ ts1, ts.setOption S (.max (.num m)) = .ok ts1 ∧ ts1.max = ts.max) := by
  constructor
  · refine ⟨{ c with max := .num m }, ?_, hc, rfl, ?_⟩
    · simp only [TimeSeriesCollection.setOption, hc, JSVal.ge, le_refl, decide_True, if_true]
    · simp [hc, JSVal.lt]
  · refine ⟨_, rfl, ?_⟩
    simp [hts, JSVal.gt, JSVal.lt]

theorem collection_max_accepts_min_witness :
    (∃ c1, defaultCollection.setOption plainCollectionEnv (.max (.num (-2))) = .ok c1 ∧
      c1.min = .num (-2) ∧ c1.max = .num (-2) ∧ JSVal.lt c1.min c1.max = false) ∧
    (∃ ts1, generatedSeries.setOption singleNodeEnv (.max (.num (-2))) = .ok ts1 ∧
      ts1.max = generatedSeries.max) :=
  collection_max_accepts_min plainCollectionEnv defaultCollection singleNodeEnv generatedSeries
    (-2) rfl (by with_unfolding_all decide)

theorem ts_id_injective (n m : Nat) (h : "ts_" ++ toString n = "ts_" ++ toString m) :
    n = m := by
  apply toString_nat_injective
  have h1 := congrArg String.toList h
  simp only [String.toList, String.data_append] at h1
  exact String.ext (List.append_cancel_left h1)

theorem idSuffix_ts (n : Nat) : idSuffix ("ts_" ++ toString n) = (toString n).toList := by
  simp [idSuffix, afterFirst, String.toList, String.data_append]
  rfl

theorem roundToDouble_le (n : Nat) (h : n ≤ 2 ^ 53) : roundToDouble n = some n := by
  rcases Nat.lt_or_eq_of_le h with h1 | h1
  · simp only [roundToDouble, h1, if_true]
  · subst h1
    decide

theorem toNumber_int (z : Int) (h1 : -(2 : Int) ^ 53 ≤ z) (h2 : z ≤ (2 : Int) ^ 53) :
    toNumber z = .int z := by
  cases z with
  | ofNat n =>
    have hn : n ≤ 2 ^ 53 := by
      have : (n : Int) ≤ (2 : Int) ^ 53 := h2
      exact_mod_cast this
    simp only [toNumber, roundToDouble_le n hn]
    rfl
  | negSucc n =>
    have hn : n + 1 ≤ 2 ^ 53 := by
      have : -(2 : Int) ^ 53 ≤ Int.negSucc n := h1
      rw [Int.negSucc_eq] at this
      have h3 : ((n : Int) + 1) ≤ (2 : Int) ^ 53 := by omega
      exact_mod_cast h3
    simp only [toNumber, roundToDouble_le (n + 1) hn]
    rfl

theorem toNumber_nat (n : Nat) (h : n ≤ 2 ^ 53) : toNumber (n : Int) = .int (n : Int) := by
  apply toNumber_int
  · have : (0 : Int) ≤ (n : Int) := Int.ofNat_nonneg n
    have h2 : (0 : Int) ≤ (2 : Int) ^ 53 := by norm_num
    omega
  · exact_mod_cast h

theorem numberToString_nat (n : Nat) (h : n < 2 ^ 53) :
    numberToString (.int (n : Int)) = toString n := by
  have h0 : ¬ ((n : Int) < 0) := by omega
  simp only [numberToString, h0, if_false, Int.natAbs_ofNat, natToString, h, if_true]

theorem toDigitsCore_digits (fuel : Nat) :
    ∀ (n : Nat) (ds : List Char), (∀ c ∈ ds, c.isDigit = true) →
      ∀ c ∈ Nat.toDigitsCore 10 fuel n ds, c.isDigit = true := by
  induction fuel with
  | zero => intro n ds h; simpa [Nat.toDigitsCore] using h
  | succ fuel ih =>
    intro n ds h
    have hd := (digitChar_isDigit (n % 10) (Nat.mod_lt n (by decide))).1
    have hds : ∀ c ∈ Nat.digitChar (n % 10) :: ds, c.isDigit = true := by
      intro c hc
      rcases List.mem_cons.mp hc with h1 | h1
      · rw [h1]; exact hd
      · exact h c h1
    simp only [Nat.toDigitsCore]
    split
    · exact hds
    · exact ih (n / 10) _ hds

theorem parseMagnitude_digits (s : List Char) (h : ∀ c ∈ s, c.isDigit = true) :
    parseMagnitude s = parseDigits none s := by
  unfold parseMagnitude
  split
  · exact absurd (h 'x' (by simp)) (by decide)
  · exact absurd (h 'X' (by simp)) (by decide)
  · rfl

theorem parseIntNumber_digit_head (m : Nat) (rest : List Char) (h : m < 10) :
    parseIntNumber (Nat.digitChar m :: rest) =
      match parseMagnitude (Nat.digitChar m :: rest) with
      | some n => toNumber n
      | none => .nan := by
  interval_cases m <;> rfl

theorem parseIntNumber_repr (n : Nat) : parseIntNumber (toString n).toList = toNumber n := by
  obtain ⟨m, rest, hm, hrest⟩ := toDigitsCore_head (n + 1) n [] (Nat.lt_succ_self n)
  have h : (toString n).toList = Nat.toDigitsCore 10 (n + 1) n [] := rfl
  have h2 := parseDigits_repr n
  have h3 := toDigitsCore_digits (n + 1) n [] (fun c hc => by simp at hc)
  rw [h] at h2 ⊢
  rw [hrest] at h2 h3 ⊢
  rw [parseIntNumber_digit_head m rest hm, parseMagnitude_digits _ h3, h2]

theorem max_nan (x : JSInteger) : JSInteger.max x .nan = .nan := by
  cases x with
  | int z => rfl
  | nan => rfl
  | infinity b => cases b <;> rfl

theorem foldl_max_nan (ids : List String) :
    ids.foldl (fun acc id => JSInteger.max acc ((parseIntNumber (idSuffix id)).plus 1)) .nan
      = .nan := by
  induction ids with
  | nil => rfl
  | cons id ids ih =>
    have h : JSInteger.max .nan ((parseIntNumber (idSuffix id)).plus 1) = .nan := by
      cases (parseIntNumber (idSuffix id)).plus 1 with
      | int z => rfl
      | nan => rfl
      | infinity b => cases b <;> rfl
    simp only [List.foldl_cons, h]
    exact ih

theorem loadSeriesCounter_nan (ids : List String) :
    ∀ (x : JSInteger), (∃ id ∈ ids, parseIntNumber (idSuffix id) = .nan) →
      ids.foldl (fun acc id => JSInteger.max acc ((parseIntNumber (idSuffix id)).plus 1)) x
        = .nan := by
  induction ids with
  | nil => intro x h; obtain ⟨id, hid, _⟩ := h; simp at hid
  | cons a ids ih =>
    intro x h
    obtain ⟨id, hid, hnan⟩ := h
    simp only [List.foldl_cons]
    rcases List.mem_cons.mp hid with h1 | h1
    · subst h1
      rw [hnan]
      have : JSInteger.plus .nan 1 = .nan := rfl
      rw [this, max_nan, foldl_max_nan]
    · exact ih _ ⟨id, h1, hnan⟩

theorem loadSeriesCounter_bound (ids : List String) :
    ∀ (k0 : Int),
      (∀ id ∈ ids, ∃ z : Int, parseIntNumber (idSuffix id) = .int z ∧
        -(2 : Int) ^ 53 ≤ z ∧ z + 1 < (2 : Int) ^ 53) →
      ∃ k : Int, ids.foldl
          (fun acc id => JSInteger.max acc ((parseIntNumber (idSuffix id)).plus 1)) (.int k0)
          = .int k ∧
        k0 ≤ k ∧ (k0 < (2 : Int) ^ 53 → k < (2 : Int) ^ 53) ∧
        ∀ id ∈ ids, ∀ z : Int, parseIntNumber (idSuffix id) = .int z → z < k := by
  induction ids with
  | nil =>
    intro k0 _
    exact ⟨k0, rfl, le_refl k0, fun h => h, fun id hid => by simp at hid⟩
  | cons id ids ih =>
    intro k0 h
    obtain ⟨z, hz, hz1, hz2⟩ := h id (List.mem_cons_self id ids)
    obtain ⟨k, hk, hle, hlt, hall⟩ := ih (Max.max k0 (z + 1))
      (fun a ha => h a (List.mem_cons_of_mem id ha))
    have hplus : (JSInteger.int z).plus 1 = .int (z + 1) :=
      toNumber_int (z + 1) (by omega) (by omega)
    refine ⟨k, ?_, ?_, ?_, ?_⟩
    · simp only [List.foldl_cons, hz, hplus, JSInteger.max]
      exact hk
    · exact le_trans (le_max_left _ _) hle
    · intro hk0
      exact hlt (max_lt hk0 hz2)
    · intro a ha m hm
      rcases List.mem_cons.mp ha with h1 | h1
      · subst h1
        rw [hz] at hm
        cases hm
        have := le_max_right k0 (z + 1)
        omega
      · exact hall a h1 m hm

theorem loadSeriesCounter_ids (ns : List Nat) (hns : ∀ n ∈ ns, n + 1 < 2 ^ 53)
    (hlen : ns.length < 2 ^ 53) :
    ∃ k : Nat, loadSeriesCounter (ns.map (fun n => "ts_" ++ toString n)) = .int (k : Int) ∧
      ns.length ≤ k ∧ k < 2 ^ 53 ∧ ∀ n ∈ ns, n < k := by
  have hparse : ∀ n ∈ ns, parseIntNumber (idSuffix ("ts_" ++ toString n)) = .int (n : Int) := by
    intro n hn
    rw [idSuffix_ts, parseIntNumber_repr, toNumber_nat n (by have := hns n hn; omega)]
  obtain ⟨k, hk, hle, hlt, hall⟩ := loadSeriesCounter_bound
    (ns.map (fun n => "ts_" ++ toString n)) ((ns.map (fun n => "ts_" ++ toString n)).length : Nat)
    (by
      intro id hid
      obtain ⟨n, hn, rfl⟩ := List.mem_map.mp hid
      have h1 := hns n hn
      have h2 : ((n : Int) + 1) < (2 : Int) ^ 53 := by exact_mod_cast h1
      have h3 : -(2 : Int) ^ 53 ≤ (n : Int) := by
        have h4 : (0 : Int) ≤ (n : Int) := Int.ofNat_nonneg n
        have h0 : (0 : Int) ≤ (2 : Int) ^ 53 := by norm_num
        omega
      exact ⟨n, hparse n hn, h3, h2⟩)
  rw [List.length_map] at hk hle hlt
  have hk0 : (0 : Int) ≤ k := le_trans (Int.ofNat_nonneg _) hle
  obtain ⟨kn, rfl⟩ := Int.eq_ofNat_of_zero_le hk0
  refine ⟨kn, ?_, by exact_mod_cast hle, ?_, ?_⟩
  · rw [loadSeriesCounter, List.length_map]
    exact hk
  · have := hlt (by exact_mod_cast hlen)
    exact_mod_cast this
  · intro n hn
    have := hall _ (List.mem_map_of_mem _ hn) n (hparse n hn)
    exact_mod_cast this

theorem collection_generate_counter (E : CollectionEnv) (c : TimeSeriesCollection)
    (force : Bool) : (after (c.generate E force)).TS_ID = c.TS_ID := by
  simp only [TimeSeriesCollection.generate]
  split <;> rfl

theorem removeTimeSeries_counter (E : CollectionEnv) (c : TimeSeriesCollection) (id : String) :
    (after (c.removeTimeSeries E id)).TS_ID = c.TS_ID := by
  simp only [TimeSeriesCollection.removeTimeSeries]
  split
  · exact collection_generate_counter E _ false
  · rfl

theorem addTimeSeries_counter (E : CollectionEnv) (c : TimeSeriesCollection) :
    (∀ ts : Member, (after (c.addTimeSeries E (some ts))).TS_ID = c.TS_ID) ∧
    (after (c.addTimeSeries E none)).TS_ID = c.getID.2.TS_ID := by
  constructor
  · intro ts
    simp only [TimeSeriesCollection.addTimeSeries]
    rw [collection_generate_counter]
    split
    · split <;> rfl
    · rfl
  · simp only [TimeSeriesCollection.addTimeSeries]
    exact collection_generate_counter E _ false

theorem collection_getID_number (c : TimeSeriesCollection) (k : Nat) (h : c.TS_ID = .int k)
    (hk : k < 2 ^ 53) :
    c.getID.1 = "ts_" ++ toString k ∧ c.getID.2.TS_ID = .int ((k + 1 : Nat) : Int) := by
  simp only [TimeSeriesCollection.getID, h, numberToString_nat k hk, JSInteger.plus, true_and]
  exact toNumber_nat (k + 1) (by omega)

theorem collection_run_counter (E : CollectionEnv) (c : TimeSeriesCollection) (k : Nat)
    (op : CollectionOp) (h : c.TS_ID = .int k)
    (hk : k + (if op.callsGetID then 1 else 0) ≤ 2 ^ 53) :
    (c.run E op).TS_ID = .int ((k + (if op.callsGetID then 1 else 0) : Nat) : Int) ∧
    (op.callsGetID = true → c.getID.1 = "ts_" ++ toString k) := by
  cases op with
  | getID =>
    simp only [CollectionOp.callsGetID, if_true] at hk ⊢
    obtain ⟨h1, h2⟩ := collection_getID_number c k h (by omega)
    exact ⟨h2, fun _ => h1⟩
  | addTimeSeries timeseries =>
    cases timeseries with
    | none =>
      simp only [CollectionOp.callsGetID, if_true] at hk ⊢
      obtain ⟨h1, h2⟩ := collection_getID_number c k h (by omega)
      exact ⟨by rw [TimeSeriesCollection.run, (addTimeSeries_counter E c).2, h2], fun _ => h1⟩
    | some ts =>
      simp only [CollectionOp.callsGetID, Bool.false_eq_true, if_false, Nat.add_zero]
      exact ⟨by rw [TimeSeriesCollection.run, (addTimeSeries_counter E c).1 ts, h],
        fun hf => by cases hf⟩
  | removeTimeSeries id =>
    simp only [CollectionOp.callsGetID, Bool.false_eq_true, if_false, Nat.add_zero]
    exact ⟨by rw [TimeSeriesCollection.run, removeTimeSeries_counter E c id, h],
      fun hf => by cases hf⟩

theorem collection_runAll_counter (E : CollectionEnv) (ops : List CollectionOp) :
    ∀ (c : TimeSeriesCollection) (k : Nat), c.TS_ID = .int k →
      k + ops.countP CollectionOp.callsGetID ≤ 2 ^ 53 →
      c.idsReturned E ops
        = (List.range' k (ops.countP CollectionOp.callsGetID)).map
            (fun j => "ts_" ++ toString j) ∧
      (c.runAll E ops).TS_ID = .int ((k + ops.countP CollectionOp.callsGetID : Nat) : Int) := by
  induction ops with
  | nil =>
    intro c k h _
    exact ⟨rfl, h⟩
  | cons op ops ih =>
    intro c k h hk
    rw [List.countP_cons] at hk ⊢
    cases hop : op.callsGetID with
    | true =>
      rw [hop] at hk
      simp only [if_true] at hk ⊢
      obtain ⟨h1, h2⟩ := collection_run_counter E c k op h (by rw [hop]; simp only [if_true]; omega)
      rw [hop] at h1
      simp only [if_true] at h1
      obtain ⟨i1, i2⟩ := ih (c.run E op) (k + 1) h1 (by omega)
      simp only [TimeSeriesCollection.runAll, TimeSeriesCollection.idsReturned, hop, if_true]
      refine ⟨?_, ?_⟩
      · rw [i1, h2 hop, List.range'_succ]
        rfl
      · rw [i2]
        congr 2
        omega
    | false =>
      rw [hop] at hk
      simp only [Bool.false_eq_true, if_false, Nat.add_zero] at hk ⊢
      obtain ⟨h1, _⟩ := collection_run_counter E c k op h
        (by rw [hop]; simp only [Bool.false_eq_true, if_false]; omega)
      rw [hop] at h1
      simp only [Bool.false_eq_true, if_false, Nat.add_zero] at h1
      obtain ⟨i1, i2⟩ := ih (c.run E op) k h1 hk
      simp only [TimeSeriesCollection.runAll, TimeSeriesCollection.idsReturned, hop,
        Bool.false_eq_true, if_false, List.nil_append]
      exact ⟨i1, i2⟩

/-- C19 as stated fails.  A collection that has loaded a series whose id has no
numeric suffix (`"ts"`) has the counter `NaN`, and two successive `getID()` calls
return the same id `ts_NaN`.  And after `fromJSON` has loaded the id
`ts_9007199254740992`, of the form `ts_<n>` with `n = 2 ^ 53`, the counter is
`2 ^ 53` (the sum `n + 1` rounds back to `n`), not greater than the loaded suffix;
the next `getID()` returns the loaded id, and so does the one after it. -/
theorem collection_ids_never_reused_counterexample :
    (after (defaultCollection.fromJSON plainCollectionEnv
      { options := TSC_DEFAULTS, series := [{ id := "ts" }] })).TS_ID = .nan ∧
    (after (defaultCollection.fromJSON plainCollectionEnv
      { options := TSC_DEFAULTS, series := [{ id := "ts" }] })).getID.1 = "ts_NaN" ∧
    (after (defaultCollection.fromJSON plainCollectionEnv
      { options := TSC_DEFAULTS, series := [{ id := "ts" }] })).getID.2.getID.1 = "ts_NaN" ∧
    (after (defaultCollection.fromJSON plainCollectionEnv
      { options := TSC_DEFAULTS, series := [{ id := "ts_9007199254740992" }] })).TS_ID
        = .int 9007199254740992 ∧
    (after (defaultCollection.fromJSON plainCollectionEnv
      { options := TSC_DEFAULTS, series := [{ id := "ts_9007199254740992" }] })).getID.1
        = "ts_9007199254740992" ∧
    (after (defaultCollection.fromJSON plainCollectionEnv
      { options := TSC_DEFAULTS, series := [{ id := "ts_9007199254740992" }] })).getID.2.getID.1
        = "ts_9007199254740992" ∧
    (after (defaultCollection.fromJSON plainCollectionEnv
      { options := TSC_DEFAULTS, series := [{ id := "ts_9007199254740992" }] })).getID.1
        ∈ ([{ id := "ts_9007199254740992" }] : List MemberJSON).map (fun s => s.id) := by
  refine ⟨by decide, by decide, by decide, by decide, by decide, by decide, by decide⟩

/-- C19, amended: on a collection whose counter is a number `k`, over every
sequence of `getID` / `addTimeSeries` / `removeTimeSeries` calls that keeps the
counter within `2 ^ 53`, the `getID()` calls return `ts_<k>`, `ts_<k+1>`, ... in
this order, pairwise distinct, and the counter ends at `k` plus the number of
`getID()` calls; `addTimeSeries()` gives the new member the id its `getID()` call
returns; `removeTimeSeries` and `addTimeSeries(series)` leave the counter as it
is, on every collection; and after `fromJSON` has loaded fewer than `2 ^ 53`
series with ids `ts_<n>`, every `n` below `2 ^ 53 - 1`, the counter is a number
that is at least the number of series and greater than every loaded suffix, the
next `getID()` returns `ts_<counter>`, which is no loaded id, and advances the
counter by one. -/
theorem collection_ids_never_reused (E : CollectionEnv) (c : TimeSeriesCollection) :
    (∀ (k : Nat) (ops : List CollectionOp), c.TS_ID = .int (k : Int) →
      k + ops.countP CollectionOp.callsGetID ≤ 2 ^ 53 →
      c.idsReturned E ops
        = (List.range' k (ops.countP CollectionOp.callsGetID)).map
            (fun j => "ts_" ++ toString j) ∧
      (c.idsReturned E ops).Nodup ∧
      (c.runAll E ops).TS_ID
        = .int ((k + ops.countP CollectionOp.callsGetID : Nat) : Int)) ∧
    (∀ (k : Nat), c.TS_ID = .int (k : Int) → k < 2 ^ 53 →
      c.getID.1 = "ts_" ++ toString k ∧ c.getID.2.TS_ID = .int ((k + 1 : Nat) : Int) ∧
      c.getID.2.TS_ID ≠ c.TS_ID) ∧
    c.addTimeSeries E none
      = TimeSeriesCollection.generate E
          { c.getID.2 with
            series := c.getID.2.series ++
              [E.create c.getID.1 (TimeSeriesCollection.getName (c.getID.2.TS_ID.plus (-1)))] }
          false ∧
    (after (c.addTimeSeries E none)).TS_ID = c.getID.2.TS_ID ∧
    (∀ id, (after (c.removeTimeSeries E id)).TS_ID = c.TS_ID) ∧
    (∀ ts : Member, (after (c.addTimeSeries E (some ts))).TS_ID = c.TS_ID) ∧
    (∀ (json : CollectionJSON) (ns : List Nat),
      json.series.map (fun s => s.id) = ns.map (fun n => "ts_" ++ toString n) →
      (∀ n ∈ ns, n + 1 < 2 ^ 53) → ns.length < 2 ^ 53 →
      ∃ k1 : Nat, (after (c.fromJSON E json)).TS_ID = .int (k1 : Int) ∧
        ns.length ≤ k1 ∧ k1 < 2 ^ 53 ∧ (∀ n ∈ ns, n < k1) ∧
        (after (c.fromJSON E json)).getID.1 = "ts_" ++ toString k1 ∧
        (after (c.fromJSON E json)).getID.1 ∉ json.series.map (fun s => s.id) ∧
        (after (c.fromJSON E json)).getID.2.TS_ID = .int ((k1 + 1 : Nat) : Int)) := by
  refine ⟨?_, ?_, rfl, (addTimeSeries_counter E c).2, removeTimeSeries_counter E c,
    (addTimeSeries_counter E c).1, ?_⟩
  · intro k ops hk hsafe
    obtain ⟨h1, h2⟩ := collection_runAll_counter E ops c k hk hsafe
    refine ⟨h1, ?_, h2⟩
    rw [h1]
    exact (List.nodup_range' k _).map (fun a b hab => ts_id_injective a b hab)
  · intro k hk hlt
    obtain ⟨h1, h2⟩ := collection_getID_number c k hk hlt
    refine ⟨h1, h2, ?_⟩
    rw [h2, hk]
    intro h
    have h3 := JSInteger.int.inj h
    have h4 : k + 1 = k := by exact_mod_cast h3
    omega
  · intro json ns hjson hns hlen
    obtain ⟨k1, hk1, hge, hlt, hall⟩ := loadSeriesCounter_ids ns hns hlen
    have hid : (after (c.fromJSON E json)).TS_ID = .int (k1 : Int) := by
      simp only [TimeSeriesCollection.fromJSON]
      rw [collection_generate_counter, hjson]
      exact hk1
    obtain ⟨hget, hnext⟩ := collection_getID_number _ k1 hid hlt
    refine ⟨k1, hid, hge, hlt, hall, hget, ?_, hnext⟩
    rw [hget, hjson]
    intro hmem
    obtain ⟨n, hn, hnk⟩ := List.mem_map.mp hmem
    have := ts_id_injective n k1 hnk
    have hlt2 := hall n hn
    omega

theorem collection_ids_never_reused_witness :
    (defaultCollection.idsReturned plainCollectionEnv
        [.getID, .addTimeSeries none, .removeTimeSeries "ts_1", .getID, .addTimeSeries none]
      = ["ts_0", "ts_1", "ts_2", "ts_3"] ∧
     (defaultCollection.idsReturned plainCollectionEnv
        [.getID, .addTimeSeries none, .removeTimeSeries "ts_1", .getID,
          .addTimeSeries none]).Nodup ∧
     (defaultCollection.runAll plainCollectionEnv
        [.getID, .addTimeSeries none, .removeTimeSeries "ts_1", .getID,
          .addTimeSeries none]).TS_ID = .int 4) ∧
    (defaultCollection.runAll plainCollectionEnv
        [.getID, .addTimeSeries none, .removeTimeSeries "ts_1", .getID,
          .addTimeSeries none]).series.map (fun s => s.id) = ["ts_3"] ∧
    (defaultCollection.getID.1 = "ts_0" ∧ defaultCollection.getID.2.TS_ID = .int 1 ∧
      defaultCollection.getID.2.TS_ID ≠ defaultCollection.TS_ID) ∧
    (∃ k1 : Nat, (after (defaultCollection.fromJSON plainCollectionEnv
          { options := TSC_DEFAULTS, series := [{ id := "ts_4" }, { id := "ts_1" }] })).TS_ID
          = .int (k1 : Int) ∧
      [4, 1].length ≤ k1 ∧ k1 < 2 ^ 53 ∧ (∀ n ∈ [4, 1], n < k1) ∧
      (after (defaultCollection.fromJSON plainCollectionEnv
        { options := TSC_DEFAULTS, series := [{ id := "ts_4" }, { id := "ts_1" }] })).getID.1
          = "ts_" ++ toString k1 ∧
      (after (defaultCollection.fromJSON plainCollectionEnv
        { options := TSC_DEFAULTS, series := [{ id := "ts_4" }, { id := "ts_1" }] })).getID.1
          ∉ ([{ id := "ts_4" }, { id := "ts_1" }] : List MemberJSON).map (fun s => s.id) ∧
      (after (defaultCollection.fromJSON plainCollectionEnv
        { options := TSC_DEFAULTS, series := [{ id := "ts_4" }, { id := "ts_1" }] })).getID.2.TS_ID
          = .int ((k1 + 1 : Nat) : Int)) ∧
    (after (defaultCollection.fromJSON plainCollectionEnv
      { options := TSC_DEFAULTS, series := [{ id := "ts_4" }, { id := "ts_1" }] })).getID.1
        = "ts_5" :=
  ⟨(collection_ids_never_reused plainCollectionEnv defaultCollection).1 0
      [.getID, .addTimeSeries none, .removeTimeSeries "ts_1", .getID, .addTimeSeries none]
      rfl (by decide),
    by decide,
    (collection_ids_never_reused plainCollectionEnv defaultCollection).2.1 0 rfl (by decide),
    (collection_ids_never_reused plainCollectionEnv defaultCollection).2.2.2.2.2.2
      { options := TSC_DEFAULTS, series := [{ id := "ts_4" }, { id := "ts_1" }] } [4, 1]
      (by decide) (by decide) (by decide),
    by decide⟩

/-! ## The generator catalog -/

theorem catalog_all_valid :
    GENERATOR_DEFAULTS.all (fun g => g.options.all (fun o => o.valid)) = true := by
  with_unfolding_all decide

theorem validates_integer (v : ℚ) : validates "INTEGER" v = true ↔ ∃ n : ℕ, v = n := by
  have h : validates "INTEGER" v = (decide (0 ≤ v) && decide (v.den = 1)) := by
    simp [validates]
  rw [h]
  simp only [Bool.and_eq_true, decide_eq_true_eq]
  constructor
  · rintro ⟨h0, h1⟩
    have hv : (v.num : ℚ) = v := Rat.coe_int_num_of_den_eq_one h1
    have hnum : 0 ≤ v.num := Rat.num_nonneg.mpr h0
    refine ⟨v.num.toNat, ?_⟩
    rw [← hv]
    exact_mod_cast (Int.toNat_of_nonneg hnum).symm
  · rintro ⟨n, rfl⟩
    exact ⟨Nat.cast_nonneg n, Rat.den_natCast n⟩

/-- C20: every default of every option of every entry of `GENERATOR_DEFAULTS` lies
within the bounds declared for the option (`min <= default`, `default <= max`) and
passes each validator tag attached to it, where `NOT_ZERO` means `default != 0`,
`EXCLUSIVE_0_1` means `0 < default < 1`, `INTEGER` means a non-negative integer and
`POSITIVE` means `default > 0`. -/
theorem generator_defaults_valid :
    (∀ g ∈ GENERATOR_DEFAULTS, ∀ o ∈ g.options,
      (∀ m, o.min = some m → m ≤ o.defaultValue) ∧
      (∀ m, o.max = some m → o.defaultValue ≤ m) ∧
      (∀ tag ∈ o.validators, validates tag o.defaultValue = true)) ∧
    (∀ v : ℚ, (validates "NOT_ZERO" v = true ↔ v ≠ 0) ∧
      (validates "EXCLUSIVE_0_1" v = true ↔ 0 < v ∧ v < 1) ∧
      (validates "INTEGER" v = true ↔ ∃ n : ℕ, v = n) ∧
      (validates "POSITIVE" v = true ↔ 0 < v)) ∧
    GENERATOR_DEFAULTS.map (fun g => g.key) = GENERATOR_KEYS := by
  refine ⟨?_, ?_, by decide⟩
  · intro g hg o ho
    have hall := catalog_all_valid
    rw [List.all_eq_true] at hall
    have hg1 := hall g hg
    rw [List.all_eq_true] at hg1
    have hvalid := hg1 o ho
    simp only [GeneratorOption.valid, Bool.and_eq_true, List.all_eq_true] at hvalid
    obtain ⟨⟨hmin, hmax⟩, htags⟩ := hvalid
    refine ⟨?_, ?_, htags⟩
    · intro m hm
      rw [hm] at hmin
      simpa using hmin
    · intro m hm
      rw [hm] at hmax
      simpa using hmax
  · intro v
    refine ⟨?_, ?_, validates_integer v, ?_⟩
    · simp [validates]
    · simp [validates]
    · simp [validates]

/-! ## Nodes without operator and nested-right nodes -/

/-- C21 as stated fails: a left-only node without operator over `L = [5,5,5]`, walked
from the accumulator `[0,0,0]`, leaves the accumulator `[0,0,0]`, not
`L[i] + values[i] = 5`, which is what the same node with operator ADD leaves. -/
theorem step_left_no_operator_counterexample :
    (step 3 (initWalk 3 [constantComponent "comp_0" 5 3])
        (bareLeftNode "comp_0")).toOption.map (fun w => w.values)
      = some [.num 0, .num 0, .num 0] ∧
    (step 3 (initWalk 3 [constantComponent "comp_0" 5 3])
        (leftNode "comp_0" .ADD)).toOption.map (fun w => w.values)
      = some [.num 5, .num 5, .num 5] ∧
    ¬ ∃ w1, step 3 (initWalk 3 [constantComponent "comp_0" 5 3]) (bareLeftNode "comp_0")
        = .ok w1 ∧
      ∀ i, i < 3 → w1.values[i]? = some (add (.num 5) (.num 0)) := by
  have hcode : (step 3 (initWalk 3 [constantComponent "comp_0" 5 3])
      (bareLeftNode "comp_0")).toOption.map (fun w => w.values)
      = some [.num 0, .num 0, .num 0] := by with_unfolding_all decide
  refine ⟨hcode, by with_unfolding_all decide, ?_⟩
  rintro ⟨w1, hstep, hall⟩
  rw [hstep] at hcode
  simp only [Except.toOption, Option.map_some', Option.some.injEq] at hcode
  have h0 := hall 0 (by decide)
  rw [hcode] at h0
  revert h0
  with_unfolding_all decide

/-- C21, amended: a left-only node without operator and without extra operator
applies no fold: its component is resolved (and regenerated if stale), `leftVals`
and `rightVals` are bound to the component data and to the accumulator, and the
accumulator and the side buffer are left as they were. -/
theorem step_left_no_operator (samples : Nat) (w : Walk) (n : Node) (lid : String)
    (c : Component)
    (hcase : n.opCase = .APPLY_LEFT) (hleft : n.left = some lid)
    (hop : n.op = none) (hextra : n.extraOp = none)
    (hc : getComponent w.components lid = some c) :
    ∃ c1 comps1, getComp samples w.components lid = .ok (c1, comps1) ∧
      step samples w n =
        .ok { w with leftVals := .arr c1.data, rightVals := .values, components := comps1 } ∧
      (c.data.length = samples → c1 = c ∧ comps1 = w.components) := by
  obtain ⟨c1, comps1, hg⟩ := getComp_total samples w.components lid (by rw [hc]; rfl)
  refine ⟨c1, comps1, hg, ?_, ?_⟩
  · simp only [step, resolveOperands, hcase, hleft, orThrow, bind, Except.bind, pure,
      Except.pure, hg, applyOp, hop, applyExtraOp, hextra]
  · intro hlen
    rw [getComp_fresh samples w.components lid c hc hlen] at hg
    simp only [Except.ok.injEq, Prod.mk.injEq] at hg
    exact ⟨hg.1.symm, hg.2.symm⟩

theorem step_left_no_operator_witness :
    ∃ c1 comps1,
      getComp 3 (initWalk 3 [constantComponent "comp_0" 5 3]).components "comp_0"
        = .ok (c1, comps1) ∧
      step 3 (initWalk 3 [constantComponent "comp_0" 5 3]) (bareLeftNode "comp_0") =
        .ok { initWalk 3 [constantComponent "comp_0" 5 3] with
          leftVals := .arr c1.data, rightVals := .values, components := comps1 } ∧
      ((constantComponent "comp_0" 5 3).data.length = 3 →
        c1 = constantComponent "comp_0" 5 3 ∧
          comps1 = (initWalk 3 [constantComponent "comp_0" 5 3]).components) :=
  step_left_no_operator 3 (initWalk 3 [constantComponent "comp_0" 5 3]) (bareLeftNode "comp_0")
    "comp_0" (constantComponent "comp_0" 5 3) rfl rfl rfl rfl rfl

theorem mapFun_unset_left (fn : JSVal → JSVal → JSVal) (r : Buf) (cur : List JSVal)
    (samples : Nat) (h : 0 < samples) : mapFun (applyAt fn .unset r cur) samples = none := by
  obtain ⟨k, rfl⟩ := Nat.exists_eq_succ_of_ne_zero (Nat.pos_iff_ne_zero.mp h)
  simp [mapFun, mapFunLoop, applyAt, Buf.read]

theorem apply_copy_unset (samples : Nat) (w : Walk) (op : OpName)
    (hl : w.leftVals = .unset) (h : 0 < samples) : apply samples w op false = none := by
  cases op <;> simp [apply, hl, mapFun_unset_left _ _ _ _ h]

/-- C22, the code at its failing inputs: a nested-right node never reads its left
component.  Its first fold takes the operands that `leftVals` and `rightVals` still
hold from the node walked before, so the node leaves
`values[i] = op2(op1(leftVals[i], rightVals[i]), B[i])` with those stale operands;
as the first node of a walk, with `leftVals` still unset, it throws. -/
theorem nested_right_uses_stale_operands (samples : Nat) (w : Walk) (n : Node) (rid : String)
    (cr : Component) (op1 op2 : OpName) (fn1 fn2 : JSVal → JSVal → JSVal)
    (hcase : n.opCase = .APPLY_NESTED_RIGHT) (hright : n.right = some rid)
    (hop : n.op = some op1) (hfn1 : arith op1 = some fn1)
    (hextra : n.extraOp = some op2) (hfn2 : arith op2 = some fn2)
    (hcr : getComponent w.components rid = some cr) (hR : cr.data.length = samples)
    (hv : w.values.length = samples) :
    (w.leftVals ≠ .unset → w.rightVals ≠ .unset →
      ∃ w1, step samples w n = .ok w1 ∧ w1.values.length = samples ∧
        ∀ i, i < samples → ∃ b, cr.data[i]? = some b ∧
          w1.values[i]? =
            some (fn2 (fn1 (w.leftVals.get w.values i) (w.rightVals.get w.values i)) b)) ∧
    (w.leftVals = .unset → 0 < samples → step samples w n = .error w.components) := by
  constructor
  · intro hl hr
    have happly1 := apply_copy samples w op1 fn1 hfn1 hl hr
    have happly2 := apply_inplace samples
      { w with
        leftVals := .arr (foldCopy fn1 w.leftVals w.rightVals w.values samples),
        rightVals := .arr cr.data,
        cacheVals := some (foldCopy fn1 w.leftVals w.rightVals w.values samples) }
      op2 fn2 hfn2 (by simp) (by simp)
    refine ⟨{ w with
        leftVals := .arr (foldCopy fn1 w.leftVals w.rightVals w.values samples),
        rightVals := .arr cr.data,
        cacheVals := some (foldCopy fn1 w.leftVals w.rightVals w.values samples),
        values := foldCopy fn2
          (.arr (foldCopy fn1 w.leftVals w.rightVals w.values samples)) (.arr cr.data)
          w.values w.values.length }, ?_, ?_, ?_⟩
    · simp only [step, resolveOperands, hcase, bind, Except.bind, pure, Except.pure, applyOp,
        hop, hextra, Option.isSome_some, Bool.not_true, happly1, orThrow, applyExtraOp, hright,
        getComp_fresh samples w.components rid cr hcr hR, happly2]
    · simp [foldCopy_length, hv]
    · intro i hi
      obtain ⟨b, hb⟩ := getElem?_of_lt_length cr.data i (by omega)
      have hcache : (foldCopy fn1 w.leftVals w.rightVals w.values samples)[i]? =
          some (fn1 (w.leftVals.get w.values i) (w.rightVals.get w.values i)) :=
        foldCopy_getElem? _ _ _ _ _ _ hi
      refine ⟨b, hb, ?_⟩
      simp only []
      rw [foldCopy_getElem? _ _ _ _ _ _ (by omega), Buf.get_arr _ _ _ _ hcache,
        Buf.get_arr _ _ _ _ hb]
  · intro hl hpos
    simp only [step, resolveOperands, hcase, bind, Except.bind, pure, Except.pure, applyOp,
      hop, hextra, Option.isSome_some, Bool.not_true, apply_copy_unset samples w op1 hl hpos,
      orThrow]

theorem nested_right_uses_stale_operands_witness :
    (∃ w1, step 3
        { initWalk 3 fourComponents with
          values := [.num 11, .num 11, .num 11],
          leftVals := .arr (constantComponent "comp_2" 10 3).data,
          rightVals := .arr (constantComponent "comp_3" 1 3).data }
        (nestedRightNode "comp_0" .ADD "comp_1" .SUBTRACT) = .ok w1 ∧
      w1.values.length = 3 ∧
      ∀ i, i < 3 → ∃ b, (constantComponent "comp_1" 2 3).data[i]? = some b ∧
        w1.values[i]? =
          some (subtract (add
            ((Buf.arr (constantComponent "comp_2" 10 3).data).get
              [.num 11, .num 11, .num 11] i)
            ((Buf.arr (constantComponent "comp_3" 1 3).data).get
              [.num 11, .num 11, .num 11] i)) b)) ∧
    step 3 (initWalk 3 fourComponents) (nestedRightNode "comp_0" .ADD "comp_1" .SUBTRACT)
      = .error fourComponents ∧
    (walk 3 (initWalk 3 fourComponents)
        [bothNode "comp_2" .ADD "comp_3",
         nestedRightNode "comp_0" .ADD "comp_1" .SUBTRACT]).toOption.map (fun w => w.values)
      = some [.num 9, .num 9, .num 9] ∧
    subtract (add (.num 5) (.num 2)) (.num 2) = .num 5 :=
  ⟨(nested_right_uses_stale_operands 3
      { initWalk 3 fourComponents with
        values := [.num 11, .num 11, .num 11],
        leftVals := .arr (constantComponent "comp_2" 10 3).data,
        rightVals := .arr (constantComponent "comp_3" 1 3).data }
      (nestedRightNode "comp_0" .ADD "comp_1" .SUBTRACT) "comp_1"
      (constantComponent "comp_1" 2 3) .ADD .SUBTRACT add subtract
      rfl rfl rfl rfl rfl rfl rfl rfl rfl).1 (by simp) (by simp),
    (nested_right_uses_stale_operands 3 (initWalk 3 fourComponents)
      (nestedRightNode "comp_0" .ADD "comp_1" .SUBTRACT) "comp_1"
      (constantComponent "comp_1" 2 3) .ADD .SUBTRACT add subtract
      rfl rfl rfl rfl rfl rfl rfl rfl rfl).2 rfl (by decide),
    by with_unfolding_all decide, by with_unfolding_all decide⟩

/-! ## Identifiers over sequences of calls -/

theorem getID_fields {κ : Type} (ts : TimeSeries κ) :
    ts.getID.2.components = ts.components ∧ ts.getID.2.issued = ts.issued ++ [ts.getID.1] := by
  simp only [TimeSeries.getID]
  split <;> exact ⟨rfl, rfl⟩

theorem getID_number {κ : Type} (ts : TimeSeries κ) (k : Nat) (h : ts.COMP_ID = some k) :
    ts.getID.1 = "comp_" ++ toString k ∧ ts.getID.2.COMP_ID = some (k + 1) := by
  simp only [TimeSeries.getID, h, and_self]

theorem addComponent_componentIDs {κ : Type} (E : Env κ) (ts : TimeSeries κ)
    (generatorType : Option String) (seed : Nat) :
    (after (ts.addComponent E generatorType seed)).componentIDs
      = ts.componentIDs ++ [ts.getID.1] := by
  simp only [TimeSeries.addComponent, newComponent]
  rw [generate_componentIDs]
  simp only [TimeSeries.componentIDs, List.map_append, List.map_cons, List.map_nil,
    (getID_fields ts).1]

theorem removeComponent_componentIDs {κ : Type} (E : Env κ) (ts : TimeSeries κ) (id : String) :
    ((after (ts.removeComponent E id)).componentIDs).Sublist ts.componentIDs := by
  simp only [TimeSeries.removeComponent]
  split
  · rw [generate_componentIDs]
    exact (List.eraseIdx_sublist _ _).map _
  · rw [generate_componentIDs]

theorem switchComponents_componentIDs {κ : Type} (E : Env κ) (ts : TimeSeries κ)
    (fromID toID : String) :
    ((after (ts.switchComponents E fromID toID)).componentIDs).Perm ts.componentIDs := by
  simp only [TimeSeries.switchComponents]
  repeat' split
  all_goals rw [generate_componentIDs]
  rename_i cFrom cTo hFrom hTo
  exact (swap_perm ts.components _ _ cFrom cTo hFrom hTo).map _

/-- The counter is the number `k`, the component ids are pairwise distinct and
each of them is `comp_<j>` for a `j` below the counter. -/
theorem run_counter_ids {κ : Type} (E : Env κ) (ts : TimeSeries κ) (k : Nat) (op : Op)
    (hk : ts.COMP_ID = some k) (hnodup : ts.componentIDs.Nodup)
    (hbelow : ∀ id ∈ ts.componentIDs, ∃ j, j < k ∧ id = "comp_" ++ toString j) :
    (after (ts.run E op)).COMP_ID = some (k + (if op.callsGetID then 1 else 0)) ∧
    (after (ts.run E op)).componentIDs.Nodup ∧
    (∀ id ∈ (after (ts.run E op)).componentIDs,
      ∃ j, j < k + (if op.callsGetID then 1 else 0) ∧ id = "comp_" ++ toString j) ∧
    (after (ts.run E op)).issued
      = ts.issued ++ (if op.callsGetID then [ts.getID.1] else []) := by
  obtain ⟨hg1, hg2⟩ := getID_number ts k hk
  cases op with
  | addComponent generatorType seed =>
    obtain ⟨h1, h2⟩ := addComponent_counter E ts generatorType seed
    have hids := addComponent_componentIDs E ts generatorType seed
    simp only [TimeSeries.run, Op.callsGetID, if_true]
    refine ⟨by rw [h1, hg2], ?_, ?_, by rw [h2, (getID_fields ts).2]⟩
    · rw [hids, hg1]
      refine List.Nodup.append hnodup (List.nodup_singleton _) ?_
      intro a ha hb
      obtain ⟨j, hj, rfl⟩ := hbelow a ha
      have := comp_id_injective j k (List.mem_singleton.mp hb)
      omega
    · intro id hid
      rw [hids, List.mem_append, List.mem_singleton] at hid
      rcases hid with hid | hid
      · obtain ⟨j, hj, rfl⟩ := hbelow id hid
        exact ⟨j, by omega, rfl⟩
      · exact ⟨k, by omega, by rw [hid, hg1]⟩
  | removeComponent id =>
    obtain ⟨h1, h2⟩ := removeComponent_counter E ts id
    have hsub := removeComponent_componentIDs E ts id
    simp only [TimeSeries.run, Op.callsGetID, Bool.false_eq_true, if_false, Nat.add_zero,
      List.append_nil]
    exact ⟨by rw [h1, hk], hnodup.sublist hsub, fun a ha => hbelow a (hsub.subset ha), h2⟩
  | switchComponents fromID toID =>
    obtain ⟨h1, h2⟩ := switchComponents_counter E ts fromID toID
    have hperm := switchComponents_componentIDs E ts fromID toID
    simp only [TimeSeries.run, Op.callsGetID, Bool.false_eq_true, if_false, Nat.add_zero,
      List.append_nil]
    exact ⟨by rw [h1, hk], hperm.nodup_iff.mpr hnodup,
      fun a ha => hbelow a (hperm.subset ha), h2⟩

theorem runAll_counter_ids {κ : Type} (E : Env κ) (ops : List Op) :
    ∀ (ts : TimeSeries κ) (k : Nat), ts.COMP_ID = some k → ts.componentIDs.Nodup →
      (∀ id ∈ ts.componentIDs, ∃ j, j < k ∧ id = "comp_" ++ toString j) →
      ts.idsReturned E ops
        = (List.range' k (ops.countP Op.callsGetID)).map (fun j => "comp_" ++ toString j) ∧
      (ts.runAll E ops).COMP_ID = some (k + ops.countP Op.callsGetID) ∧
      (ts.runAll E ops).componentIDs.Nodup ∧
      (∀ id ∈ (ts.runAll E ops).componentIDs,
        ∃ j, j < k + ops.countP Op.callsGetID ∧ id = "comp_" ++ toString j) ∧
      (ts.runAll E ops).issued = ts.issued ++ ts.idsReturned E ops := by
  induction ops with
  | nil =>
    intro ts k hk hnodup hbelow
    exact ⟨rfl, hk, hnodup, hbelow, by simp [TimeSeries.runAll, TimeSeries.idsReturned]⟩
  | cons op ops ih =>
    intro ts k hk hnodup hbelow
    obtain ⟨h1, h2, h3, h4⟩ := run_counter_ids E ts k op hk hnodup hbelow
    obtain ⟨i1, i2, i3, i4, i5⟩ := ih _ _ h1 h2 h3
    have hg := (getID_number ts k hk).1
    cases hop : op.callsGetID with
    | true =>
      rw [hop] at i1 i2 i4 h4
      simp only [if_true] at i1 i2 i4 h4
      simp only [TimeSeries.runAll, TimeSeries.idsReturned, List.countP_cons, hop, if_true]
      refine ⟨?_, ?_, i3, ?_, ?_⟩
      · rw [i1, hg, List.range'_succ]
        rfl
      · rw [i2]
        congr 1
        omega
      · intro id hid
        obtain ⟨j, hj, hj2⟩ := i4 id hid
        exact ⟨j, by omega, hj2⟩
      · rw [i5, h4, List.append_assoc]
    | false =>
      rw [hop] at i1 i2 i4 h4
      simp only [Bool.false_eq_true, if_false, Nat.add_zero, List.append_nil] at i1 i2 i4 h4
      simp only [TimeSeries.runAll, TimeSeries.idsReturned, List.countP_cons, hop,
        Bool.false_eq_true, if_false, Nat.add_zero, List.nil_append]
      exact ⟨i1, i2, i3, i4, by rw [i5, h4]⟩

theorem new_counter_ids {κ : Type} (E : Env κ) (options : Options) (compositor : Option κ) :
    (after (TimeSeries.new E options [] compositor)).COMP_ID = some 1 ∧
    (after (TimeSeries.new E options [] compositor)).componentIDs = ["comp_0"] ∧
    (after (TimeSeries.new E options [] compositor)).issued = ["comp_0"] := by
  simp only [TimeSeries.new, List.length_nil, if_true]
  refine ⟨?_, ?_, ?_⟩
  · rw [(addComponent_counter E _ none 0).1]
    rfl
  · rw [addComponent_componentIDs]
    rfl
  · rw [(addComponent_counter E _ none 0).2]
    rfl

/-- C7: for a series created without loaded components the constructor's `getID()`
returns `comp_0`, and over every finite sequence of `addComponent` /
`removeComponent` / `switchComponents` calls the `getID()` calls return `comp_1`,
`comp_2`, ... in this order, one id per `addComponent`: all ids ever returned are
pairwise distinct, the counter is one more than the number of `addComponent` calls
so far, the ids of the components the series holds are pairwise distinct and were
all returned by `getID()`, an `addComponent` appends the id its `getID()` call
returns (`comp_<counter>`, returned never before) and advances the counter by
one, and `removeComponent` and `switchComponents` leave the counter as it is. -/
theorem ids_never_reused {κ : Type} (E : Env κ) (options : Options) (compositor : Option κ)
    (ops : List Op) :
    (after (TimeSeries.new E options [] compositor)).componentIDs = ["comp_0"] ∧
    (after (TimeSeries.new E options [] compositor)).idsReturned E ops
      = (List.range' 1 (ops.countP Op.callsGetID)).map (fun j => "comp_" ++ toString j) ∧
    ("comp_0" :: (after (TimeSeries.new E options [] compositor)).idsReturned E ops).Nodup ∧
    ((after (TimeSeries.new E options [] compositor)).runAll E ops).COMP_ID
      = some (1 + ops.countP Op.callsGetID) ∧
    ((after (TimeSeries.new E options [] compositor)).runAll E ops).issued
      = "comp_0" :: (after (TimeSeries.new E options [] compositor)).idsReturned E ops ∧
    ((after (TimeSeries.new E options [] compositor)).runAll E ops).componentIDs.Nodup ∧
    (∀ id ∈ ((after (TimeSeries.new E options [] compositor)).runAll E ops).componentIDs,
      id ∈ "comp_0" :: (after (TimeSeries.new E options [] compositor)).idsReturned E ops) ∧
    (∀ (generatorType : Option String) (seed : Nat),
      ((after (TimeSeries.new E options [] compositor)).runAll E ops).getID.1
        = "comp_" ++ toString (1 + ops.countP Op.callsGetID) ∧
      ((after (TimeSeries.new E options [] compositor)).runAll E ops).getID.1
        ∉ "comp_0" :: (after (TimeSeries.new E options [] compositor)).idsReturned E ops ∧
      (after (((after (TimeSeries.new E options [] compositor)).runAll E ops).addComponent E
          generatorType seed)).componentIDs
        = ((after (TimeSeries.new E options [] compositor)).runAll E ops).componentIDs ++
          [((after (TimeSeries.new E options [] compositor)).runAll E ops).getID.1] ∧
      (after (((after (TimeSeries.new E options [] compositor)).runAll E ops).addComponent E
          generatorType seed)).COMP_ID = some (1 + ops.countP Op.callsGetID + 1)) ∧
    (∀ (ts : TimeSeries κ) (id : String),
      (after (ts.removeComponent E id)).COMP_ID = ts.COMP_ID) ∧
    (∀ (ts : TimeSeries κ) (fromID toID : String),
      (after (ts.switchComponents E fromID toID)).COMP_ID = ts.COMP_ID) := by
  obtain ⟨n1, n2, n3⟩ := new_counter_ids E options compositor
  have hbelow : ∀ id ∈ (after (TimeSeries.new E options [] compositor)).componentIDs,
      ∃ j, j < 1 ∧ id = "comp_" ++ toString j := by
    intro id hid
    rw [n2, List.mem_singleton] at hid
    exact ⟨0, by omega, hid⟩
  obtain ⟨r1, r2, r3, r4, r5⟩ := runAll_counter_ids E ops _ 1 n1 (by rw [n2]; simp) hbelow
  have hall : "comp_0" :: (after (TimeSeries.new E options [] compositor)).idsReturned E ops
      = (List.range (1 + ops.countP Op.callsGetID)).map (fun j => "comp_" ++ toString j) := by
    rw [r1, List.range_eq_range', Nat.add_comm 1, List.range'_succ]
    rfl
  obtain ⟨g1, g2⟩ := getID_number _ _ r2
  refine ⟨n2, r1, ?_, r2, by rw [r5, n3]; rfl, r3, ?_, ?_,
    fun ts id => (removeComponent_counter E ts id).1,
    fun ts fromID toID => (switchComponents_counter E ts fromID toID).1⟩
  · rw [hall]
    exact (List.nodup_range _).map (fun a b hab => comp_id_injective a b hab)
  · intro id hid
    obtain ⟨j, hj, rfl⟩ := r4 id hid
    rw [hall]
    exact List.mem_map.mpr ⟨j, List.mem_range.mpr hj, rfl⟩
  · intro generatorType seed
    refine ⟨g1, ?_, addComponent_componentIDs E _ generatorType seed, ?_⟩
    · rw [hall, g1]
      intro hmem
      obtain ⟨j, hj, hj2⟩ := List.mem_map.mp hmem
      have := comp_id_injective j _ hj2
      have := List.mem_range.mp hj
      omega
    · rw [(addComponent_counter E _ generatorType seed).1, g2]

theorem ids_never_reused_witness :
    (after (TimeSeries.new singleNodeEnv TS_DEFAULTS [] none)).idsReturned singleNodeEnv
        [.addComponent none 1, .removeComponent "comp_0", .addComponent (some "TREND") 2,
          .switchComponents "comp_1" "comp_2", .addComponent none 3]
      = ["comp_1", "comp_2", "comp_3"] ∧
    ((after (TimeSeries.new singleNodeEnv TS_DEFAULTS [] none)).runAll singleNodeEnv
        [.addComponent none 1, .removeComponent "comp_0", .addComponent (some "TREND") 2,
          .switchComponents "comp_1" "comp_2", .addComponent none 3]).componentIDs
      = ["comp_2", "comp_1", "comp_3"] ∧
    ((after (TimeSeries.new singleNodeEnv TS_DEFAULTS [] none)).runAll singleNodeEnv
        [.addComponent none 1, .removeComponent "comp_0", .addComponent (some "TREND") 2,
          .switchComponents "comp_1" "comp_2", .addComponent none 3]).COMP_ID = some 4 ∧
    ((after (TimeSeries.new singleNodeEnv TS_DEFAULTS [] none)).runAll singleNodeEnv
        [.addComponent none 1, .removeComponent "comp_0", .addComponent (some "TREND") 2,
          .switchComponents "comp_1" "comp_2", .addComponent none 3]).getID.1 = "comp_4" :=
  have h := ids_never_reused singleNodeEnv TS_DEFAULTS none
    [.addComponent none 1, .removeComponent "comp_0", .addComponent (some "TREND") 2,
      .switchComponents "comp_1" "comp_2", .addComponent none 3]
  ⟨h.2.1, by set_option maxRecDepth 8000 in decide, h.2.2.2.1, (h.2.2.2.2.2.2.2.1 none 0).1⟩

/-! ## The constructor of the collection -/

/-- C23 as stated fails in its last part.  Given the one-element list
`[{id: "ts"}]`, whose id has no numeric suffix, the constructor leaves the counter
`NaN`, which is no number at least `series.length = 1`; given
`[{id: "ts_9007199254740992"}]` it leaves the counter at `2 ^ 53`, the loaded
suffix itself and not above it.  The collection holds no series in both cases. -/
theorem collection_constructor_stores_nothing_counterexample :
    (after (TimeSeriesCollection.new plainCollectionEnv TSC_DEFAULTS
      [{ id := "ts", dataY := [] }])).TS_ID = .nan ∧
    (after (TimeSeriesCollection.new plainCollectionEnv TSC_DEFAULTS
      [{ id := "ts", dataY := [] }])).size = 0 ∧
    parseIntNumber (idSuffix "ts_9007199254740992") = .int 9007199254740992 ∧
    (after (TimeSeriesCollection.new plainCollectionEnv TSC_DEFAULTS
      [{ id := "ts_9007199254740992", dataY := [] }])).TS_ID = .int 9007199254740992 ∧
    (after (TimeSeriesCollection.new plainCollectionEnv TSC_DEFAULTS
      [{ id := "ts_9007199254740992", dataY := [] }])).size = 0 := by
  refine ⟨by decide, by decide, by decide, by decide, by decide⟩

/-- C23, amended: the constructor of the collection stores none of the series it
is given and never calls `generate`: for every options object and every list
`series` it returns a collection with `size = 0` and `dataX = []`, whatever the
member class does, and its counter is read from the ids of the list.  When one id
has no numeric suffix the counter is `NaN`; when every id has a numeric suffix `z`
with `-2 ^ 53 ≤ z` and `z + 1 < 2 ^ 53`, the counter is a number that is at least
`series.length` and above every loaded suffix. -/
theorem collection_constructor_stores_nothing (E : CollectionEnv) (options : Options)
    (series : List Member) :
    (∃ c, TimeSeriesCollection.new E options series = .ok c ∧ c.size = 0 ∧ c.series = [] ∧
      c.dataX = [] ∧ c.TS_ID = loadSeriesCounter (series.map (fun s => s.id)) ∧
      c.start = options.start ∧ c.«end» = options.«end» ∧ c.samples = options.samples ∧
      c.dynamicRange = options.dynamicRange ∧ c.min = options.min ∧ c.max = options.max) ∧
    (∀ E1 : CollectionEnv,
      TimeSeriesCollection.new E1 options series = TimeSeriesCollection.new E options series) ∧
    ((∃ s ∈ series, parseIntNumber (idSuffix s.id) = .nan) →
      (after (TimeSeriesCollection.new E options series)).TS_ID = .nan) ∧
    ((∀ s ∈ series, ∃ z : Int, parseIntNumber (idSuffix s.id) = .int z ∧
        -(2 : Int) ^ 53 ≤ z ∧ z + 1 < (2 : Int) ^ 53) →
      ∃ k : Int, (after (TimeSeriesCollection.new E options series)).TS_ID = .int k ∧
        (series.length : Int) ≤ k ∧
        ∀ s ∈ series, ∀ z : Int, parseIntNumber (idSuffix s.id) = .int z → z < k) := by
  have hnew : ∀ E1 : CollectionEnv, TimeSeriesCollection.new E1 options series = .ok
      { start := options.start, «end» := options.«end», samples := options.samples,
        dynamicRange := options.dynamicRange, min := options.min, max := options.max,
        dataX := [], series := [],
        TS_ID := loadSeriesCounter (series.map (fun s => s.id)) } := by
    intro E1
    simp only [TimeSeriesCollection.new, TimeSeriesCollection.size, List.length_nil,
      gt_iff_lt, Nat.lt_irrefl, if_false]
  refine ⟨⟨_, hnew E, rfl, rfl, rfl, rfl, rfl, rfl, rfl, rfl, rfl, rfl⟩, ?_, ?_, ?_⟩
  · intro E1
    rw [hnew E1, hnew E]
  · intro h
    obtain ⟨s, hs, hnan⟩ := h
    rw [hnew E]
    exact loadSeriesCounter_nan (series.map (fun s => s.id)) _
      ⟨s.id, List.mem_map_of_mem (fun s => s.id) hs, hnan⟩
  · intro h
    obtain ⟨k, hk, hle, _, hall⟩ := loadSeriesCounter_bound (series.map (fun s => s.id))
      ((series.map (fun s => s.id)).length : Nat)
      (fun id hid => by
        obtain ⟨s, hs, rfl⟩ := List.mem_map.mp hid
        exact h s hs)
    refine ⟨k, ?_, by simpa using hle, ?_⟩
    · rw [hnew E]
      exact hk
    · intro s hs n hn
      exact hall s.id (List.mem_map_of_mem (fun s => s.id) hs) n hn

theorem collection_constructor_stores_nothing_witness :
    (after (TimeSeriesCollection.new plainCollectionEnv TSC_DEFAULTS
      [{ id := "ts_4", dataY := [] }, { id := "x", dataY := [] }])).TS_ID = .nan ∧
    (∃ k : Int, (after (TimeSeriesCollection.new plainCollectionEnv TSC_DEFAULTS
        [{ id := "ts_4", dataY := [] }, { id := "ts_1", dataY := [] }])).TS_ID = .int k ∧
      (([{ id := "ts_4", dataY := [] }, { id := "ts_1", dataY := [] }] : List Member).length
        : Int) ≤ k ∧
      (∀ s ∈ ([{ id := "ts_4", dataY := [] }, { id := "ts_1", dataY := [] }] : List Member),
        ∀ z : Int, parseIntNumber (idSuffix s.id) = .int z → z < k)) ∧
    (after (TimeSeriesCollection.new plainCollectionEnv TSC_DEFAULTS
      [{ id := "ts_4", dataY := [] }, { id := "ts_1", dataY := [] }])).TS_ID = .int 5 ∧
    (after (TimeSeriesCollection.new plainCollectionEnv TSC_DEFAULTS
      [{ id := "ts_4", dataY := [] }, { id := "ts_1", dataY := [] }])).size = 0 :=
  ⟨(collection_constructor_stores_nothing plainCollectionEnv TSC_DEFAULTS
      [{ id := "ts_4", dataY := [] }, { id := "x", dataY := [] }]).2.2.1
      ⟨{ id := "x", dataY := [] }, by simp, by decide⟩,
    (collection_constructor_stores_nothing plainCollectionEnv TSC_DEFAULTS
      [{ id := "ts_4", dataY := [] }, { id := "ts_1", dataY := [] }]).2.2.2
      (by
        intro s hs
        simp only [List.mem_cons, List.mem_singleton, List.not_mem_nil, or_false] at hs
        rcases hs with rfl | rfl
        · exact ⟨4, by decide, by decide, by decide⟩
        · exact ⟨1, by decide, by decide, by decide⟩),
    by decide, by decide⟩

end TimeSeriesMaker
